import Mathlib

/-!
# Median move generator (VPR placer): bounding boxes and median region

A shallow embedding of `vpr/src/place/median_move_generator.cpp`:

* `get_bb_from_scratch_excluding_block` : the exact bounding box of a net with
  one block left out;
* `get_bb_incrementally` : the cheap update from the cached box and the cached
  edge counts;
* the accumulation loop, the sort-and-index step and the target centre of
  `MedianMoveGenerator::propose_move`.

C++ `int` coordinates are mathematical integers here, with one exception: the
addition of the two median limits (lines 150 and 151) is the 32-bit machine
addition `int_add`, since two limits near the top of the `int` range make it
wrap.  Reference out-parameters (`t_bb& bb_coord_new`, `bool& skip_net`) are
passed in and returned explicitly.
-/

namespace MedianMove

/-! ## Data model -/

abbrev ClusterBlockId := Nat
abbrev ClusterNetId := Nat
abbrev ClusterPinId := Nat

/-- Bounding box record `t_bb`; this file only ever writes the four planar fields. -/
structure t_bb where
  xmin : Int
  xmax : Int
  ymin : Int
  ymax : Int
  layer_min : Int
  layer_max : Int
  deriving DecidableEq, Repr

/-- Grid location `t_pl_loc`. -/
structure t_pl_loc where
  x : Int
  y : Int
  sub_tile : Int
  layer : Int
  deriving DecidableEq, Repr

/-- The read-only data the three functions look up through the global contexts
(`cluster_ctx.clb_nlist`, `place_ctx`, `device_ctx.grid`, `place_move_ctx`) and
the constants declared in headers that are not part of this file. -/
structure Context where
  /-- `OPEN`, the "no value" constant of the headers. -/
  OPEN : Int
  /-- `SMALL_NET`, the sink count below which a net is always rescanned. -/
  SMALL_NET : Nat
  /-- `device_ctx.grid.width()` -/
  grid_width : Nat
  /-- `device_ctx.grid.height()` -/
  grid_height : Nat
  /-- `device_ctx.grid.get_num_layers()` -/
  num_layers : Nat
  /-- `clb_nlist.block_pins(blk)` -/
  block_pins : ClusterBlockId → List ClusterPinId
  /-- `clb_nlist.pin_net(pin)` -/
  pin_net : ClusterPinId → ClusterNetId
  /-- `clb_nlist.pin_block(pin)` -/
  pin_block : ClusterPinId → ClusterBlockId
  /-- `clb_nlist.pin_type(pin) == PinType::SINK` -/
  pin_is_sink : ClusterPinId → Bool
  /-- `tile_pin_index(pin)` -/
  tile_pin_index : ClusterPinId → Int
  /-- `clb_nlist.net_is_ignored(net)` -/
  net_is_ignored : ClusterNetId → Bool
  /-- `clb_nlist.net_pins(net).size()` -/
  net_pins_size : ClusterNetId → Nat
  /-- `clb_nlist.net_sinks(net)` -/
  net_sinks : ClusterNetId → List ClusterPinId
  /-- `clb_nlist.net_driver_block(net)` -/
  net_driver_block : ClusterNetId → ClusterBlockId
  /-- `net_pin_to_tile_pin_index(net, 0)` -/
  net_driver_tile_pin_index : ClusterNetId → Int
  /-- `place_ctx.block_locs[blk].loc` -/
  block_locs : ClusterBlockId → t_pl_loc
  /-- `physical_tile_type(blk)->pin_width_offset[pnum]` -/
  pin_width_offset : ClusterBlockId → Int → Int
  /-- `physical_tile_type(blk)->pin_height_offset[pnum]` -/
  pin_height_offset : ClusterBlockId → Int → Int
  /-- `g_vpr_ctx.placement().cube_bb` -/
  cube_bb : Bool
  /-- `place_move_ctx.bb_coords[net]` -/
  bb_coords : ClusterNetId → t_bb
  /-- `place_move_ctx.bb_num_on_edges[net]` -/
  bb_num_on_edges : ClusterNetId → t_bb
  /-- `union_2d_bb(place_move_ctx.layer_bb_coords[net])` -/
  union_2d_bb : ClusterNetId → t_bb
  /-- `union_2d_bb_incr(layer_bb_num_on_edges[net], layer_bb_coords[net])`,
  the pair (edge counts, coordinates). -/
  union_2d_bb_incr : ClusterNetId → t_bb × t_bb
  /-- `place_move_ctx.num_sink_pin_layer[net][layer]` -/
  num_sink_pin_layer : ClusterNetId → Nat → Int

/-! ## `get_bb_from_scratch_excluding_block` -/

/-- The local variables of `get_bb_from_scratch_excluding_block` that the sink
loop reads and writes. -/
structure ScratchVars where
  xmin : Int
  xmax : Int
  ymin : Int
  ymax : Int
  first_block : Bool
  skip_net : Bool
  deriving DecidableEq, Repr

/-- The part of `get_bb_from_scratch_excluding_block` before the sink loop:
the initialisation and the driver pin. -/
def scratch_driver (ctx : Context) (net_id : ClusterNetId) (block_id : ClusterBlockId) :
    ScratchVars :=
  let bnum := ctx.net_driver_block net_id
  if bnum ≠ block_id then
    let pnum := ctx.net_driver_tile_pin_index net_id
    let src_x := (ctx.block_locs bnum).x + ctx.pin_width_offset bnum pnum
    let src_y := (ctx.block_locs bnum).y + ctx.pin_height_offset bnum pnum
    { xmin := src_x, ymin := src_y, xmax := src_x, ymax := src_y,
      first_block := true, skip_net := false }
  else
    { xmin := ctx.OPEN, xmax := ctx.OPEN, ymin := ctx.OPEN, ymax := ctx.OPEN,
      first_block := false, skip_net := true }

/-- One iteration of the sink loop of `get_bb_from_scratch_excluding_block`. -/
def scratch_sink (ctx : Context) (block_id : ClusterBlockId) (s : ScratchVars)
    (pin_id : ClusterPinId) : ScratchVars :=
  let bnum := ctx.pin_block pin_id
  let pnum := ctx.tile_pin_index pin_id
  if bnum = block_id then s
  else
    let x := (ctx.block_locs bnum).x + ctx.pin_width_offset bnum pnum
    let y := (ctx.block_locs bnum).y + ctx.pin_height_offset bnum pnum
    if !s.first_block then
      { xmin := x, ymin := y, xmax := x, ymax := y, first_block := true, skip_net := false }
    else
      let xmin := if x < s.xmin then x else s.xmin
      let xmax := if x < s.xmin then s.xmax else if x > s.xmax then x else s.xmax
      let ymin := if y < s.ymin then y else s.ymin
      let ymax := if y < s.ymin then s.ymax else if y > s.ymax then y else s.ymax
      { xmin := xmin, xmax := xmax, ymin := ymin, ymax := ymax,
        first_block := s.first_block, skip_net := false }

/-- `get_bb_from_scratch_excluding_block(net_id, bb_coord_new, block_id, skip_net)`:
returns the new value of `bb_coord_new` and of `skip_net`. -/
def get_bb_from_scratch_excluding_block (ctx : Context) (net_id : ClusterNetId)
    (bb_coord_new : t_bb) (block_id : ClusterBlockId) : t_bb × Bool :=
  let s := (ctx.net_sinks net_id).foldl (scratch_sink ctx block_id)
    (scratch_driver ctx net_id block_id)
  ({ bb_coord_new with
      xmin := max (min s.xmin ((ctx.grid_width : Int) - 2)) 1
      ymin := max (min s.ymin ((ctx.grid_height : Int) - 2)) 1
      xmax := max (min s.xmax ((ctx.grid_width : Int) - 2)) 1
      ymax := max (min s.ymax ((ctx.grid_height : Int) - 2)) 1 },
   s.skip_net)

/-! ## `get_bb_incrementally` -/

/-- The x half of `get_bb_incrementally` (the `if (xnew < xold)` chain), on the
already clipped coordinates: `none` is the early `return false`. -/
def incr_x (curr_bb_edge curr_bb_coord bb_coord_new : t_bb) (xold xnew : Int) : Option t_bb :=
  if xnew < xold then
    -- move to left: the xmax field first
    let r : Option t_bb :=
      if xold = curr_bb_coord.xmax then
        if curr_bb_edge.xmax = 1 then none
        else some { bb_coord_new with xmax := curr_bb_coord.xmax }
      else some { bb_coord_new with xmax := curr_bb_coord.xmax }
    -- then the xmin field
    r.map fun bb =>
      if xnew < curr_bb_coord.xmin then { bb with xmin := xnew }
      else if xnew = curr_bb_coord.xmin then { bb with xmin := xnew }
      else { bb with xmin := curr_bb_coord.xmin }
  else if xnew > xold then
    -- move to right: the xmin field first
    let r : Option t_bb :=
      if xold = curr_bb_coord.xmin then
        if curr_bb_edge.xmin = 1 then none
        else some { bb_coord_new with xmin := curr_bb_coord.xmin }
      else some { bb_coord_new with xmin := curr_bb_coord.xmin }
    -- then the xmax field
    r.map fun bb =>
      if xnew > curr_bb_coord.xmax then { bb with xmax := xnew }
      else if xnew = curr_bb_coord.xmax then { bb with xmax := xnew }
      else { bb with xmax := curr_bb_coord.xmax }
  else
    some { bb_coord_new with xmin := curr_bb_coord.xmin, xmax := curr_bb_coord.xmax }

/-- The y half of `get_bb_incrementally` (the `if (ynew < yold)` chain). -/
def incr_y (curr_bb_edge curr_bb_coord bb_coord_new : t_bb) (yold ynew : Int) : Option t_bb :=
  if ynew < yold then
    -- move down: the ymax field first
    let r : Option t_bb :=
      if yold = curr_bb_coord.ymax then
        if curr_bb_edge.ymax = 1 then none
        else some { bb_coord_new with ymax := curr_bb_coord.ymax }
      else some { bb_coord_new with ymax := curr_bb_coord.ymax }
    -- then the ymin field
    r.map fun bb =>
      if ynew < curr_bb_coord.ymin then { bb with ymin := ynew }
      else if ynew = curr_bb_coord.ymin then { bb with ymin := ynew }
      else { bb with ymin := curr_bb_coord.ymin }
  else if ynew > yold then
    -- move up: the ymin field first
    let r : Option t_bb :=
      if yold = curr_bb_coord.ymin then
        if curr_bb_edge.ymin = 1 then none
        else some { bb_coord_new with ymin := curr_bb_coord.ymin }
      else some { bb_coord_new with ymin := curr_bb_coord.ymin }
    -- then the ymax field
    r.map fun bb =>
      if ynew > curr_bb_coord.ymax then { bb with ymax := ynew }
      else if ynew = curr_bb_coord.ymax then { bb with ymax := ynew }
      else { bb with ymax := curr_bb_coord.ymax }
  else
    some { bb_coord_new with ymin := curr_bb_coord.ymin, ymax := curr_bb_coord.ymax }

/-- The local `curr_bb_edge` of `get_bb_incrementally`. -/
def curr_bb_edge (ctx : Context) (net_id : ClusterNetId) : t_bb :=
  if ctx.cube_bb then ctx.bb_num_on_edges net_id else (ctx.union_2d_bb_incr net_id).1

/-- The local `curr_bb_coord` of `get_bb_incrementally`. -/
def curr_bb_coord (ctx : Context) (net_id : ClusterNetId) : t_bb :=
  if ctx.cube_bb then ctx.bb_coords net_id else (ctx.union_2d_bb_incr net_id).2

/-- `get_bb_incrementally(net_id, bb_coord_new, xold, yold, xnew, ynew)`:
`none` is `return false` (the caller then overwrites all four planar fields),
`some bb` is `return true` with `bb` the value left in `bb_coord_new`. -/
def get_bb_incrementally (ctx : Context) (net_id : ClusterNetId) (bb_coord_new : t_bb)
    (xold yold xnew ynew : Int) : Option t_bb :=
  let xnew := max (min xnew ((ctx.grid_width : Int) - 2)) 1
  let ynew := max (min ynew ((ctx.grid_height : Int) - 2)) 1
  let xold := max (min xold ((ctx.grid_width : Int) - 2)) 1
  let yold := max (min yold ((ctx.grid_height : Int) - 2)) 1
  match incr_x (curr_bb_edge ctx net_id) (curr_bb_coord ctx net_id) bb_coord_new xold xnew with
  | none => none
  | some bb => incr_y (curr_bb_edge ctx net_id) (curr_bb_coord ctx net_id) bb yold ynew

/-! ## `MedianMoveGenerator::propose_move` -/

/-- Result code `e_create_move`. -/
inductive e_create_move where
  | VALID
  | ABORT
  deriving DecidableEq, Repr

/-- The fields of `t_placer_opts` read by `propose_move`; `F` stands for `float`. -/
structure t_placer_opts (F : Type) where
  place_high_fanout_net : Int
  place_dm_rlim : F

/-- Record `t_range_limiters`. -/
structure t_range_limiters (F : Type) where
  original_rlim : F
  first_rlim : F
  dm_rlim : F

/-- The routines of other files that `propose_move` calls; `B` stands for
`t_pl_blocks_to_be_moved`, `F` for `float`. -/
structure Collaborators (B F : Type) where
  /-- `propose_block_to_move(placer_opts, logical_blk_type_index, false, nullptr, nullptr)`;
  `none` is the invalid block id. -/
  propose_block_to_move : t_placer_opts F → Int → Option ClusterBlockId
  /-- `clb_nlist.block_type(blk)` -/
  block_type : ClusterBlockId → Nat
  /-- `grid.get_physical_type({x, y, layer})` -/
  get_physical_type : Int → Int → Int → Nat
  /-- `is_tile_compatible(physical, logical)` -/
  is_tile_compatible : Nat → Nat → Bool
  /-- `place_move_ctx.first_rlim` -/
  first_rlim : F
  /-- `find_to_loc_centroid(type, from, centroid, range_limiters, to, b_from)`:
  the returned flag and the value left in `to`. -/
  find_to_loc_centroid :
    Nat → t_pl_loc → t_pl_loc → t_range_limiters F → t_pl_loc → ClusterBlockId → Bool × t_pl_loc
  /-- `::create_move(blocks_affected, b_from, to)`: the result code and the
  value left in `blocks_affected`. -/
  create_move : B → ClusterBlockId → t_pl_loc → e_create_move × B
  /-- `floorplan_legal(blocks_affected)` -/
  floorplan_legal : B → Bool

/-- The variables the pin loop of `propose_move` carries from one iteration to
the next. -/
structure MoveVars where
  coords : t_bb
  X_coord : List Int
  Y_coord : List Int
  layer_blk_cnt : List Int
  deriving DecidableEq, Repr

/-- The local `net_bb_coords` of the large-net branch of `propose_move`. -/
def net_bb_coords (ctx : Context) (net_id : ClusterNetId) : t_bb :=
  if ctx.cube_bb then ctx.bb_coords net_id else ctx.union_2d_bb net_id

/-- What the first half of a loop iteration of `propose_move` ends with. -/
inductive NetOutcome where
  /-- a `VTR_ASSERT` failed -/
  | fault
  /-- `continue`, with the value left in `coords` -/
  | skip (coords : t_bb)
  /-- fall through to the `push_back` lines, with the value left in `coords` -/
  | keep (coords : t_bb)
  deriving DecidableEq, Repr

/-- Lines 68 to 109 of `propose_move`: the box of one net as seen from one pin
of the moving block. -/
def net_box (ctx : Context) (b_from : ClusterBlockId) (coords : t_bb)
    (pin_id : ClusterPinId) : NetOutcome :=
  let net_id := ctx.pin_net pin_id
  if (ctx.net_sinks net_id).length < ctx.SMALL_NET then
    let r := get_bb_from_scratch_excluding_block ctx net_id coords b_from
    if r.2 then NetOutcome.skip r.1 else NetOutcome.keep r.1
  else
    let bnum := ctx.pin_block pin_id
    let pnum := ctx.tile_pin_index pin_id
    if ¬ (pnum ≥ 0) then NetOutcome.fault
    else
      let xold := (ctx.block_locs bnum).x + ctx.pin_width_offset bnum pnum
      let yold := (ctx.block_locs bnum).y + ctx.pin_height_offset bnum pnum
      let xold := max (min xold ((ctx.grid_width : Int) - 2)) 1
      let yold := max (min yold ((ctx.grid_height : Int) - 2)) 1
      let xnew :=
        if (net_bb_coords ctx net_id).xmin = xold then (net_bb_coords ctx net_id).xmax
        else (net_bb_coords ctx net_id).xmin
      let ynew :=
        if (net_bb_coords ctx net_id).ymin = yold then (net_bb_coords ctx net_id).ymax
        else (net_bb_coords ctx net_id).ymin
      match get_bb_incrementally ctx net_id coords xold yold xnew ynew with
      | none =>
        let r := get_bb_from_scratch_excluding_block ctx net_id coords b_from
        if r.2 then NetOutcome.skip r.1 else NetOutcome.keep r.1
      | some bb => NetOutcome.keep bb

/-- Lines 116 to 124: the layer tally of one kept net. -/
def tally_layers (ctx : Context) (from_layer : Int) (pin_id : ClusterPinId)
    (layer_blk_cnt : List Int) : List Int :=
  let cnt := layer_blk_cnt.enum.map
    fun ic => ic.2 + ctx.num_sink_pin_layer (ctx.pin_net pin_id) ic.1
  if ctx.pin_is_sink pin_id then
    cnt.set from_layer.toNat (cnt.getD from_layer.toNat 0 - 1)
  else cnt

/-- One iteration of the pin loop of `propose_move` (lines 58 to 126);
`none` is a failed `VTR_ASSERT`. -/
def pin_step {F : Type} (ctx : Context) (placer_opts : t_placer_opts F)
    (b_from : ClusterBlockId) (s : MoveVars) (pin_id : ClusterPinId) : Option MoveVars :=
  let net_id := ctx.pin_net pin_id
  if ctx.net_is_ignored net_id then some s
  else if (ctx.net_pins_size net_id : Int) > placer_opts.place_high_fanout_net then some s
  else
    match net_box ctx b_from s.coords pin_id with
    | NetOutcome.fault => none
    | NetOutcome.skip coords => some { s with coords := coords }
    | NetOutcome.keep coords =>
      some
        { coords := coords
          X_coord := (s.X_coord.concat coords.xmin).concat coords.xmax
          Y_coord := (s.Y_coord.concat coords.ymin).concat coords.ymax
          layer_blk_cnt :=
            if ctx.num_layers > 1 then
              tally_layers ctx (ctx.block_locs b_from).layer pin_id s.layer_blk_cnt
            else s.layer_blk_cnt }

/-- The pin loop of `propose_move` over a list of pins. -/
def pin_loop {F : Type} (ctx : Context) (placer_opts : t_placer_opts F)
    (b_from : ClusterBlockId) : MoveVars → List ClusterPinId → Option MoveVars
  | s, [] => some s
  | s, pin_id :: rest =>
    match pin_step ctx placer_opts b_from s pin_id with
    | none => none
    | some s1 => pin_loop ctx placer_opts b_from s1 rest

/-- Lines 43 to 126 of `propose_move`: the scratch vectors are cleared, the
tally is zeroed, and the loop runs over the pins of `b_from`.  The contents the
scratch vectors hold on entry are the last two arguments. -/
def accumulate {F : Type} (ctx : Context) (placer_opts : t_placer_opts F)
    (b_from : ClusterBlockId) (_X_coord_entry _Y_coord_entry : List Int) : Option MoveVars :=
  pin_loop ctx placer_opts b_from
    { coords := { xmin := ctx.OPEN, xmax := ctx.OPEN, ymin := ctx.OPEN, ymax := ctx.OPEN,
                  layer_min := ctx.OPEN, layer_max := ctx.OPEN }
      X_coord := []
      Y_coord := []
      layer_blk_cnt := List.replicate ctx.num_layers 0 }
    (ctx.block_pins b_from)

/-- `std::stable_sort` on a vector of `int`: the ascending rearrangement. -/
def stable_sort (v : List Int) : List Int :=
  v.insertionSort (fun a b => a ≤ b)

/-- Lines 134 to 141 on one axis: sort, then read positions
`(size - 1) / 2` and `(size - 1) / 2 + 1`; `none` is a read past the end.
The caller has checked that the vector is not empty, so `size - 1` does not wrap. -/
def median_limits (coord : List Int) : Option (Int × Int) :=
  let sorted := stable_sort coord
  match sorted[(sorted.length - 1) / 2]?, sorted[(sorted.length - 1) / 2 + 1]? with
  | some lo, some hi => some (lo, hi)
  | _, _ => none

/-- Addition of two C++ `int` values as the machine performs it: the sum
reduced to the 32-bit two's-complement range `[-2^31, 2^31)`. -/
def int_add (a b : Int) : Int :=
  (a + b + 2147483648) % 4294967296 - 2147483648

/-- Lines 150 and 151 on one axis: `(min + max) / 2` in C++ `int` arithmetic
(a 32-bit sum, then a quotient rounded toward zero). -/
def median_center (limits : Int × Int) : Int :=
  (int_add limits.1 limits.2).tdiv 2

/-- `std::max_element` followed by `std::distance` from `begin()`: the running
best position `best` with value `bestv`, scanning from position `i`. -/
def max_element_from : List Int → Nat → Nat → Int → Nat
  | [], _, best, _ => best
  | v :: rest, i, best, bestv =>
    if bestv < v then max_element_from rest (i + 1) i v
    else max_element_from rest (i + 1) best bestv

/-- Line 156: the position of the first largest entry (0 for an empty vector). -/
def max_element_index : List Int → Nat
  | [] => 0
  | v :: rest => max_element_from rest 1 0 v

/-- What `propose_move` leaves behind: the result code, `blocks_affected`, and
the two scratch vectors. -/
structure MoveResult (B : Type) where
  result : e_create_move
  blocks_affected : B
  X_coord : List Int
  Y_coord : List Int

/-- The target handed to the site search (lines 128 to 162): `none` is a read
past the end of a scratch vector, `some none` is the `ABORT` of line 130,
`some (some (limits, median_point))` the median region and its centre. -/
def median_target (ctx : Context) (from_loc : t_pl_loc) (s : MoveVars) :
    Option (Option (t_bb × t_pl_loc)) :=
  if s.X_coord.isEmpty ∨ s.Y_coord.isEmpty then some none
  else
    match median_limits s.X_coord, median_limits s.Y_coord with
    | some lx, some ly =>
      let layer : Int :=
        if ctx.num_layers > 1 then (max_element_index s.layer_blk_cnt : Int) else from_loc.layer
      some (some
        ({ xmin := lx.1, xmax := lx.2, ymin := ly.1, ymax := ly.2,
           layer_min := ctx.OPEN, layer_max := ctx.OPEN },
         { x := median_center lx, y := median_center ly, sub_tile := ctx.OPEN, layer := layer }))
    | _, _ => none

/-- `MedianMoveGenerator::propose_move`; `none` is a failed `VTR_ASSERT` or a
read past the end of a vector. -/
def propose_move {B F : Type} (ctx : Context) (ext : Collaborators B F)
    (blocks_affected : B) (logical_blk_type_index : Int) (rlim : F)
    (placer_opts : t_placer_opts F) (X_coord_entry Y_coord_entry : List Int) :
    Option (MoveResult B) :=
  match ext.propose_block_to_move placer_opts logical_blk_type_index with
  | none =>
    some { result := e_create_move.ABORT, blocks_affected := blocks_affected,
           X_coord := X_coord_entry, Y_coord := Y_coord_entry }
  | some b_from =>
    let from_loc := ctx.block_locs b_from
    let cluster_from_type := ext.block_type b_from
    let grid_from_type := ext.get_physical_type from_loc.x from_loc.y from_loc.layer
    if ¬ ext.is_tile_compatible grid_from_type cluster_from_type then none
    else
      match accumulate ctx placer_opts b_from X_coord_entry Y_coord_entry with
      | none => none
      | some s =>
        match median_target ctx from_loc s with
        | none => none
        | some none =>
          some { result := e_create_move.ABORT, blocks_affected := blocks_affected,
                 X_coord := s.X_coord, Y_coord := s.Y_coord }
        | some (some (_, median_point)) =>
          let X := stable_sort s.X_coord
          let Y := stable_sort s.Y_coord
          let range_limiters : t_range_limiters F :=
            { original_rlim := rlim, first_rlim := ext.first_rlim,
              dm_rlim := placer_opts.place_dm_rlim }
          let to_loc : t_pl_loc :=
            { x := ctx.OPEN, y := ctx.OPEN, sub_tile := ctx.OPEN, layer := median_point.layer }
          let found := ext.find_to_loc_centroid cluster_from_type from_loc median_point
            range_limiters to_loc b_from
          if ¬ found.1 then
            some { result := e_create_move.ABORT, blocks_affected := blocks_affected,
                   X_coord := X, Y_coord := Y }
          else
            let created := ext.create_move blocks_affected b_from found.2
            if ¬ ext.floorplan_legal created.2 then
              some { result := e_create_move.ABORT, blocks_affected := created.2,
                     X_coord := X, Y_coord := Y }
            else
              some { result := created.1, blocks_affected := created.2,
                     X_coord := X, Y_coord := Y }

/-! ## Specification-side vocabulary

These definitions follow the words of the specification, not the code; the
theorems below compare them with the functions above. -/

/-- The clipping of the specification: `clamp(v) = max(min(v, extent - 2), 1)`. -/
def clamp (v : Int) (extent : Nat) : Int :=
  max (min v ((extent : Int) - 2)) 1

/-- Absolute coordinate of a sink pin: the grid location of its block plus the
pin's width and height offset. -/
def pin_coord (ctx : Context) (pin_id : ClusterPinId) : Int × Int :=
  ((ctx.block_locs (ctx.pin_block pin_id)).x
      + ctx.pin_width_offset (ctx.pin_block pin_id) (ctx.tile_pin_index pin_id),
   (ctx.block_locs (ctx.pin_block pin_id)).y
      + ctx.pin_height_offset (ctx.pin_block pin_id) (ctx.tile_pin_index pin_id))

/-- Absolute coordinate of the driver pin of a net. -/
def driver_coord (ctx : Context) (net_id : ClusterNetId) : Int × Int :=
  ((ctx.block_locs (ctx.net_driver_block net_id)).x
      + ctx.pin_width_offset (ctx.net_driver_block net_id)
          (ctx.net_driver_tile_pin_index net_id),
   (ctx.block_locs (ctx.net_driver_block net_id)).y
      + ctx.pin_height_offset (ctx.net_driver_block net_id)
          (ctx.net_driver_tile_pin_index net_id))

/-- Coordinates of the sinks in `sinks` that do not belong to `block_id`. -/
def remaining_sink_coords (ctx : Context) (block_id : ClusterBlockId)
    (sinks : List ClusterPinId) : List (Int × Int) :=
  (sinks.filter fun p => decide (ctx.pin_block p ≠ block_id)).map (pin_coord ctx)

/-- Coordinates of the pins of a net (driver first, then the sinks) that remain
once every pin of `block_id` is omitted. -/
def remaining_coords (ctx : Context) (net_id : ClusterNetId) (block_id : ClusterBlockId) :
    List (Int × Int) :=
  (if ctx.net_driver_block net_id ≠ block_id then [driver_coord ctx net_id] else [])
    ++ remaining_sink_coords ctx block_id (ctx.net_sinks net_id)

/-- Coordinates of all pins of a net: the driver, then the sinks. -/
def net_coords (ctx : Context) (net_id : ClusterNetId) : List (Int × Int) :=
  driver_coord ctx net_id :: (ctx.net_sinks net_id).map (pin_coord ctx)

/-- The four planar fields of a box, in the order xmin, xmax, ymin, ymax. -/
def planar (bb : t_bb) : Int × Int × Int × Int :=
  (bb.xmin, bb.xmax, bb.ymin, bb.ymax)

/-- Smallest entry of `a :: l`. -/
def min_of (a : Int) (l : List Int) : Int := l.foldl min a

/-- Largest entry of `a :: l`. -/
def max_of (a : Int) (l : List Int) : Int := l.foldl max a

/-- The from-scratch bounding box of the specification: the clamped minimum and
maximum of x and of y over a list of pin coordinates (none for no pin). -/
def scan_bb (W H : Nat) : List (Int × Int) → Option (Int × Int × Int × Int)
  | [] => none
  | p :: rest =>
    some (clamp (min_of p.1 (rest.map Prod.fst)) W, clamp (max_of p.1 (rest.map Prod.fst)) W,
          clamp (min_of p.2 (rest.map Prod.snd)) H, clamp (max_of p.2 (rest.map Prod.snd)) H)

/-- Number of pins of `pts` whose clamped x coordinate is `e`. -/
def pins_on_x (W : Nat) (pts : List (Int × Int)) (e : Int) : Int :=
  ((pts.filter fun p => decide (clamp p.1 W = e)).length : Int)

/-- Number of pins of `pts` whose clamped y coordinate is `e`. -/
def pins_on_y (H : Nat) (pts : List (Int × Int)) (e : Int) : Int :=
  ((pts.filter fun p => decide (clamp p.2 H = e)).length : Int)

/-- The cache of a net is valid: the cached box is the from-scratch box of all
the net's pins and each cached edge count is the number of pins on that edge. -/
def valid_cache (ctx : Context) (net_id : ClusterNetId) : Prop :=
  scan_bb ctx.grid_width ctx.grid_height (net_coords ctx net_id)
      = some (planar (curr_bb_coord ctx net_id))
    ∧ (curr_bb_edge ctx net_id).xmin
        = pins_on_x ctx.grid_width (net_coords ctx net_id) (curr_bb_coord ctx net_id).xmin
    ∧ (curr_bb_edge ctx net_id).xmax
        = pins_on_x ctx.grid_width (net_coords ctx net_id) (curr_bb_coord ctx net_id).xmax
    ∧ (curr_bb_edge ctx net_id).ymin
        = pins_on_y ctx.grid_height (net_coords ctx net_id) (curr_bb_coord ctx net_id).ymin
    ∧ (curr_bb_edge ctx net_id).ymax
        = pins_on_y ctx.grid_height (net_coords ctx net_id) (curr_bb_coord ctx net_id).ymax

instance (ctx : Context) (net_id : ClusterNetId) : Decidable (valid_cache ctx net_id) := by
  unfold valid_cache; infer_instance

/-- The cached box and the box used to choose `xnew`, `ynew` in `propose_move`
are the same box (they are two unions of the same per-layer boxes when
`cube_bb` is off). -/
def same_cached_box (ctx : Context) (net_id : ClusterNetId) : Prop :=
  net_bb_coords ctx net_id = curr_bb_coord ctx net_id

instance (ctx : Context) (net_id : ClusterNetId) : Decidable (same_cached_box ctx net_id) := by
  unfold same_cached_box; infer_instance

/-- The choice of `xnew` (and `ynew`) in `propose_move`: the cached maximum if
the old coordinate sits on the cached minimum, else the cached minimum. -/
def non_critical (cmin cmax old : Int) : Int :=
  if cmin = old then cmax else cmin

/-- A box lies in the grid interior: `xmin ≤ xmax`, `ymin ≤ ymax` and all four
bounds are in `[1, W-2] × [1, H-2]`. -/
def box_in_grid (W H : Nat) (bb : t_bb) : Prop :=
  bb.xmin ≤ bb.xmax ∧ bb.ymin ≤ bb.ymax ∧ 1 ≤ bb.xmin ∧ bb.xmax ≤ (W : Int) - 2
    ∧ 1 ≤ bb.ymin ∧ bb.ymax ≤ (H : Int) - 2

instance (W H : Nat) (bb : t_bb) : Decidable (box_in_grid W H bb) := by
  unfold box_in_grid; infer_instance

/-- The excluded block's own location and pin offsets replaced by arbitrary
other values; everything else is left as it is. -/
def with_block_moved (ctx : Context) (block_id : ClusterBlockId) (loc : t_pl_loc)
    (wo ho : Int → Int) : Context :=
  { ctx with
    block_locs := fun b => if b = block_id then loc else ctx.block_locs b
    pin_width_offset := fun b => if b = block_id then wo else ctx.pin_width_offset b
    pin_height_offset := fun b => if b = block_id then ho else ctx.pin_height_offset b }

/-- The four situations in which an incremental update is impossible: an
inward move off an edge that a single pin holds. -/
def recompute_required (e c : t_bb) (xold yold xnew ynew : Int) : Prop :=
  (xnew < xold ∧ xold = c.xmax ∧ e.xmax = 1) ∨ (xnew > xold ∧ xold = c.xmin ∧ e.xmin = 1)
    ∨ (ynew < yold ∧ yold = c.ymax ∧ e.ymax = 1) ∨ (ynew > yold ∧ yold = c.ymin ∧ e.ymin = 1)

instance (e c : t_bb) (xold yold xnew ynew : Int) :
    Decidable (recompute_required e c xold yold xnew ynew) := by
  unfold recompute_required; infer_instance

/-- The cached box `c` widened, where the pin moves outward, to the new
coordinate; the layer fields are those of `bb`. -/
def widened_box (c bb : t_bb) (xold yold xnew ynew : Int) : t_bb :=
  { bb with
    xmin := if xnew < xold then min c.xmin xnew else c.xmin
    xmax := if xnew > xold then max c.xmax xnew else c.xmax
    ymin := if ynew < yold then min c.ymin ynew else c.ymin
    ymax := if ynew > yold then max c.ymax ynew else c.ymax }

/-- The x values a list of per-net boxes contributes to `X_coord`: `xmin` then
`xmax` of each box, in order. -/
def accumulated_X (boxes : List t_bb) : List Int :=
  boxes.foldl (fun acc b => (acc.concat b.xmin).concat b.xmax) []

/-- The y values a list of per-net boxes contributes to `Y_coord`. -/
def accumulated_Y (boxes : List t_bb) : List Int :=
  boxes.foldl (fun acc b => (acc.concat b.ymin).concat b.ymax) []

/-! ## Sample netlists

Small concrete placements on a 10 x 10 single-layer grid, used to evaluate the
functions above.  In all of them `OPEN` is -1, `SMALL_NET` is 4 and the cube
bounding box is in use. -/

/-- An all-zero box. -/
def zero_bb : t_bb :=
  { xmin := 0, xmax := 0, ymin := 0, ymax := 0, layer_min := 0, layer_max := 0 }

/-- Common part of the sample netlists: one net (net 0), no pins yet. -/
def sample_base : Context :=
  { OPEN := -1
    SMALL_NET := 4
    grid_width := 10
    grid_height := 10
    num_layers := 1
    block_pins := fun _ => []
    pin_net := fun _ => 0
    pin_block := fun _ => 0
    pin_is_sink := fun p => decide (p ≠ 0)
    tile_pin_index := fun _ => 0
    net_is_ignored := fun _ => false
    net_pins_size := fun _ => 1
    net_sinks := fun _ => []
    net_driver_block := fun _ => 0
    net_driver_tile_pin_index := fun _ => 0
    block_locs := fun _ => { x := 1, y := 1, sub_tile := 0, layer := 0 }
    pin_width_offset := fun _ _ => 0
    pin_height_offset := fun _ _ => 0
    cube_bb := true
    bb_coords := fun _ => zero_bb
    bb_num_on_edges := fun _ => zero_bb
    union_2d_bb := fun _ => zero_bb
    union_2d_bb_incr := fun _ => (zero_bb, zero_bb)
    num_sink_pin_layer := fun _ _ => 0 }

/-- Block 0 at (2,2) owns the driver (pin 0) and one sink (pin 1) of net 0; the
sinks 2, 3, 4 belong to blocks 1, 2, 3 at (5,5), (6,6), (7,7).  The cached box
(2,7,2,7) and the edge counts (2,1,2,1) are the valid ones. -/
def two_pin_ctx : Context :=
  { sample_base with
    block_pins := fun b => if b = 0 then [0, 1] else [b + 1]
    pin_block := fun p => p - 1
    net_pins_size := fun _ => 5
    net_sinks := fun _ => [1, 2, 3, 4]
    block_locs := fun b =>
      if b = 0 then { x := 2, y := 2, sub_tile := 0, layer := 0 }
      else { x := (b : Int) + 4, y := (b : Int) + 4, sub_tile := 0, layer := 0 }
    bb_coords := fun _ =>
      { xmin := 2, xmax := 7, ymin := 2, ymax := 7, layer_min := 0, layer_max := 0 }
    bb_num_on_edges := fun _ =>
      { xmin := 2, xmax := 1, ymin := 2, ymax := 1, layer_min := 0, layer_max := 0 } }

/-- A self-feedback net: the driver and the four sinks of net 0 all belong to
block 0 at (3,3).  The cached box (3,3,3,3) and the edge counts (5,5,5,5) are
the valid ones. -/
def feedback_ctx : Context :=
  { sample_base with
    block_pins := fun _ => [0, 1, 2, 3, 4]
    net_pins_size := fun _ => 5
    net_sinks := fun _ => [1, 2, 3, 4]
    block_locs := fun _ => { x := 3, y := 3, sub_tile := 0, layer := 0 }
    bb_coords := fun _ =>
      { xmin := 3, xmax := 3, ymin := 3, ymax := 3, layer_min := 0, layer_max := 0 }
    bb_num_on_edges := fun _ =>
      { xmin := 5, xmax := 5, ymin := 5, ymax := 5, layer_min := 0, layer_max := 0 } }

/-- A block two tiles wide: net 0 is driven by pin 0 of block 1 (tile pin 0,
width offset 0) and has the sinks pin 1 (block 1, tile pin 1, width offset 1)
and pin 2 (block 0).  Block 1 is at (4,4), block 0 at (1,1). -/
def wide_block_ctx : Context :=
  { sample_base with
    block_pins := fun b => if b = 0 then [2] else [0, 1]
    pin_block := fun p => if p = 2 then 0 else 1
    tile_pin_index := fun p => if p = 1 then 1 else 0
    net_pins_size := fun _ => 3
    net_sinks := fun _ => [1, 2]
    net_driver_block := fun _ => 1
    block_locs := fun b =>
      if b = 1 then { x := 4, y := 4, sub_tile := 0, layer := 0 }
      else { x := 1, y := 1, sub_tile := 0, layer := 0 }
    pin_width_offset := fun b pnum => if b = 1 then pnum else 0 }

/-- Two pins of one block on one site: as `wide_block_ctx`, but every pin of
block 1 has width offset 1 and height offset 2, so the driver (pin 0) and the
sink pin 1, both of block 1 at (4,4), sit at (5,6); the sink pin 2 belongs to
block 0. -/
def same_site_ctx : Context :=
  { wide_block_ctx with
    pin_width_offset := fun b _ => if b = 1 then 1 else 0
    pin_height_offset := fun b _ => if b = 1 then 2 else 0 }

/-- A block with two nets: block 0 at (4,4) owns pin 0, the driver of net 0,
and pin 1, the driver of net 1.  Net 0 has one sink, pin 2 of block 1 at (2,3);
net 1 has one sink, pin 3 of block 2 at (6,1). -/
def two_net_ctx : Context :=
  { sample_base with
    block_pins := fun b => if b = 0 then [0, 1] else [b + 1]
    pin_net := fun p => if p = 0 ∨ p = 2 then 0 else 1
    pin_block := fun p => p - 1
    pin_is_sink := fun p => decide (2 ≤ p)
    net_pins_size := fun _ => 2
    net_sinks := fun n => if n = 0 then [2] else [3]
    block_locs := fun b =>
      if b = 0 then { x := 4, y := 4, sub_tile := 0, layer := 0 }
      else if b = 1 then { x := 2, y := 3, sub_tile := 0, layer := 0 }
      else { x := 6, y := 1, sub_tile := 0, layer := 0 } }

/-- Placer options with the high-fanout threshold at 10 pins. -/
def sample_opts : t_placer_opts Unit :=
  { place_high_fanout_net := 10, place_dm_rlim := () }

/-- The net of a pin of the moving block is considered: it is not ignored, not
high-fanout, and its box computation falls through to the `push_back` lines
(it is not skipped). -/
def pin_considered {F : Type} (ctx : Context) (placer_opts : t_placer_opts F)
    (b_from : ClusterBlockId) (pin_id : ClusterPinId) : Bool :=
  !ctx.net_is_ignored (ctx.pin_net pin_id)
    && !decide ((ctx.net_pins_size (ctx.pin_net pin_id) : Int) > placer_opts.place_high_fanout_net)
    && (match net_box ctx b_from zero_bb pin_id with
        | NetOutcome.keep _ => true
        | _ => false)

/-- The call of the site search exactly as `propose_move` makes it (line 163),
for the moving block `b_from` and the target `median_point`. -/
def site_search {B F : Type} (ctx : Context) (ext : Collaborators B F) (rlim : F)
    (placer_opts : t_placer_opts F) (b_from : ClusterBlockId) (median_point : t_pl_loc) :
    Bool × t_pl_loc :=
  ext.find_to_loc_centroid (ext.block_type b_from) (ctx.block_locs b_from) median_point
    { original_rlim := rlim, first_rlim := ext.first_rlim, dm_rlim := placer_opts.place_dm_rlim }
    { x := ctx.OPEN, y := ctx.OPEN, sub_tile := ctx.OPEN, layer := median_point.layer } b_from

/-- Collaborators for the sample netlists: block 0 is always proposed, every
tile is compatible, the site search answers `found` with the target itself,
`create_move` answers `VALID` and the floorplan check answers `legal`. -/
def sample_ext (found legal : Bool) : Collaborators Unit Unit :=
  { propose_block_to_move := fun _ _ => some 0
    block_type := fun _ => 0
    get_physical_type := fun _ _ _ => 0
    is_tile_compatible := fun _ _ => true
    first_rlim := ()
    find_to_loc_centroid := fun _ _ centroid _ to_loc _ =>
      (found, { to_loc with x := centroid.x, y := centroid.y })
    create_move := fun b _ _ => (e_create_move.VALID, b)
    floorplan_legal := fun _ => legal }

/-- Collaborators whose block selector finds no block. -/
def no_block_ext : Collaborators Unit Unit :=
  { sample_ext true true with propose_block_to_move := fun _ _ => none }

/-- The netlist `two_net_ctx` with net 1 flagged as ignored and net 0 made a
six-pin net, above a high-fanout threshold of 5. -/
def ignored_ctx : Context :=
  { two_net_ctx with
    net_is_ignored := fun n => decide (n = 1)
    net_pins_size := fun n => if n = 0 then 6 else 2 }

/-- Placer options with the high-fanout threshold at 5 pins. -/
def tight_opts : t_placer_opts Unit :=
  { place_high_fanout_net := 5, place_dm_rlim := () }

/-- The netlist `two_net_ctx` on a device with two layers, each net having one
sink pin on each layer. -/
def two_layer_ctx : Context :=
  { two_net_ctx with
    num_layers := 2
    num_sink_pin_layer := fun _ _ => 1 }

/-- What the sink loop of `get_bb_from_scratch_excluding_block` maintains, with
`pts` the coordinates of the pins kept so far: either nothing was kept and the
variables still hold their initial values, or the four extremes are the least
and greatest coordinates kept. -/
def ScratchInv (o : Int) (s : ScratchVars) (pts : List (Int × Int)) : Prop :=
  (pts = [] ∧ s = { xmin := o, xmax := o, ymin := o, ymax := o,
                    first_block := false, skip_net := true })
  ∨ (s.first_block = true ∧ s.skip_net = false
      ∧ (∃ p ∈ pts, s.xmin = p.1) ∧ (∀ p ∈ pts, s.xmin ≤ p.1)
      ∧ (∃ p ∈ pts, s.xmax = p.1) ∧ (∀ p ∈ pts, p.1 ≤ s.xmax)
      ∧ (∃ p ∈ pts, s.ymin = p.2) ∧ (∀ p ∈ pts, s.ymin ≤ p.2)
      ∧ (∃ p ∈ pts, s.ymax = p.2) ∧ (∀ p ∈ pts, p.2 ≤ s.ymax))

/-- The extremes of a box are attained: `box` holds, on each axis, the least
and the greatest clamped coordinate of the pins `pts`. -/
def is_box (W H : Nat) (pts : List (Int × Int)) (box : Int × Int × Int × Int) : Prop :=
  ((∃ t ∈ pts, box.1 = clamp t.1 W) ∧ (∀ t ∈ pts, box.1 ≤ clamp t.1 W))
    ∧ ((∃ t ∈ pts, box.2.1 = clamp t.1 W) ∧ (∀ t ∈ pts, clamp t.1 W ≤ box.2.1))
    ∧ ((∃ t ∈ pts, box.2.2.1 = clamp t.2 H) ∧ (∀ t ∈ pts, box.2.2.1 ≤ clamp t.2 H))
    ∧ ((∃ t ∈ pts, box.2.2.2 = clamp t.2 H) ∧ (∀ t ∈ pts, clamp t.2 H ≤ box.2.2.2))

/-! ## The from-scratch scan -/

theorem clamp_mono {a b : Int} (W : Nat) (h : a ≤ b) : clamp a W ≤ clamp b W := by
  unfold clamp; omega

theorem clamp_range (a : Int) {W : Nat} (hW : 3 ≤ W) :
    1 ≤ clamp a W ∧ clamp a W ≤ (W : Int) - 2 := by
  unfold clamp; omega

theorem running_min_step (f : Int × Int → Int) (pts : List (Int × Int)) (c : Int × Int)
    (m : Int) (hm : ∃ p ∈ pts, m = f p) (hle : ∀ p ∈ pts, m ≤ f p) :
    (∃ p ∈ pts ++ [c], (if f c < m then f c else m) = f p)
      ∧ ∀ p ∈ pts ++ [c], (if f c < m then f c else m) ≤ f p := by
  obtain ⟨p0, hp0, hp0m⟩ := hm
  constructor
  · by_cases h : f c < m
    · exact ⟨c, by simp, by simp [h]⟩
    · exact ⟨p0, by simp [hp0], by rw [if_neg h]; exact hp0m⟩
  · intro p hp
    rcases List.mem_append.1 hp with hp | hp
    · have := hle p hp
      split <;> omega
    · have hpc : p = c := by simpa using hp
      subst hpc
      split <;> omega

theorem running_max_step (f : Int × Int → Int) (pts : List (Int × Int)) (c : Int × Int)
    (m M : Int) (hm : ∃ p ∈ pts, m = f p) (hM : ∃ p ∈ pts, M = f p)
    (hge : ∀ p ∈ pts, f p ≤ M) :
    (∃ p ∈ pts ++ [c], (if f c < m then M else if f c > M then f c else M) = f p)
      ∧ ∀ p ∈ pts ++ [c], f p ≤ (if f c < m then M else if f c > M then f c else M) := by
  obtain ⟨p0, hp0, hp0m⟩ := hm
  obtain ⟨p1, hp1, hp1M⟩ := hM
  have hmM : m ≤ M := by have := hge p0 hp0; omega
  constructor
  · by_cases h : f c < m
    · exact ⟨p1, by simp [hp1], by rw [if_pos h]; exact hp1M⟩
    · by_cases h2 : f c > M
      · exact ⟨c, by simp, by simp [h, h2]⟩
      · exact ⟨p1, by simp [hp1], by rw [if_neg h, if_neg h2]; exact hp1M⟩
  · intro p hp
    rcases List.mem_append.1 hp with hp | hp
    · have := hge p hp
      split
      · omega
      · split <;> omega
    · have hpc : p = c := by simpa using hp
      subst hpc
      split
      · omega
      · split <;> omega

theorem scratch_sink_inv (ctx : Context) (block_id : ClusterBlockId) (s : ScratchVars)
    (pts : List (Int × Int)) (pin_id : ClusterPinId) (h : ScratchInv ctx.OPEN s pts) :
    ScratchInv ctx.OPEN (scratch_sink ctx block_id s pin_id)
      (pts ++ remaining_sink_coords ctx block_id [pin_id]) := by
  by_cases hb : ctx.pin_block pin_id = block_id
  · simpa [scratch_sink, remaining_sink_coords, hb] using h
  · have hpts : remaining_sink_coords ctx block_id [pin_id] = [pin_coord ctx pin_id] := by
      simp [remaining_sink_coords, hb]
    rw [hpts]
    rcases h with ⟨hnil, hs⟩ | ⟨hfb, _, hx1, hx2, hx3, hx4, hy1, hy2, hy3, hy4⟩
    · subst hnil
      subst hs
      right
      simp [scratch_sink, hb, pin_coord]
    · right
      have ax := running_min_step Prod.fst pts (pin_coord ctx pin_id) s.xmin hx1 hx2
      have bx := running_max_step Prod.fst pts (pin_coord ctx pin_id) s.xmin s.xmax hx1 hx3 hx4
      have ay := running_min_step Prod.snd pts (pin_coord ctx pin_id) s.ymin hy1 hy2
      have biy := running_max_step Prod.snd pts (pin_coord ctx pin_id) s.ymin s.ymax hy1 hy3 hy4
      simp only [scratch_sink, hb, hfb, if_false, Bool.not_true, Bool.false_eq_true]
      exact ⟨trivial, trivial, ax.1, ax.2, bx.1, bx.2, ay.1, ay.2, biy.1, biy.2⟩

theorem scratch_fold_inv (ctx : Context) (block_id : ClusterBlockId)
    (sinks : List ClusterPinId) :
    ∀ (s : ScratchVars) (pts : List (Int × Int)), ScratchInv ctx.OPEN s pts →
      ScratchInv ctx.OPEN (sinks.foldl (scratch_sink ctx block_id) s)
        (pts ++ remaining_sink_coords ctx block_id sinks) := by
  induction sinks with
  | nil => intro s pts h; simpa [remaining_sink_coords] using h
  | cons pin rest ih =>
    intro s pts h
    have h1 := ih _ _ (scratch_sink_inv ctx block_id s pts pin h)
    have e : pts ++ remaining_sink_coords ctx block_id (pin :: rest)
        = (pts ++ remaining_sink_coords ctx block_id [pin])
            ++ remaining_sink_coords ctx block_id rest := by
      by_cases hb : ctx.pin_block pin = block_id <;> simp [remaining_sink_coords, hb]
    rw [e]
    exact h1

theorem scratch_driver_inv (ctx : Context) (net_id : ClusterNetId) (block_id : ClusterBlockId) :
    ScratchInv ctx.OPEN (scratch_driver ctx net_id block_id)
      (if ctx.net_driver_block net_id ≠ block_id then [driver_coord ctx net_id] else []) := by
  by_cases hb : ctx.net_driver_block net_id = block_id
  · left; simp [scratch_driver, hb]
  · right; simp [scratch_driver, hb, driver_coord]

/-- The variables at the end of the scan satisfy the invariant for the list of
all remaining pins. -/
theorem scratch_scan_inv (ctx : Context) (net_id : ClusterNetId) (block_id : ClusterBlockId) :
    ScratchInv ctx.OPEN
      ((ctx.net_sinks net_id).foldl (scratch_sink ctx block_id)
        (scratch_driver ctx net_id block_id))
      (remaining_coords ctx net_id block_id) :=
  scratch_fold_inv ctx block_id _ _ _ (scratch_driver_inv ctx net_id block_id)

theorem remaining_coords_ne_nil (ctx : Context) (net_id : ClusterNetId)
    (block_id : ClusterBlockId) :
    remaining_coords ctx net_id block_id ≠ [] ↔
      (ctx.net_driver_block net_id ≠ block_id
        ∨ ∃ p ∈ ctx.net_sinks net_id, ctx.pin_block p ≠ block_id) := by
  by_cases hb : ctx.net_driver_block net_id = block_id
  · simp [remaining_coords, remaining_sink_coords, hb, List.filter_eq_nil_iff]
  · simp [remaining_coords, hb]

/-! ## The incremental update, axis by axis -/

/-- Closed form of the x half: it gives up exactly on an inward move off an
edge held by one pin, and otherwise only ever widens the cached interval. -/
theorem incr_x_eq (e c bb : t_bb) (xold xnew : Int) :
    incr_x e c bb xold xnew =
      if (xnew < xold ∧ xold = c.xmax ∧ e.xmax = 1) ∨ (xnew > xold ∧ xold = c.xmin ∧ e.xmin = 1)
      then none
      else some { bb with
        xmin := if xnew < xold then min c.xmin xnew else c.xmin
        xmax := if xnew > xold then max c.xmax xnew else c.xmax } := by
  unfold incr_x
  split_ifs <;>
    first
    | rfl
    | (exfalso; omega)
    | (simp only [Option.map_some', Option.map_none', Option.some.injEq, t_bb.mk.injEq,
        and_true, true_and]; omega)

/-- Closed form of the y half. -/
theorem incr_y_eq (e c bb : t_bb) (yold ynew : Int) :
    incr_y e c bb yold ynew =
      if (ynew < yold ∧ yold = c.ymax ∧ e.ymax = 1) ∨ (ynew > yold ∧ yold = c.ymin ∧ e.ymin = 1)
      then none
      else some { bb with
        ymin := if ynew < yold then min c.ymin ynew else c.ymin
        ymax := if ynew > yold then max c.ymax ynew else c.ymax } := by
  unfold incr_y
  split_ifs <;>
    first
    | rfl
    | (exfalso; omega)
    | (simp only [Option.map_some', Option.map_none', Option.some.injEq, t_bb.mk.injEq,
        and_true, true_and]; omega)

/-- The two halves in sequence. -/
theorem incr_xy_eq (e c bb : t_bb) (xold yold xnew ynew : Int) :
    (match incr_x e c bb xold xnew with
      | none => none
      | some b => incr_y e c b yold ynew)
      = if recompute_required e c xold yold xnew ynew then none
        else some (widened_box c bb xold yold xnew ynew) := by
  rw [incr_x_eq]
  by_cases hx : (xnew < xold ∧ xold = c.xmax ∧ e.xmax = 1)
      ∨ (xnew > xold ∧ xold = c.xmin ∧ e.xmin = 1)
  · have hr : recompute_required e c xold yold xnew ynew :=
      hx.elim Or.inl fun h => Or.inr (Or.inl h)
    rw [if_pos hx, if_pos hr]
  · rw [if_neg hx]
    simp only []
    rw [incr_y_eq]
    by_cases hy : (ynew < yold ∧ yold = c.ymax ∧ e.ymax = 1)
        ∨ (ynew > yold ∧ yold = c.ymin ∧ e.ymin = 1)
    · have hr : recompute_required e c xold yold xnew ynew := Or.inr (Or.inr hy)
      rw [if_pos hy, if_pos hr]
    · have hr : ¬ recompute_required e c xold yold xnew ynew := by
        rintro (h | h | h)
        · exact hx (Or.inl h)
        · exact hx (Or.inr h)
        · exact hy h
      rw [if_neg hy, if_neg hr]
      rfl

/-- Closed form of `get_bb_incrementally`. -/
theorem get_bb_incrementally_eq (ctx : Context) (net_id : ClusterNetId) (bb : t_bb)
    (xold yold xnew ynew : Int) :
    get_bb_incrementally ctx net_id bb xold yold xnew ynew =
      if recompute_required (curr_bb_edge ctx net_id) (curr_bb_coord ctx net_id)
          (clamp xold ctx.grid_width) (clamp yold ctx.grid_height)
          (clamp xnew ctx.grid_width) (clamp ynew ctx.grid_height)
      then none
      else some (widened_box (curr_bb_coord ctx net_id) bb
          (clamp xold ctx.grid_width) (clamp yold ctx.grid_height)
          (clamp xnew ctx.grid_width) (clamp ynew ctx.grid_height)) :=
  incr_xy_eq (curr_bb_edge ctx net_id) (curr_bb_coord ctx net_id) bb
    (clamp xold ctx.grid_width) (clamp yold ctx.grid_height)
    (clamp xnew ctx.grid_width) (clamp ynew ctx.grid_height)

/-- A successful call: no recompute is required and the widened box is written. -/
theorem get_bb_incrementally_some (ctx : Context) (net_id : ClusterNetId) (bb r : t_bb)
    (xold yold xnew ynew : Int)
    (h : get_bb_incrementally ctx net_id bb xold yold xnew ynew = some r) :
    ¬ recompute_required (curr_bb_edge ctx net_id) (curr_bb_coord ctx net_id)
          (clamp xold ctx.grid_width) (clamp yold ctx.grid_height)
          (clamp xnew ctx.grid_width) (clamp ynew ctx.grid_height)
      ∧ r = widened_box (curr_bb_coord ctx net_id) bb
          (clamp xold ctx.grid_width) (clamp yold ctx.grid_height)
          (clamp xnew ctx.grid_width) (clamp ynew ctx.grid_height) := by
  rw [get_bb_incrementally_eq] at h
  split_ifs at h with hc
  exact ⟨hc, (Option.some.inj h).symm⟩

/-! ## Claims on the from-scratch scan -/

/-- C4: when at least one pin of the net (driver or sink) is outside the
excluded block, the box written by `get_bb_from_scratch_excluding_block` has
xmin the clamp of the least x (block x plus pin width offset) among the
remaining pins, xmax the clamp of the greatest, and likewise ymin, ymax with
block y plus pin height offset; and the location and pin offsets of the
excluded block have no influence on what is written. -/
theorem scratch_box_is_clamped_extremes (ctx : Context) (net_id : ClusterNetId)
    (bb : t_bb) (block_id : ClusterBlockId)
    (h : ctx.net_driver_block net_id ≠ block_id
          ∨ ∃ p ∈ ctx.net_sinks net_id, ctx.pin_block p ≠ block_id) :
    ((∃ p ∈ remaining_coords ctx net_id block_id,
        (∀ q ∈ remaining_coords ctx net_id block_id, p.1 ≤ q.1)
        ∧ (get_bb_from_scratch_excluding_block ctx net_id bb block_id).1.xmin
            = clamp p.1 ctx.grid_width)
      ∧ (∃ p ∈ remaining_coords ctx net_id block_id,
        (∀ q ∈ remaining_coords ctx net_id block_id, q.1 ≤ p.1)
        ∧ (get_bb_from_scratch_excluding_block ctx net_id bb block_id).1.xmax
            = clamp p.1 ctx.grid_width)
      ∧ (∃ p ∈ remaining_coords ctx net_id block_id,
        (∀ q ∈ remaining_coords ctx net_id block_id, p.2 ≤ q.2)
        ∧ (get_bb_from_scratch_excluding_block ctx net_id bb block_id).1.ymin
            = clamp p.2 ctx.grid_height)
      ∧ (∃ p ∈ remaining_coords ctx net_id block_id,
        (∀ q ∈ remaining_coords ctx net_id block_id, q.2 ≤ p.2)
        ∧ (get_bb_from_scratch_excluding_block ctx net_id bb block_id).1.ymax
            = clamp p.2 ctx.grid_height))
    ∧ ∀ (loc : t_pl_loc) (wo ho : Int → Int),
        get_bb_from_scratch_excluding_block (with_block_moved ctx block_id loc wo ho)
            net_id bb block_id
          = get_bb_from_scratch_excluding_block ctx net_id bb block_id := by
  constructor
  · have hne := (remaining_coords_ne_nil ctx net_id block_id).2 h
    rcases scratch_scan_inv ctx net_id block_id with ⟨hnil, _⟩ |
      ⟨_, _, ⟨p1, hp1, e1⟩, l1, ⟨p2, hp2, e2⟩, l2, ⟨p3, hp3, e3⟩, l3, ⟨p4, hp4, e4⟩, l4⟩
    · exact absurd hnil hne
    · refine ⟨⟨p1, hp1, ?_, ?_⟩, ⟨p2, hp2, ?_, ?_⟩, ⟨p3, hp3, ?_, ?_⟩, ⟨p4, hp4, ?_, ?_⟩⟩
      · intro q hq; rw [← e1]; exact l1 q hq
      · simp only [get_bb_from_scratch_excluding_block, clamp, e1]
      · intro q hq; rw [← e2]; exact l2 q hq
      · simp only [get_bb_from_scratch_excluding_block, clamp, e2]
      · intro q hq; rw [← e3]; exact l3 q hq
      · simp only [get_bb_from_scratch_excluding_block, clamp, e3]
      · intro q hq; rw [← e4]; exact l4 q hq
      · simp only [get_bb_from_scratch_excluding_block, clamp, e4]
  · intro loc wo ho
    have hs : scratch_sink (with_block_moved ctx block_id loc wo ho) block_id
        = scratch_sink ctx block_id := by
      funext s pin
      by_cases hb : ctx.pin_block pin = block_id
      · simp [scratch_sink, with_block_moved, hb]
      · simp [scratch_sink, with_block_moved, hb]
    have hd : scratch_driver (with_block_moved ctx block_id loc wo ho) net_id block_id
        = scratch_driver ctx net_id block_id := by
      by_cases hb : ctx.net_driver_block net_id = block_id
      · simp [scratch_driver, with_block_moved, hb]
      · simp [scratch_driver, with_block_moved, hb]
    unfold get_bb_from_scratch_excluding_block
    rw [hs, hd]
    rfl

/-- Witness for C4 on the sample netlist `two_pin_ctx`, block 0 excluded. -/
theorem scratch_box_is_clamped_extremes_witness :
    (∃ p ∈ remaining_coords two_pin_ctx 0 0,
        (∀ q ∈ remaining_coords two_pin_ctx 0 0, p.1 ≤ q.1)
        ∧ (get_bb_from_scratch_excluding_block two_pin_ctx 0 zero_bb 0).1.xmin
            = clamp p.1 two_pin_ctx.grid_width)
      ∧ (get_bb_from_scratch_excluding_block two_pin_ctx 0 zero_bb 0).1
          = { xmin := 5, xmax := 7, ymin := 5, ymax := 7, layer_min := 0, layer_max := 0 } :=
  ⟨(scratch_box_is_clamped_extremes two_pin_ctx 0 zero_bb 0
      (Or.inr ⟨2, by decide, by decide⟩)).1.1, by decide⟩

/-- C5: `get_bb_from_scratch_excluding_block` sets `skip_net` exactly when the
driver and every sink of the net belong to the excluded block. -/
theorem skip_iff_all_pins_excluded (ctx : Context) (net_id : ClusterNetId)
    (bb : t_bb) (block_id : ClusterBlockId) :
    (get_bb_from_scratch_excluding_block ctx net_id bb block_id).2 = true
      ↔ (ctx.net_driver_block net_id = block_id
          ∧ ∀ p ∈ ctx.net_sinks net_id, ctx.pin_block p = block_id) := by
  have hne := remaining_coords_ne_nil ctx net_id block_id
  have key : (get_bb_from_scratch_excluding_block ctx net_id bb block_id).2 = true
      ↔ remaining_coords ctx net_id block_id = [] := by
    rcases scratch_scan_inv ctx net_id block_id with ⟨hnil, hs⟩ | ⟨_, hskip, ⟨p, hp, _⟩, _⟩
    · simp [get_bb_from_scratch_excluding_block, hs, hnil]
    · have : remaining_coords ctx net_id block_id ≠ [] := List.ne_nil_of_mem hp
      simp [get_bb_from_scratch_excluding_block, hskip, this]
  rw [key]
  constructor
  · intro hnil
    by_contra hcon
    apply hne.2 _ hnil
    by_cases hd : ctx.net_driver_block net_id = block_id
    · right
      by_contra hall
      exact hcon ⟨hd, fun p hp => by_contra fun hpb => hall ⟨p, hp, hpb⟩⟩
    · exact Or.inl hd
  · rintro ⟨hd, hall⟩
    by_contra hnil
    rcases hne.1 hnil with h | ⟨p, hp, hpb⟩
    · exact h hd
    · exact hpb (hall p hp)

/-- C7, as stated, fails: in `wide_block_ctx` the pins of net 0 that remain once
block 0 is excluded are the driver and one sink, both of block 1, yet the box
is (4,5,4,4), not a point, because the two pins have different width offsets. -/
theorem single_block_box_not_point :
    (wide_block_ctx.net_driver_block 0 = 1
      ∧ (∀ p ∈ wide_block_ctx.net_sinks 0,
          wide_block_ctx.pin_block p ≠ 0 → wide_block_ctx.pin_block p = 1)
      ∧ remaining_coords wide_block_ctx 0 0 ≠ [])
    ∧ (get_bb_from_scratch_excluding_block wide_block_ctx 0 zero_bb 0).2 = false
    ∧ ¬ ((get_bb_from_scratch_excluding_block wide_block_ctx 0 zero_bb 0).1.xmin
          = (get_bb_from_scratch_excluding_block wide_block_ctx 0 zero_bb 0).1.xmax) := by
  decide

/-- C7, amended: when the pins that remain after the exclusion are non-empty,
all belong to one block `b` and all have the same width offset `wo` and the
same height offset `ho`, `skip_net` is false and the box is a point. -/
theorem single_site_gives_point_box (ctx : Context) (net_id : ClusterNetId)
    (bb : t_bb) (block_id b : ClusterBlockId) (wo ho : Int)
    (hne : ctx.net_driver_block net_id ≠ block_id
          ∨ ∃ p ∈ ctx.net_sinks net_id, ctx.pin_block p ≠ block_id)
    (hdrv : ctx.net_driver_block net_id ≠ block_id →
      ctx.net_driver_block net_id = b
        ∧ ctx.pin_width_offset b (ctx.net_driver_tile_pin_index net_id) = wo
        ∧ ctx.pin_height_offset b (ctx.net_driver_tile_pin_index net_id) = ho)
    (hsink : ∀ p ∈ ctx.net_sinks net_id, ctx.pin_block p ≠ block_id →
      ctx.pin_block p = b
        ∧ ctx.pin_width_offset b (ctx.tile_pin_index p) = wo
        ∧ ctx.pin_height_offset b (ctx.tile_pin_index p) = ho) :
    (get_bb_from_scratch_excluding_block ctx net_id bb block_id).2 = false
      ∧ (get_bb_from_scratch_excluding_block ctx net_id bb block_id).1.xmin
          = (get_bb_from_scratch_excluding_block ctx net_id bb block_id).1.xmax
      ∧ (get_bb_from_scratch_excluding_block ctx net_id bb block_id).1.ymin
          = (get_bb_from_scratch_excluding_block ctx net_id bb block_id).1.ymax := by
  have hall : ∀ q ∈ remaining_coords ctx net_id block_id,
      q = ((ctx.block_locs b).x + wo, (ctx.block_locs b).y + ho) := by
    intro q hq
    unfold remaining_coords at hq
    rcases List.mem_append.1 hq with hq | hq
    · by_cases hd : ctx.net_driver_block net_id = block_id
      · simp [hd] at hq
      · obtain ⟨h1, h2, h3⟩ := hdrv hd
        have hq2 : q = driver_coord ctx net_id := by simpa [hd] using hq
        rw [hq2]
        simp only [driver_coord, h1, h2, h3]
    · simp only [remaining_sink_coords, List.mem_map, List.mem_filter, decide_eq_true_eq] at hq
      obtain ⟨p, ⟨hp, hpb⟩, hpq⟩ := hq
      obtain ⟨h1, h2, h3⟩ := hsink p hp hpb
      rw [← hpq]
      simp only [pin_coord, h1, h2, h3]
  have hpts := (remaining_coords_ne_nil ctx net_id block_id).2 hne
  rcases scratch_scan_inv ctx net_id block_id with ⟨hnil, _⟩ |
    ⟨_, hskip, ⟨p1, hp1, e1⟩, _, ⟨p2, hp2, e2⟩, _, ⟨p3, hp3, e3⟩, _, ⟨p4, hp4, e4⟩, _⟩
  · exact absurd hnil hpts
  · rw [hall p1 hp1] at e1
    rw [hall p2 hp2] at e2
    rw [hall p3 hp3] at e3
    rw [hall p4 hp4] at e4
    refine ⟨hskip, ?_, ?_⟩
    · simp only [get_bb_from_scratch_excluding_block, e1, e2]
    · simp only [get_bb_from_scratch_excluding_block, e3, e4]

/-- Witness for the amended C7: in `same_site_ctx` with block 0 excluded two
pins remain, the driver and a sink, both of block 1 with width offset 1 and
height offset 2; the box is the point (5,6). -/
theorem single_site_gives_point_box_witness :
    remaining_coords same_site_ctx 0 0 = [(5, 6), (5, 6)]
      ∧ (same_site_ctx.net_driver_block 0 ≠ 0
          ∧ same_site_ctx.net_driver_block 0 = 1
          ∧ same_site_ctx.pin_block 1 = 1
          ∧ same_site_ctx.net_driver_tile_pin_index 0 ≠ same_site_ctx.tile_pin_index 1)
      ∧ (get_bb_from_scratch_excluding_block same_site_ctx 0 zero_bb 0).1
          = { xmin := 5, xmax := 5, ymin := 6, ymax := 6, layer_min := 0, layer_max := 0 }
      ∧ ((get_bb_from_scratch_excluding_block same_site_ctx 0 zero_bb 0).2 = false
          ∧ (get_bb_from_scratch_excluding_block same_site_ctx 0 zero_bb 0).1.xmin
              = (get_bb_from_scratch_excluding_block same_site_ctx 0 zero_bb 0).1.xmax
          ∧ (get_bb_from_scratch_excluding_block same_site_ctx 0 zero_bb 0).1.ymin
              = (get_bb_from_scratch_excluding_block same_site_ctx 0 zero_bb 0).1.ymax) :=
  ⟨by decide, by decide, by decide,
   single_site_gives_point_box same_site_ctx 0 zero_bb 0 1 1 2
    (Or.inl (by decide)) (by decide) (by decide)⟩

/-- C3: on a grid at least 3 wide and 3 high, every box written by
`get_bb_from_scratch_excluding_block`, and every box written by a successful
`get_bb_incrementally` whose cached box is in the grid interior and contains
the clamped old coordinate, satisfies `xmin ≤ xmax`, `ymin ≤ ymax` and has
its four bounds in `[1, W-2] × [1, H-2]`. -/
theorem boxes_within_grid (ctx : Context) (hW : 3 ≤ ctx.grid_width)
    (hH : 3 ≤ ctx.grid_height) :
    (∀ (net_id : ClusterNetId) (bb : t_bb) (block_id : ClusterBlockId),
        box_in_grid ctx.grid_width ctx.grid_height
          (get_bb_from_scratch_excluding_block ctx net_id bb block_id).1)
    ∧ (∀ (net_id : ClusterNetId) (bb r : t_bb) (xold yold xnew ynew : Int),
        box_in_grid ctx.grid_width ctx.grid_height (curr_bb_coord ctx net_id) →
        ((curr_bb_coord ctx net_id).xmin ≤ clamp xold ctx.grid_width
          ∧ clamp xold ctx.grid_width ≤ (curr_bb_coord ctx net_id).xmax
          ∧ (curr_bb_coord ctx net_id).ymin ≤ clamp yold ctx.grid_height
          ∧ clamp yold ctx.grid_height ≤ (curr_bb_coord ctx net_id).ymax) →
        get_bb_incrementally ctx net_id bb xold yold xnew ynew = some r →
        box_in_grid ctx.grid_width ctx.grid_height r) := by
  constructor
  · intro net_id bb block_id
    have hord : ∀ s : ScratchVars, ∀ pts, ScratchInv ctx.OPEN s pts →
        s.xmin ≤ s.xmax ∧ s.ymin ≤ s.ymax := by
      intro s pts hinv
      rcases hinv with ⟨_, hs⟩ |
        ⟨_, _, ⟨p1, hp1, e1⟩, _, _, l2, ⟨p3, hp3, e3⟩, _, _, l4⟩
      · subst hs; simp
      · have := l2 p1 hp1
        have := l4 p3 hp3
        omega
    have ho := hord _ _ (scratch_scan_inv ctx net_id block_id)
    simp only [box_in_grid, get_bb_from_scratch_excluding_block]
    omega
  · intro net_id bb r xold yold xnew ynew hbox _ hr
    obtain ⟨_, hr⟩ := get_bb_incrementally_some ctx net_id bb r xold yold xnew ynew hr
    have hx := clamp_range xnew hW
    have hy := clamp_range ynew hH
    subst hr
    simp only [box_in_grid, widened_box] at hbox ⊢
    split_ifs <;> omega

/-- Witness for C3 on `two_pin_ctx`: the grid is 10 x 10, the from-scratch box
with block 0 excluded is (5,7,5,7), and the incremental update for pin 0 of
block 0 (old (2,2), new (7,7)) succeeds with (2,7,2,7). -/
theorem boxes_within_grid_witness :
    (3 ≤ two_pin_ctx.grid_width ∧ 3 ≤ two_pin_ctx.grid_height)
      ∧ box_in_grid 10 10 (get_bb_from_scratch_excluding_block two_pin_ctx 0 zero_bb 0).1
      ∧ get_bb_incrementally two_pin_ctx 0 zero_bb 2 2 7 7
          = some { xmin := 2, xmax := 7, ymin := 2, ymax := 7, layer_min := 0, layer_max := 0 }
      ∧ box_in_grid 10 10
          { xmin := 2, xmax := 7, ymin := 2, ymax := 7, layer_min := 0, layer_max := 0 } :=
  ⟨by decide,
   (boxes_within_grid two_pin_ctx (by decide) (by decide)).1 0 zero_bb 0,
   by decide,
   (boxes_within_grid two_pin_ctx (by decide) (by decide)).2 0 zero_bb _ 2 2 7 7
      (by decide) (by decide) (by decide)⟩

/-! ## The median region -/

theorem stable_sort_sorted (v : List Int) : (stable_sort v).Sorted (fun a b => a ≤ b) :=
  List.sorted_insertionSort _ v

theorem stable_sort_perm (v : List Int) : (stable_sort v).Perm v :=
  List.perm_insertionSort _ v

/-- The ascending rearrangement of a list of integers is unique. -/
theorem eq_stable_sort (v V : List Int) (hs : V.Sorted (fun a b => a ≤ b)) (hp : V.Perm v) :
    V = stable_sort v :=
  List.eq_of_perm_of_sorted (hp.trans (stable_sort_perm v).symm) hs (stable_sort_sorted v)

theorem stable_sort_length (v : List Int) : (stable_sort v).length = v.length :=
  (stable_sort_perm v).length_eq

/-- On two or more values both reads are in range and the lower end of the
median region does not exceed the upper end. -/
theorem median_limits_spec (coord : List Int) (hn : 2 ≤ coord.length) :
    ∃ lo hi, (stable_sort coord)[(coord.length - 1) / 2]? = some lo
      ∧ (stable_sort coord)[(coord.length - 1) / 2 + 1]? = some hi
      ∧ median_limits coord = some (lo, hi) ∧ lo ≤ hi := by
  have hlen := stable_sort_length coord
  have h0 : (coord.length - 1) / 2 < (stable_sort coord).length := by omega
  have h1 : (coord.length - 1) / 2 + 1 < (stable_sort coord).length := by omega
  refine ⟨(stable_sort coord)[(coord.length - 1) / 2], (stable_sort coord)[(coord.length - 1) / 2 + 1],
    List.getElem?_eq_getElem h0, List.getElem?_eq_getElem h1, ?_, ?_⟩
  · unfold median_limits
    simp only [hlen, List.getElem?_eq_getElem h0, List.getElem?_eq_getElem h1]
  · exact List.pairwise_iff_getElem.1 (stable_sort_sorted coord) _ _ h0 h1 (Nat.lt_succ_self _)

/-- C8: for a coordinate sequence of length n ≥ 2 the median region read by
`propose_move` is `[V[(n-1)/2], V[(n-1)/2+1]]`, with `V` the sequence sorted
ascending; its lower end does not exceed its upper end; `[1,4,4,7,9]` gives
`[4,7]` and `[2,2,5,8]` gives `[2,5]`. -/
theorem median_region_is_middle_pair (coord V : List Int) (hn : 2 ≤ coord.length)
    (hs : V.Sorted (fun a b => a ≤ b)) (hp : V.Perm coord) :
    (∃ lo hi, V[(coord.length - 1) / 2]? = some lo
        ∧ V[(coord.length - 1) / 2 + 1]? = some hi
        ∧ median_limits coord = some (lo, hi) ∧ lo ≤ hi)
      ∧ median_limits [1, 4, 4, 7, 9] = some (4, 7)
      ∧ median_limits [2, 2, 5, 8] = some (2, 5) := by
  rw [eq_stable_sort coord V hs hp]
  exact ⟨median_limits_spec coord hn, by decide, by decide⟩

/-- Witness for C8 on the unsorted sequence `[7,1,9,4,4]`. -/
theorem median_region_is_middle_pair_witness :
    (∃ lo hi, ([1, 4, 4, 7, 9] : List Int)[(([7, 1, 9, 4, 4] : List Int).length - 1) / 2]? = some lo
        ∧ ([1, 4, 4, 7, 9] : List Int)[(([7, 1, 9, 4, 4] : List Int).length - 1) / 2 + 1]? = some hi
        ∧ median_limits [7, 1, 9, 4, 4] = some (lo, hi) ∧ lo ≤ hi)
      ∧ median_limits [1, 4, 4, 7, 9] = some (4, 7)
      ∧ median_limits [2, 2, 5, 8] = some (2, 5) :=
  median_region_is_middle_pair [7, 1, 9, 4, 4] [1, 4, 4, 7, 9] (by decide) (by decide) (by decide)

theorem fold_push_length (f g : t_bb → Int) (boxes : List t_bb) :
    ∀ acc : List Int,
      (boxes.foldl (fun acc b => (acc.concat (f b)).concat (g b)) acc).length
        = acc.length + 2 * boxes.length := by
  induction boxes with
  | nil => intro acc; simp
  | cons b rest ih =>
    intro acc
    simp only [List.foldl_cons, ih, List.length_concat, List.length_cons]
    omega

theorem accumulated_X_length (boxes : List t_bb) :
    (accumulated_X boxes).length = 2 * boxes.length := by
  simpa [accumulated_X] using fold_push_length (fun b => b.xmin) (fun b => b.xmax) boxes []

theorem accumulated_Y_length (boxes : List t_bb) :
    (accumulated_Y boxes).length = 2 * boxes.length := by
  simpa [accumulated_Y] using fold_push_length (fun b => b.ymin) (fun b => b.ymax) boxes []

/-- With at least two values on each axis, `median_target` reaches the site
search with the two median regions and their integer midpoints. -/
theorem median_target_spec (ctx : Context) (from_loc : t_pl_loc) (s : MoveVars)
    (lx ly : Int × Int) (hX : 2 ≤ s.X_coord.length) (hY : 2 ≤ s.Y_coord.length)
    (hlx : median_limits s.X_coord = some lx) (hly : median_limits s.Y_coord = some ly) :
    median_target ctx from_loc s = some (some
      ({ xmin := lx.1, xmax := lx.2, ymin := ly.1, ymax := ly.2,
         layer_min := ctx.OPEN, layer_max := ctx.OPEN },
       { x := median_center lx, y := median_center ly, sub_tile := ctx.OPEN,
         layer := if ctx.num_layers > 1 then (max_element_index s.layer_blk_cnt : Int)
                  else from_loc.layer })) := by
  have hXe : s.X_coord.isEmpty = false := by
    cases hc : s.X_coord with
    | nil => rw [hc] at hX; simp at hX
    | cons a l => rfl
  have hYe : s.Y_coord.isEmpty = false := by
    cases hc : s.Y_coord with
    | nil => rw [hc] at hY; simp at hY
    | cons a l => rfl
  simp only [median_target, hXe, hYe, hlx, hly, Bool.false_eq_true, or_self, if_false]

/-- Within the 32-bit range the machine addition is the addition of integers. -/
theorem int_add_eq (a b : Int) (h : -2147483648 ≤ a + b ∧ a + b < 2147483648) :
    int_add a b = a + b := by
  unfold int_add
  omega

/-- C9: for a non-empty list of per-net boxes whose `xmin`/`xmax` and
`ymin`/`ymax` values are the contents of `X_coord` and `Y_coord`, the target
centre handed to the site search is `((Xs[m]+Xs[m+1])/2, (Ys[m]+Ys[m+1])/2)`
in C++ `int` arithmetic (32-bit sum, quotient rounded toward zero), `Xs`, `Ys`
the sorted sequences and `m = (n-1)/2`; whenever the sum fits in 32 bits this
is the integer quotient of the plain sum; and for a block whose two nets have
the excluded boxes (2,2,3,3) and (6,6,1,1) the sorted sequences are `[2,2,6,6]`
and `[1,1,3,3]`, the median region is x in [2,6], y in [1,3] and the target
centre is (4,2). -/
theorem target_center_is_midpoint (ctx : Context) (from_loc : t_pl_loc) (s : MoveVars)
    (boxes : List t_bb) (Xs Ys : List Int) (hb : boxes ≠ [])
    (hX : s.X_coord = accumulated_X boxes) (hY : s.Y_coord = accumulated_Y boxes)
    (hXs : Xs.Sorted (fun a b => a ≤ b)) (hXp : Xs.Perm s.X_coord)
    (hYs : Ys.Sorted (fun a b => a ≤ b)) (hYp : Ys.Perm s.Y_coord) :
    (∃ x0 x1 y0 y1 limits point,
        Xs[(2 * boxes.length - 1) / 2]? = some x0
        ∧ Xs[(2 * boxes.length - 1) / 2 + 1]? = some x1
        ∧ Ys[(2 * boxes.length - 1) / 2]? = some y0
        ∧ Ys[(2 * boxes.length - 1) / 2 + 1]? = some y1
        ∧ median_target ctx from_loc s = some (some (limits, point))
        ∧ point.x = (int_add x0 x1).tdiv 2 ∧ point.y = (int_add y0 y1).tdiv 2
        ∧ (-2147483648 ≤ x0 + x1 ∧ x0 + x1 < 2147483648 → point.x = (x0 + x1).tdiv 2)
        ∧ (-2147483648 ≤ y0 + y1 ∧ y0 + y1 < 2147483648 → point.y = (y0 + y1).tdiv 2))
      ∧ ((accumulate two_net_ctx sample_opts 0 [] []).map (fun s0 => (s0.X_coord, s0.Y_coord))
            = some ([2, 2, 6, 6], [3, 3, 1, 1])
          ∧ accumulated_X
              [{ xmin := 2, xmax := 2, ymin := 3, ymax := 3, layer_min := -1, layer_max := -1 },
               { xmin := 6, xmax := 6, ymin := 1, ymax := 1, layer_min := -1, layer_max := -1 }]
            = [2, 2, 6, 6]
          ∧ accumulated_Y
              [{ xmin := 2, xmax := 2, ymin := 3, ymax := 3, layer_min := -1, layer_max := -1 },
               { xmin := 6, xmax := 6, ymin := 1, ymax := 1, layer_min := -1, layer_max := -1 }]
            = [3, 3, 1, 1]
          ∧ stable_sort [2, 2, 6, 6] = [2, 2, 6, 6] ∧ stable_sort [3, 3, 1, 1] = [1, 1, 3, 3]
          ∧ (accumulate two_net_ctx sample_opts 0 [] []).bind
              (median_target two_net_ctx (two_net_ctx.block_locs 0))
            = some (some
                ({ xmin := 2, xmax := 6, ymin := 1, ymax := 3, layer_min := -1, layer_max := -1 },
                 { x := 4, y := 2, sub_tile := -1, layer := 0 }))) := by
  constructor
  · have hlen : 0 < boxes.length := List.length_pos.2 hb
    have hXl : s.X_coord.length = 2 * boxes.length := by rw [hX, accumulated_X_length]
    have hYl : s.Y_coord.length = 2 * boxes.length := by rw [hY, accumulated_Y_length]
    obtain ⟨x0, x1, hx0, hx1, hlx, _⟩ := median_limits_spec s.X_coord (by omega)
    obtain ⟨y0, y1, hy0, hy1, hly, _⟩ := median_limits_spec s.Y_coord (by omega)
    have ht := median_target_spec ctx from_loc s (x0, x1) (y0, y1) (by omega) (by omega) hlx hly
    rw [eq_stable_sort s.X_coord Xs hXs hXp, eq_stable_sort s.Y_coord Ys hYs hYp]
    rw [hXl] at hx0 hx1
    rw [hYl] at hy0 hy1
    refine ⟨x0, x1, y0, y1, _, _, hx0, hx1, hy0, hy1, ht, rfl, rfl, ?_, ?_⟩
    · intro hr
      show (int_add x0 x1).tdiv 2 = (x0 + x1).tdiv 2
      rw [int_add_eq x0 x1 hr]
    · intro hr
      show (int_add y0 y1).tdiv 2 = (y0 + y1).tdiv 2
      rw [int_add_eq y0 y1 hr]
  · decide

/-- Witness for C9: the two boxes (2,2,3,3) and (6,6,1,1). -/
theorem target_center_is_midpoint_witness :
    ∃ x0 x1 y0 y1 limits point,
        ([2, 2, 6, 6] : List Int)[(2 * 2 - 1) / 2]? = some x0
        ∧ ([2, 2, 6, 6] : List Int)[(2 * 2 - 1) / 2 + 1]? = some x1
        ∧ ([1, 1, 3, 3] : List Int)[(2 * 2 - 1) / 2]? = some y0
        ∧ ([1, 1, 3, 3] : List Int)[(2 * 2 - 1) / 2 + 1]? = some y1
        ∧ median_target sample_base (sample_base.block_locs 0)
            { coords := zero_bb, X_coord := [2, 2, 6, 6], Y_coord := [3, 3, 1, 1],
              layer_blk_cnt := [0] } = some (some (limits, point))
        ∧ point.x = (int_add x0 x1).tdiv 2 ∧ point.y = (int_add y0 y1).tdiv 2
        ∧ (-2147483648 ≤ x0 + x1 ∧ x0 + x1 < 2147483648 → point.x = (x0 + x1).tdiv 2)
        ∧ (-2147483648 ≤ y0 + y1 ∧ y0 + y1 < 2147483648 → point.y = (y0 + y1).tdiv 2) :=
  (target_center_is_midpoint sample_base (sample_base.block_locs 0)
    { coords := zero_bb, X_coord := [2, 2, 6, 6], Y_coord := [3, 3, 1, 1],
      layer_blk_cnt := [0] }
    [{ xmin := 2, xmax := 2, ymin := 3, ymax := 3, layer_min := 0, layer_max := 0 },
     { xmin := 6, xmax := 6, ymin := 1, ymax := 1, layer_min := 0, layer_max := 0 }]
    [2, 2, 6, 6] [1, 1, 3, 3] (by decide) (by decide) (by decide) (by decide) (by decide)
    (by decide) (by decide)).1

/-- C10: two coordinate sequences that are permutations of each other give the
same median region and the same centre on that axis, and two loop states whose
`X_coord` and `Y_coord` are permutations of each other (with the same layer
tally) give the same target for the site search. -/
theorem median_region_perm_invariant (xs ys : List Int) (h : xs.Perm ys) :
    median_limits xs = median_limits ys
      ∧ (median_limits xs).map median_center = (median_limits ys).map median_center
      ∧ ∀ (ctx : Context) (from_loc : t_pl_loc) (s1 s2 : MoveVars),
          s1.X_coord = xs → s2.X_coord = ys → s1.Y_coord.Perm s2.Y_coord →
          s1.layer_blk_cnt = s2.layer_blk_cnt →
          median_target ctx from_loc s1 = median_target ctx from_loc s2 := by
  have key : ∀ a b : List Int, a.Perm b → stable_sort a = stable_sort b := fun a b hab =>
    eq_stable_sort b (stable_sort a) (stable_sort_sorted a) ((stable_sort_perm a).trans hab)
  have hlim : ∀ a b : List Int, a.Perm b → median_limits a = median_limits b := by
    intro a b hab
    unfold median_limits
    rw [key a b hab]
  refine ⟨hlim xs ys h, by rw [hlim xs ys h], ?_⟩
  intro ctx from_loc s1 s2 h1 h2 hY hcnt
  have hXe : s1.X_coord.isEmpty = s2.X_coord.isEmpty := by
    rw [h1, h2]
    cases xs <;> cases ys <;> simp_all
  have hYe : s1.Y_coord.isEmpty = s2.Y_coord.isEmpty := by
    have := hY
    cases hy1 : s1.Y_coord <;> cases hy2 : s2.Y_coord <;> simp_all
  unfold median_target
  rw [hXe, hYe, hlim s1.X_coord s2.X_coord (by rw [h1, h2]; exact h),
    hlim s1.Y_coord s2.Y_coord hY, hcnt]

/-- Witness for C10: `[1,4,4,7,9]` and its reversal. -/
theorem median_region_perm_invariant_witness :
    ([1, 4, 4, 7, 9] : List Int).Perm [9, 7, 4, 4, 1]
      ∧ median_limits [1, 4, 4, 7, 9] = median_limits [9, 7, 4, 4, 1]
      ∧ (median_limits [1, 4, 4, 7, 9]).map median_center
          = (median_limits [9, 7, 4, 4, 1]).map median_center :=
  ⟨by decide,
   (median_region_perm_invariant [1, 4, 4, 7, 9] [9, 7, 4, 4, 1] (by decide)).1,
   (median_region_perm_invariant [1, 4, 4, 7, 9] [9, 7, 4, 4, 1] (by decide)).2.1⟩

/-! ## Blocks with several pins on one net -/

/-- C1, evaluated where it fails: in `two_pin_ctx` block 0 has two pins of net 0
on the cached xmin and ymin edges.  The cache is valid, the pin visited is pin 0
with clamped old coordinate (2,2) and new coordinate (7,7) chosen as in
`propose_move`; `get_bb_incrementally` succeeds and writes the cached box
(2,7,2,7), while `get_bb_from_scratch_excluding_block` with block 0 excluded
computes (5,7,5,7). -/
theorem incremental_keeps_sibling_pin :
    valid_cache two_pin_ctx 0
      ∧ two_pin_ctx.pin_block 0 = 0 ∧ two_pin_ctx.pin_net 0 = 0
      ∧ clamp (pin_coord two_pin_ctx 0).1 10 = 2 ∧ clamp (pin_coord two_pin_ctx 0).2 10 = 2
      ∧ non_critical (net_bb_coords two_pin_ctx 0).xmin (net_bb_coords two_pin_ctx 0).xmax 2 = 7
      ∧ non_critical (net_bb_coords two_pin_ctx 0).ymin (net_bb_coords two_pin_ctx 0).ymax 2 = 7
      ∧ (get_bb_incrementally two_pin_ctx 0 zero_bb 2 2 7 7).map planar = some (2, 7, 2, 7)
      ∧ planar (get_bb_from_scratch_excluding_block two_pin_ctx 0 zero_bb 0).1 = (5, 7, 5, 7)
      ∧ net_box two_pin_ctx 0 zero_bb 0
          = NetOutcome.keep
              { xmin := 2, xmax := 7, ymin := 2, ymax := 7, layer_min := 0, layer_max := 0 } := by
  decide

/-- C6, evaluated where it fails: in `feedback_ctx` every pin of net 0 (the
driver and the four sinks) belongs to block 0 and the net has `SMALL_NET`
sinks, so the incremental branch is taken; it succeeds at each of the five
pins and the cached box (3,3,3,3) is pushed five times. -/
theorem feedback_net_not_skipped :
    (feedback_ctx.net_driver_block 0 = 0
        ∧ ∀ p ∈ feedback_ctx.net_sinks 0, feedback_ctx.pin_block p = 0)
      ∧ valid_cache feedback_ctx 0
      ∧ ¬ ((feedback_ctx.net_sinks 0).length < feedback_ctx.SMALL_NET)
      ∧ (get_bb_from_scratch_excluding_block feedback_ctx 0 zero_bb 0).2 = true
      ∧ (accumulate feedback_ctx sample_opts 0 [] []).map (fun s => (s.X_coord, s.Y_coord))
          = some ([3, 3, 3, 3, 3, 3, 3, 3, 3, 3], [3, 3, 3, 3, 3, 3, 3, 3, 3, 3]) := by
  decide

/-! ## The incremental update against a rescan -/

theorem min_of_spec (l : List Int) : ∀ a : Int,
    min_of a l ∈ a :: l ∧ ∀ x ∈ a :: l, min_of a l ≤ x := by
  induction l with
  | nil => intro a; simp [min_of]
  | cons b rest ih =>
    intro a
    obtain ⟨hmem, hle⟩ := ih (min a b)
    have e : min_of a (b :: rest) = min_of (min a b) rest := rfl
    rw [e]
    constructor
    · rcases List.mem_cons.1 hmem with h | h
      · rw [h]
        rcases min_choice a b with h2 | h2 <;> rw [h2] <;> simp
      · exact List.mem_cons_of_mem _ (List.mem_cons_of_mem _ h)
    · intro x hx
      have h0 := hle (min a b) (List.mem_cons_self _ _)
      rcases List.mem_cons.1 hx with h | h
      · subst h; omega
      · rcases List.mem_cons.1 h with h | h
        · subst h; omega
        · exact hle x (List.mem_cons_of_mem _ h)

theorem max_of_spec (l : List Int) : ∀ a : Int,
    max_of a l ∈ a :: l ∧ ∀ x ∈ a :: l, x ≤ max_of a l := by
  induction l with
  | nil => intro a; simp [max_of]
  | cons b rest ih =>
    intro a
    obtain ⟨hmem, hle⟩ := ih (max a b)
    have e : max_of a (b :: rest) = max_of (max a b) rest := rfl
    rw [e]
    constructor
    · rcases List.mem_cons.1 hmem with h | h
      · rw [h]
        rcases max_choice a b with h2 | h2 <;> rw [h2] <;> simp
      · exact List.mem_cons_of_mem _ (List.mem_cons_of_mem _ h)
    · intro x hx
      have h0 := hle (max a b) (List.mem_cons_self _ _)
      rcases List.mem_cons.1 hx with h | h
      · subst h; omega
      · rcases List.mem_cons.1 h with h | h
        · subst h; omega
        · exact hle x (List.mem_cons_of_mem _ h)

/-- The clamped least value of a projection is attained and is a lower bound
of the clamped values. -/
theorem clamp_min_of_spec (f : Int × Int → Int) (W : Nat) (p : Int × Int)
    (rest : List (Int × Int)) :
    (∃ t ∈ p :: rest, clamp (min_of (f p) (rest.map f)) W = clamp (f t) W)
      ∧ ∀ t ∈ p :: rest, clamp (min_of (f p) (rest.map f)) W ≤ clamp (f t) W := by
  obtain ⟨hmem, hle⟩ := min_of_spec (rest.map f) (f p)
  constructor
  · have hmem2 : min_of (f p) (rest.map f) ∈ (p :: rest).map f := by simpa using hmem
    obtain ⟨t, ht, hft⟩ := List.mem_map.1 hmem2
    exact ⟨t, ht, by rw [hft]⟩
  · intro t ht
    apply clamp_mono
    apply hle
    have : f t ∈ (p :: rest).map f := List.mem_map_of_mem f ht
    simpa using this

theorem clamp_max_of_spec (f : Int × Int → Int) (W : Nat) (p : Int × Int)
    (rest : List (Int × Int)) :
    (∃ t ∈ p :: rest, clamp (max_of (f p) (rest.map f)) W = clamp (f t) W)
      ∧ ∀ t ∈ p :: rest, clamp (f t) W ≤ clamp (max_of (f p) (rest.map f)) W := by
  obtain ⟨hmem, hle⟩ := max_of_spec (rest.map f) (f p)
  constructor
  · have hmem2 : max_of (f p) (rest.map f) ∈ (p :: rest).map f := by simpa using hmem
    obtain ⟨t, ht, hft⟩ := List.mem_map.1 hmem2
    exact ⟨t, ht, by rw [hft]⟩
  · intro t ht
    apply clamp_mono
    apply hle
    have : f t ∈ (p :: rest).map f := List.mem_map_of_mem f ht
    simpa using this

/-- What `scan_bb` returns has its extremes attained. -/
theorem scan_bb_is_box (W H : Nat) (pts : List (Int × Int)) (box : Int × Int × Int × Int)
    (h : scan_bb W H pts = some box) : is_box W H pts box := by
  cases pts with
  | nil => simp [scan_bb] at h
  | cons p rest =>
    simp only [scan_bb, Option.some.injEq] at h
    subst h
    exact ⟨clamp_min_of_spec Prod.fst W p rest, clamp_max_of_spec Prod.fst W p rest,
      clamp_min_of_spec Prod.snd H p rest, clamp_max_of_spec Prod.snd H p rest⟩

/-- A box whose extremes are attained is the one `scan_bb` returns. -/
theorem is_box_scan_bb (W H : Nat) (pts : List (Int × Int)) (box : Int × Int × Int × Int)
    (h : is_box W H pts box) : scan_bb W H pts = some box := by
  cases pts with
  | nil =>
    obtain ⟨⟨⟨t, ht, _⟩, _⟩, _⟩ := h
    simp at ht
  | cons p rest =>
    obtain ⟨⟨⟨t1, ht1, e1⟩, l1⟩, ⟨⟨t2, ht2, e2⟩, l2⟩, ⟨⟨t3, ht3, e3⟩, l3⟩, ⟨t4, ht4, e4⟩, l4⟩ := h
    obtain ⟨⟨u1, hu1, f1⟩, m1⟩ := clamp_min_of_spec Prod.fst W p rest
    obtain ⟨⟨u2, hu2, f2⟩, m2⟩ := clamp_max_of_spec Prod.fst W p rest
    obtain ⟨⟨u3, hu3, f3⟩, m3⟩ := clamp_min_of_spec Prod.snd H p rest
    obtain ⟨⟨u4, hu4, f4⟩, m4⟩ := clamp_max_of_spec Prod.snd H p rest
    have a1 := l1 u1 hu1
    have b1 := m1 t1 ht1
    have a2 := l2 u2 hu2
    have b2 := m2 t2 ht2
    have a3 := l3 u3 hu3
    have b3 := m3 t3 ht3
    have a4 := l4 u4 hu4
    have b4 := m4 t4 ht4
    obtain ⟨x1, x2, x3, x4⟩ := box
    simp only at e1 e2 e3 e4 a1 a2 a3 a4
    simp only [scan_bb, Option.some.injEq, Prod.mk.injEq]
    refine ⟨?_, ?_, ?_, ?_⟩ <;> omega

/-- A value attained on a list is attained away from position `p` as soon as
`p` does not hold it or more than one entry holds it. -/
theorem attained_elsewhere (g : Int × Int → Int) (l1 l2 : List (Int × Int)) (p : Int × Int)
    (v : Int) (hv : ∃ t ∈ l1 ++ p :: l2, v = g t)
    (h : g p ≠ v ∨ (((l1 ++ p :: l2).filter fun t => decide (g t = v)).length : Int) ≠ 1) :
    ∃ t, (t ∈ l1 ∨ t ∈ l2) ∧ v = g t := by
  obtain ⟨t, ht, hvt⟩ := hv
  by_cases hp : g p = v
  · have hcount : (((l1 ++ p :: l2).filter fun t => decide (g t = v)).length : Int) ≠ 1 := by
      rcases h with h | h
      · exact absurd hp h
      · exact h
    have hsplit : ((l1 ++ p :: l2).filter fun t => decide (g t = v)).length
        = (l1.filter fun t => decide (g t = v)).length
          + ((l2.filter fun t => decide (g t = v)).length + 1) := by
      simp [List.filter_append, List.filter_cons, hp]
    rw [hsplit] at hcount
    have hpos : 0 < (l1.filter fun t => decide (g t = v)).length
        ∨ 0 < (l2.filter fun t => decide (g t = v)).length := by omega
    rcases hpos with hpos | hpos
    · obtain ⟨u, hu⟩ := List.exists_mem_of_length_pos hpos
      have hu2 := List.mem_filter.1 hu
      exact ⟨u, Or.inl hu2.1, (of_decide_eq_true hu2.2).symm⟩
    · obtain ⟨u, hu⟩ := List.exists_mem_of_length_pos hpos
      have hu2 := List.mem_filter.1 hu
      exact ⟨u, Or.inr hu2.1, (of_decide_eq_true hu2.2).symm⟩
  · have ht2 : t ∈ l1 ∨ t = p ∨ t ∈ l2 := by simpa using ht
    rcases ht2 with h1 | h1 | h1
    · exact ⟨t, Or.inl h1, hvt⟩
    · subst h1; exact absurd hvt.symm hp
    · exact ⟨t, Or.inr h1, hvt⟩

/-- One axis of the incremental update: pin `p` of the net `l1 ++ p :: l2` is
replaced by `q`.  With `m`, `M` the attained extremes and `emin`, `emax` the
number of pins on them, and no recompute required, the widened interval has its
extremes attained on `l1 ++ q :: l2`. -/
theorem axis_update (g : Int × Int → Int) (l1 l2 : List (Int × Int)) (p q : Int × Int)
    (m M emin emax : Int)
    (hm : ∃ t ∈ l1 ++ p :: l2, m = g t) (hml : ∀ t ∈ l1 ++ p :: l2, m ≤ g t)
    (hM : ∃ t ∈ l1 ++ p :: l2, M = g t) (hMl : ∀ t ∈ l1 ++ p :: l2, g t ≤ M)
    (hemin : emin = (((l1 ++ p :: l2).filter fun t => decide (g t = m)).length : Int))
    (hemax : emax = (((l1 ++ p :: l2).filter fun t => decide (g t = M)).length : Int))
    (h1 : ¬ (g q < g p ∧ g p = M ∧ emax = 1)) (h2 : ¬ (g q > g p ∧ g p = m ∧ emin = 1)) :
    ((∃ t ∈ l1 ++ q :: l2, (if g q < g p then min m (g q) else m) = g t)
        ∧ ∀ t ∈ l1 ++ q :: l2, (if g q < g p then min m (g q) else m) ≤ g t)
      ∧ ((∃ t ∈ l1 ++ q :: l2, (if g q > g p then max M (g q) else M) = g t)
        ∧ ∀ t ∈ l1 ++ q :: l2, g t ≤ (if g q > g p then max M (g q) else M)) := by
  have hp_mem : p ∈ l1 ++ p :: l2 := by simp
  have hmp := hml p hp_mem
  have hpM := hMl p hp_mem
  have old_of_new : ∀ t ∈ l1 ++ q :: l2, t = q ∨ t ∈ l1 ++ p :: l2 := by
    intro t ht
    have : t ∈ l1 ∨ t = q ∨ t ∈ l2 := by simpa using ht
    rcases this with h | h | h
    · right; simp [h]
    · left; exact h
    · right; simp [h]
  have new_of_else : ∀ t, (t ∈ l1 ∨ t ∈ l2) → t ∈ l1 ++ q :: l2 := by
    intro t ht
    rcases ht with h | h <;> simp [h]
  have hq_mem : q ∈ l1 ++ q :: l2 := by simp
  -- the lower extreme
  have lower_attained : ∃ t ∈ l1 ++ q :: l2, (if g q < g p then min m (g q) else m) = g t := by
    by_cases hqm : g q ≤ m
    · refine ⟨q, hq_mem, ?_⟩
      split <;> omega
    · have hne : g p ≠ m ∨ (((l1 ++ p :: l2).filter fun t => decide (g t = m)).length : Int) ≠ 1 := by
        by_cases hpm : g p = m
        · right
          rw [← hemin]
          intro he
          exact h2 ⟨by omega, hpm, he⟩
        · exact Or.inl hpm
      obtain ⟨t, ht, hmt⟩ := attained_elsewhere g l1 l2 p m hm hne
      refine ⟨t, new_of_else t ht, ?_⟩
      rw [← hmt]
      split <;> omega
  have lower_bound : ∀ t ∈ l1 ++ q :: l2, (if g q < g p then min m (g q) else m) ≤ g t := by
    intro t ht
    rcases old_of_new t ht with h | h
    · subst h
      split <;> omega
    · have := hml t h
      split <;> omega
  -- the upper extreme
  have upper_attained : ∃ t ∈ l1 ++ q :: l2, (if g q > g p then max M (g q) else M) = g t := by
    by_cases hqM : M ≤ g q
    · refine ⟨q, hq_mem, ?_⟩
      split <;> omega
    · have hne : g p ≠ M ∨ (((l1 ++ p :: l2).filter fun t => decide (g t = M)).length : Int) ≠ 1 := by
        by_cases hpM2 : g p = M
        · right
          rw [← hemax]
          intro he
          exact h1 ⟨by omega, hpM2, he⟩
        · exact Or.inl hpM2
      obtain ⟨t, ht, hMt⟩ := attained_elsewhere g l1 l2 p M hM hne
      refine ⟨t, new_of_else t ht, ?_⟩
      rw [← hMt]
      split <;> omega
  have upper_bound : ∀ t ∈ l1 ++ q :: l2, g t ≤ (if g q > g p then max M (g q) else M) := by
    intro t ht
    rcases old_of_new t ht with h | h
    · subst h
      split <;> omega
    · have := hMl t h
      split <;> omega
  exact ⟨⟨lower_attained, lower_bound⟩, upper_attained, upper_bound⟩

theorem clamp_idem (v : Int) (W : Nat) : clamp (clamp v W) W = clamp v W := by
  unfold clamp; omega

/-- A list split at a position that holds `p`. -/
theorem split_at_index (pts : List (Int × Int)) (i : Nat) (p : Int × Int)
    (hp : pts[i]? = some p) :
    pts = pts.take i ++ p :: pts.drop (i + 1)
      ∧ ∀ q, pts.set i q = pts.take i ++ q :: pts.drop (i + 1) := by
  obtain ⟨hi, hpi⟩ := List.getElem?_eq_some_iff.1 hp
  constructor
  · rw [← hpi, List.getElem_cons_drop, List.take_append_drop]
  · intro q
    rw [List.set_eq_take_append_cons_drop, if_pos hi]

/-- C2: for a net with a valid cached box and valid edge counts, and a move of
the pin at position `i` of the net, called with an old coordinate that clamps
to the pin's clamped coordinate: if `get_bb_incrementally` returns true, the
box it writes is the from-scratch box (clamped min/max of x and y) of the
net's pins with that one pin at the clamped (xnew, ynew) and all other pins
in place. -/
theorem incremental_matches_rescan (ctx : Context) (net_id : ClusterNetId) (bb r : t_bb)
    (xold yold xnew ynew : Int) (i : Nat) (p : Int × Int)
    (hvalid : valid_cache ctx net_id)
    (hp : (net_coords ctx net_id)[i]? = some p)
    (hxo : clamp xold ctx.grid_width = clamp p.1 ctx.grid_width)
    (hyo : clamp yold ctx.grid_height = clamp p.2 ctx.grid_height)
    (hr : get_bb_incrementally ctx net_id bb xold yold xnew ynew = some r) :
    scan_bb ctx.grid_width ctx.grid_height
        ((net_coords ctx net_id).set i (clamp xnew ctx.grid_width, clamp ynew ctx.grid_height))
      = some (planar r) := by
  obtain ⟨hnf, hr⟩ := get_bb_incrementally_some ctx net_id bb r xold yold xnew ynew hr
  obtain ⟨hscan, hexmin, hexmax, heymin, heymax⟩ := hvalid
  obtain ⟨hsplit, hset⟩ := split_at_index (net_coords ctx net_id) i p hp
  rw [hset]
  rw [hsplit] at hscan hexmin hexmax heymin heymax
  obtain ⟨⟨hxm, hxml⟩, ⟨hxM, hxMl⟩, ⟨hym, hyml⟩, hyM, hyMl⟩ :=
    scan_bb_is_box _ _ _ _ hscan
  simp only [planar] at hxm hxml hxM hxMl hym hyml hyM hyMl
  simp only [recompute_required, not_or] at hnf
  obtain ⟨nx1, nx2, ny1, ny2⟩ := hnf
  rw [hxo] at nx1 nx2
  rw [hyo] at ny1 ny2
  have gx : clamp (clamp xnew ctx.grid_width, clamp ynew ctx.grid_height).1 ctx.grid_width
      = clamp xnew ctx.grid_width := clamp_idem _ _
  have gy : clamp (clamp xnew ctx.grid_width, clamp ynew ctx.grid_height).2 ctx.grid_height
      = clamp ynew ctx.grid_height := clamp_idem _ _
  have ax := axis_update (fun t => clamp t.1 ctx.grid_width)
    ((net_coords ctx net_id).take i) ((net_coords ctx net_id).drop (i + 1)) p
    (clamp xnew ctx.grid_width, clamp ynew ctx.grid_height)
    (curr_bb_coord ctx net_id).xmin (curr_bb_coord ctx net_id).xmax
    (curr_bb_edge ctx net_id).xmin (curr_bb_edge ctx net_id).xmax
    hxm hxml hxM hxMl hexmin hexmax (by simpa only [gx] using nx1) (by simpa only [gx] using nx2)
  have ay := axis_update (fun t => clamp t.2 ctx.grid_height)
    ((net_coords ctx net_id).take i) ((net_coords ctx net_id).drop (i + 1)) p
    (clamp xnew ctx.grid_width, clamp ynew ctx.grid_height)
    (curr_bb_coord ctx net_id).ymin (curr_bb_coord ctx net_id).ymax
    (curr_bb_edge ctx net_id).ymin (curr_bb_edge ctx net_id).ymax
    hym hyml hyM hyMl heymin heymax (by simpa only [gy] using ny1) (by simpa only [gy] using ny2)
  simp only [gx] at ax
  simp only [gy] at ay
  apply is_box_scan_bb
  rw [hr, hxo, hyo]
  exact ⟨ax.1, ax.2, ay.1, ay.2⟩

/-- Witness for C2 on `two_pin_ctx`: sink pin 3 (position 3 of net 0, at (6,6))
moves to (9,1); the call succeeds and the box becomes (2,8,1,7). -/
theorem incremental_matches_rescan_witness :
    valid_cache two_pin_ctx 0
      ∧ get_bb_incrementally two_pin_ctx 0 zero_bb 6 6 9 1
          = some { xmin := 2, xmax := 8, ymin := 1, ymax := 7, layer_min := 0, layer_max := 0 }
      ∧ scan_bb 10 10 ((net_coords two_pin_ctx 0).set 3 (clamp 9 10, clamp 1 10))
          = some (2, 8, 1, 7) :=
  ⟨by decide, by decide,
   incremental_matches_rescan two_pin_ctx 0 zero_bb
     { xmin := 2, xmax := 8, ymin := 1, ymax := 7, layer_min := 0, layer_max := 0 }
     6 6 9 1 3 (6, 6) (by decide) (by decide) (by decide) (by decide) (by decide)⟩

/-! ## The incremental update against the exclusion scan, one pin on the net -/

/-- When pins remain, `get_bb_from_scratch_excluding_block` writes the
from-scratch box of the remaining pins. -/
theorem scratch_eq_scan_bb (ctx : Context) (net_id : ClusterNetId) (bb : t_bb)
    (block_id : ClusterBlockId) (hne : remaining_coords ctx net_id block_id ≠ []) :
    scan_bb ctx.grid_width ctx.grid_height (remaining_coords ctx net_id block_id)
      = some (planar (get_bb_from_scratch_excluding_block ctx net_id bb block_id).1) := by
  apply is_box_scan_bb
  rcases scratch_scan_inv ctx net_id block_id with ⟨hnil, _⟩ |
    ⟨_, _, ⟨p1, hp1, e1⟩, l1, ⟨p2, hp2, e2⟩, l2, ⟨p3, hp3, e3⟩, l3, ⟨p4, hp4, e4⟩, l4⟩
  · exact absurd hnil hne
  · simp only [is_box, planar, get_bb_from_scratch_excluding_block]
    refine ⟨⟨⟨p1, hp1, ?_⟩, ?_⟩, ⟨⟨p2, hp2, ?_⟩, ?_⟩, ⟨⟨p3, hp3, ?_⟩, ?_⟩, ⟨p4, hp4, ?_⟩, ?_⟩
    · rw [e1]; rfl
    · intro t ht; exact clamp_mono _ (l1 t ht)
    · rw [e2]; rfl
    · intro t ht; exact clamp_mono _ (l2 t ht)
    · rw [e3]; rfl
    · intro t ht; exact clamp_mono _ (l3 t ht)
    · rw [e4]; rfl
    · intro t ht; exact clamp_mono _ (l4 t ht)

/-- One axis of the large-net branch: pin `p` of the net `l1 ++ p :: l2` is the
only pin left out, the new coordinate is the non-critical one, and no recompute
is required.  Then the cached extremes are attained on the other pins and the
update leaves the cached interval as it is. -/
theorem axis_exclusion (g : Int × Int → Int) (l1 l2 : List (Int × Int)) (p : Int × Int)
    (m M emin emax : Int) (hne : l1 ++ l2 ≠ [])
    (hm : ∃ t ∈ l1 ++ p :: l2, m = g t) (hml : ∀ t ∈ l1 ++ p :: l2, m ≤ g t)
    (hM : ∃ t ∈ l1 ++ p :: l2, M = g t) (hMl : ∀ t ∈ l1 ++ p :: l2, g t ≤ M)
    (hemin : emin = (((l1 ++ p :: l2).filter fun t => decide (g t = m)).length : Int))
    (hemax : emax = (((l1 ++ p :: l2).filter fun t => decide (g t = M)).length : Int))
    (h1 : ¬ (non_critical m M (g p) < g p ∧ g p = M ∧ emax = 1))
    (h2 : ¬ (non_critical m M (g p) > g p ∧ g p = m ∧ emin = 1)) :
    ((∃ t ∈ l1 ++ l2, m = g t) ∧ ∀ t ∈ l1 ++ l2, m ≤ g t)
      ∧ ((∃ t ∈ l1 ++ l2, M = g t) ∧ ∀ t ∈ l1 ++ l2, g t ≤ M)
      ∧ (if non_critical m M (g p) < g p then min m (non_critical m M (g p)) else m) = m
      ∧ (if non_critical m M (g p) > g p then max M (non_critical m M (g p)) else M) = M := by
  have hp_mem : p ∈ l1 ++ p :: l2 := by simp
  have hmp := hml p hp_mem
  have hpM := hMl p hp_mem
  have sub : ∀ t ∈ l1 ++ l2, t ∈ l1 ++ p :: l2 := by
    intro t ht
    rcases List.mem_append.1 ht with h | h <;> simp [h]
  have back : ∀ t, (t ∈ l1 ∨ t ∈ l2) → t ∈ l1 ++ l2 := fun t ht => List.mem_append.2 ht
  obtain ⟨u, hu⟩ := List.exists_mem_of_ne_nil _ hne
  have humem := sub u hu
  have hmu := hml u humem
  have huM := hMl u humem
  have lower : ∃ t ∈ l1 ++ l2, m = g t := by
    by_cases hmM : m = M
    · exact ⟨u, hu, by omega⟩
    · have hcond : g p ≠ m
          ∨ (((l1 ++ p :: l2).filter fun t => decide (g t = m)).length : Int) ≠ 1 := by
        by_cases hpm : g p = m
        · right
          rw [← hemin]
          intro he
          apply h2
          refine ⟨?_, hpm, he⟩
          unfold non_critical
          rw [if_pos hpm.symm]
          omega
        · exact Or.inl hpm
      obtain ⟨t, ht, e⟩ := attained_elsewhere g l1 l2 p m hm hcond
      exact ⟨t, back t ht, e⟩
  have upper : ∃ t ∈ l1 ++ l2, M = g t := by
    by_cases hmM : m = M
    · exact ⟨u, hu, by omega⟩
    · have hcond : g p ≠ M
          ∨ (((l1 ++ p :: l2).filter fun t => decide (g t = M)).length : Int) ≠ 1 := by
        by_cases hpM2 : g p = M
        · right
          rw [← hemax]
          intro he
          apply h1
          refine ⟨?_, hpM2, he⟩
          unfold non_critical
          rw [if_neg (by omega)]
          omega
        · exact Or.inl hpM2
      obtain ⟨t, ht, e⟩ := attained_elsewhere g l1 l2 p M hM hcond
      exact ⟨t, back t ht, e⟩
  refine ⟨⟨lower, fun t ht => hml t (sub t ht)⟩, ⟨upper, fun t ht => hMl t (sub t ht)⟩, ?_, ?_⟩
  · unfold non_critical
    split_ifs <;> omega
  · unfold non_critical
    split_ifs <;> omega

/-- The part of C1 that holds: when the pin visited is the only pin of the
moving block on the net (the pins that remain after the exclusion are all the
pins but the one at position `i`, and some pin remains), a successful
`get_bb_incrementally` with the non-critical new coordinate writes the box that
`get_bb_from_scratch_excluding_block` computes. -/
theorem incremental_matches_exclusion_single_pin (ctx : Context) (net_id : ClusterNetId)
    (bb bb2 r : t_bb) (block_id : ClusterBlockId) (i : Nat) (p : Int × Int)
    (hvalid : valid_cache ctx net_id) (hsame : same_cached_box ctx net_id)
    (hp : (net_coords ctx net_id)[i]? = some p)
    (hrem : remaining_coords ctx net_id block_id = (net_coords ctx net_id).eraseIdx i)
    (hne : remaining_coords ctx net_id block_id ≠ [])
    (hr : get_bb_incrementally ctx net_id bb
      (clamp p.1 ctx.grid_width) (clamp p.2 ctx.grid_height)
      (non_critical (net_bb_coords ctx net_id).xmin (net_bb_coords ctx net_id).xmax
        (clamp p.1 ctx.grid_width))
      (non_critical (net_bb_coords ctx net_id).ymin (net_bb_coords ctx net_id).ymax
        (clamp p.2 ctx.grid_height)) = some r) :
    planar r = planar (get_bb_from_scratch_excluding_block ctx net_id bb2 block_id).1 := by
  obtain ⟨hnf, hr⟩ := get_bb_incrementally_some _ _ _ _ _ _ _ _ hr
  have hs := scratch_eq_scan_bb ctx net_id bb2 block_id hne
  obtain ⟨hscan, hexmin, hexmax, heymin, heymax⟩ := hvalid
  obtain ⟨hsplit, _⟩ := split_at_index (net_coords ctx net_id) i p hp
  have herase : (net_coords ctx net_id).eraseIdx i
      = (net_coords ctx net_id).take i ++ (net_coords ctx net_id).drop (i + 1) :=
    List.eraseIdx_eq_take_drop_succ _ _
  rw [hrem, herase] at hs hne
  rw [hsplit] at hscan hexmin hexmax heymin heymax
  obtain ⟨⟨hxm, hxml⟩, ⟨hxM, hxMl⟩, ⟨hym, hyml⟩, hyM, hyMl⟩ :=
    scan_bb_is_box _ _ _ _ hscan
  simp only [planar] at hxm hxml hxM hxMl hym hyml hyM hyMl
  unfold same_cached_box at hsame
  rw [hsame] at hnf hr
  -- cached extremes are clamped values, so clamping the non-critical choice changes nothing
  have cx : ∀ v, clamp (non_critical (curr_bb_coord ctx net_id).xmin
        (curr_bb_coord ctx net_id).xmax v) ctx.grid_width
      = non_critical (curr_bb_coord ctx net_id).xmin (curr_bb_coord ctx net_id).xmax v := by
    intro v
    obtain ⟨t1, _, e1⟩ := hxm
    obtain ⟨t2, _, e2⟩ := hxM
    unfold non_critical
    split_ifs
    · rw [e2, clamp_idem]
    · rw [e1, clamp_idem]
  have cy : ∀ v, clamp (non_critical (curr_bb_coord ctx net_id).ymin
        (curr_bb_coord ctx net_id).ymax v) ctx.grid_height
      = non_critical (curr_bb_coord ctx net_id).ymin (curr_bb_coord ctx net_id).ymax v := by
    intro v
    obtain ⟨t1, _, e1⟩ := hym
    obtain ⟨t2, _, e2⟩ := hyM
    unfold non_critical
    split_ifs
    · rw [e2, clamp_idem]
    · rw [e1, clamp_idem]
  simp only [clamp_idem, cx, cy] at hnf hr
  simp only [recompute_required, not_or] at hnf
  obtain ⟨nx1, nx2, ny1, ny2⟩ := hnf
  have ax := axis_exclusion (fun t => clamp t.1 ctx.grid_width)
    ((net_coords ctx net_id).take i) ((net_coords ctx net_id).drop (i + 1)) p
    (curr_bb_coord ctx net_id).xmin (curr_bb_coord ctx net_id).xmax
    (curr_bb_edge ctx net_id).xmin (curr_bb_edge ctx net_id).xmax
    hne hxm hxml hxM hxMl hexmin hexmax nx1 nx2
  have ay := axis_exclusion (fun t => clamp t.2 ctx.grid_height)
    ((net_coords ctx net_id).take i) ((net_coords ctx net_id).drop (i + 1)) p
    (curr_bb_coord ctx net_id).ymin (curr_bb_coord ctx net_id).ymax
    (curr_bb_edge ctx net_id).ymin (curr_bb_edge ctx net_id).ymax
    hne hym hyml hyM hyMl heymin heymax ny1 ny2
  have hbox : is_box ctx.grid_width ctx.grid_height
      ((net_coords ctx net_id).take i ++ (net_coords ctx net_id).drop (i + 1)) (planar r) := by
    rw [hr]
    simp only [is_box, planar, widened_box, ax.2.2.1, ax.2.2.2, ay.2.2.1, ay.2.2.2]
    exact ⟨ax.1, ax.2.1, ay.1, ay.2.1⟩
  have := is_box_scan_bb _ _ _ _ hbox
  rw [hs] at this
  exact (Option.some.inj this).symm

/-! ## The pin loop -/

/-- A net all of whose pins belong to the excluded block is flagged by the scan. -/
theorem scratch_skips_feedback (ctx : Context) (net_id : ClusterNetId) (bb : t_bb)
    (block_id : ClusterBlockId) (hdrv : ctx.net_driver_block net_id = block_id)
    (hs : ∀ p ∈ ctx.net_sinks net_id, ctx.pin_block p = block_id) :
    (get_bb_from_scratch_excluding_block ctx net_id bb block_id).2 = true := by
  have hnil : remaining_coords ctx net_id block_id = [] := by
    by_contra hne
    rcases (remaining_coords_ne_nil ctx net_id block_id).1 hne with h | ⟨p, hp, hpb⟩
    · exact h hdrv
    · exact hpb (hs p hp)
  rcases scratch_scan_inv ctx net_id block_id with ⟨_, hst⟩ | ⟨_, _, ⟨p, hp, _⟩, _⟩
  · simp [get_bb_from_scratch_excluding_block, hst]
  · rw [hnil] at hp
    simp at hp

/-- The part of C6 that holds: a net all of whose pins belong to the selected
block and that has fewer than `SMALL_NET` sinks pushes nothing. -/
theorem feedback_small_net_skipped {F : Type} (ctx : Context) (placer_opts : t_placer_opts F)
    (b_from : ClusterBlockId) (s : MoveVars) (pin_id : ClusterPinId)
    (hdrv : ctx.net_driver_block (ctx.pin_net pin_id) = b_from)
    (hs : ∀ p ∈ ctx.net_sinks (ctx.pin_net pin_id), ctx.pin_block p = b_from)
    (hsmall : (ctx.net_sinks (ctx.pin_net pin_id)).length < ctx.SMALL_NET) :
    (pin_step ctx placer_opts b_from s pin_id).map (fun s1 => (s1.X_coord, s1.Y_coord))
      = some (s.X_coord, s.Y_coord) := by
  have hskip := scratch_skips_feedback ctx (ctx.pin_net pin_id) s.coords b_from hdrv hs
  have hbox : net_box ctx b_from s.coords pin_id
      = NetOutcome.skip
          (get_bb_from_scratch_excluding_block ctx (ctx.pin_net pin_id) s.coords b_from).1 := by
    simp [net_box, hsmall, hskip]
  simp only [pin_step]
  by_cases h1 : ctx.net_is_ignored (ctx.pin_net pin_id) = true
  · rw [if_pos h1]; rfl
  · rw [if_neg h1]
    by_cases h2 : (ctx.net_pins_size (ctx.pin_net pin_id) : Int) > placer_opts.place_high_fanout_net
    · rw [if_pos h2]; rfl
    · rw [if_neg h2, hbox]; rfl

/-- Every iteration of the pin loop either leaves the scratch vectors alone or
appends the `xmin`, `xmax` and the `ymin`, `ymax` of one box. -/
theorem pin_step_pushes {F : Type} (ctx : Context) (placer_opts : t_placer_opts F)
    (b_from : ClusterBlockId) (s s1 : MoveVars) (pin_id : ClusterPinId)
    (h : pin_step ctx placer_opts b_from s pin_id = some s1) :
    (s1.X_coord = s.X_coord ∧ s1.Y_coord = s.Y_coord)
      ∨ ∃ box : t_bb, s1.X_coord = (s.X_coord.concat box.xmin).concat box.xmax
          ∧ s1.Y_coord = (s.Y_coord.concat box.ymin).concat box.ymax := by
  simp only [pin_step] at h
  by_cases h1 : ctx.net_is_ignored (ctx.pin_net pin_id) = true
  · rw [if_pos h1] at h
    left; cases h; exact ⟨rfl, rfl⟩
  · rw [if_neg h1] at h
    by_cases h2 : (ctx.net_pins_size (ctx.pin_net pin_id) : Int) > placer_opts.place_high_fanout_net
    · rw [if_pos h2] at h
      left; cases h; exact ⟨rfl, rfl⟩
    · rw [if_neg h2] at h
      cases hb : net_box ctx b_from s.coords pin_id with
      | fault => rw [hb] at h; cases h
      | skip coords => rw [hb] at h; left; cases h; exact ⟨rfl, rfl⟩
      | keep coords => rw [hb] at h; right; cases h; exact ⟨coords, rfl, rfl⟩

/-- The scratch vectors at the end of the pin loop are the ones at its start
followed by the extents of a list of boxes. -/
theorem pin_loop_pushes {F : Type} (ctx : Context) (placer_opts : t_placer_opts F)
    (b_from : ClusterBlockId) (pins : List ClusterPinId) :
    ∀ s s1 : MoveVars, pin_loop ctx placer_opts b_from s pins = some s1 →
      ∃ boxes : List t_bb,
        s1.X_coord = boxes.foldl (fun acc b => (acc.concat b.xmin).concat b.xmax) s.X_coord
          ∧ s1.Y_coord
              = boxes.foldl (fun acc b => (acc.concat b.ymin).concat b.ymax) s.Y_coord := by
  induction pins with
  | nil =>
    intro s s1 h
    simp only [pin_loop, Option.some.injEq] at h
    subst h
    exact ⟨[], rfl, rfl⟩
  | cons pin rest ih =>
    intro s s1 h
    simp only [pin_loop] at h
    split at h
    · cases h
    · rename_i s2 hstep
      obtain ⟨boxes, hX, hY⟩ := ih s2 s1 h
      rcases pin_step_pushes ctx placer_opts b_from s s2 pin hstep with ⟨eX, eY⟩ | ⟨box, eX, eY⟩
      · exact ⟨boxes, by rw [hX, eX], by rw [hY, eY]⟩
      · exact ⟨box :: boxes, by rw [hX, eX]; rfl, by rw [hY, eY]; rfl⟩

/-- What `propose_move` accumulates is always of the form C9 is stated for:
the extents of a list of boxes, the same list on both axes. -/
theorem accumulate_pushes_boxes {F : Type} (ctx : Context) (placer_opts : t_placer_opts F)
    (b_from : ClusterBlockId) (X0 Y0 : List Int) (s : MoveVars)
    (h : accumulate ctx placer_opts b_from X0 Y0 = some s) :
    ∃ boxes : List t_bb, s.X_coord = accumulated_X boxes ∧ s.Y_coord = accumulated_Y boxes :=
  pin_loop_pushes ctx placer_opts b_from _ _ s h

/-! ## Nets that are never looked at -/

/-- C11: a pin of the selected block whose net is flagged ignored, or has more
pins than `place_high_fanout_net`, leaves `X_coord`, `Y_coord` and the layer
tally exactly as they were, whatever the coordinates, the cached box and the
edge counts are; so the loop gives the same result with every pin of that net
taken out of the pin list. -/
theorem high_fanout_and_ignored_nets_push_nothing {F : Type} (ctx : Context)
    (placer_opts : t_placer_opts F) (b_from : ClusterBlockId) (net_id : ClusterNetId)
    (h : ctx.net_is_ignored net_id = true
          ∨ (ctx.net_pins_size net_id : Int) > placer_opts.place_high_fanout_net) :
    (∀ (s : MoveVars) (pin_id : ClusterPinId), ctx.pin_net pin_id = net_id →
        pin_step ctx placer_opts b_from s pin_id = some s)
      ∧ ∀ (s : MoveVars) (pins : List ClusterPinId),
          pin_loop ctx placer_opts b_from s pins
            = pin_loop ctx placer_opts b_from s
                (pins.filter fun q => !decide (ctx.pin_net q = net_id)) := by
  have hstep : ∀ (s : MoveVars) (pin_id : ClusterPinId), ctx.pin_net pin_id = net_id →
      pin_step ctx placer_opts b_from s pin_id = some s := by
    intro s pin_id hnet
    simp only [pin_step, hnet]
    by_cases h1 : ctx.net_is_ignored net_id = true
    · rw [if_pos h1]
    · rw [if_neg h1]
      rcases h with h | h
      · exact absurd h h1
      · rw [if_pos h]
  refine ⟨hstep, ?_⟩
  intro s pins
  induction pins generalizing s with
  | nil => rfl
  | cons q rest ih =>
    by_cases hq : ctx.pin_net q = net_id
    · have hf : (q :: rest).filter (fun q => !decide (ctx.pin_net q = net_id))
          = rest.filter (fun q => !decide (ctx.pin_net q = net_id)) := by
        simp [List.filter_cons, hq]
      rw [hf, ← ih s]
      simp only [pin_loop, hstep s q hq]
    · have hf : (q :: rest).filter (fun q => !decide (ctx.pin_net q = net_id))
          = q :: rest.filter (fun q => !decide (ctx.pin_net q = net_id)) := by
        simp [List.filter_cons, hq]
      rw [hf]
      simp only [pin_loop]
      cases pin_step ctx placer_opts b_from s q with
      | none => rfl
      | some s1 => exact ih s1

/-- Witness for C11: in `ignored_ctx` net 0 has six pins, above the threshold
of 5; pin 0 of block 0 is on it and pushes nothing. -/
theorem high_fanout_and_ignored_nets_push_nothing_witness :
    (ignored_ctx.net_pins_size 0 : Int) > tight_opts.place_high_fanout_net
      ∧ pin_step ignored_ctx tight_opts 0
          { coords := zero_bb, X_coord := [], Y_coord := [], layer_blk_cnt := [0] } 0
        = some { coords := zero_bb, X_coord := [], Y_coord := [], layer_blk_cnt := [0] } :=
  ⟨by decide,
   (high_fanout_and_ignored_nets_push_nothing ignored_ctx tight_opts 0 0
      (Or.inr (by decide))).1 _ 0 (by decide)⟩

/-! ## When the incremental update gives up, and what it writes -/

/-- C15: after clamping its four coordinate arguments, `get_bb_incrementally`
returns false exactly when one of four things holds: a move left off the
cached xmax with edge count 1, a move right off the cached xmin with edge
count 1, a move down off the cached ymax with edge count 1, a move up off the
cached ymin with edge count 1; in every other case it returns true. -/
theorem recompute_exactly_on_sole_edge_pin (ctx : Context) (net_id : ClusterNetId)
    (bb : t_bb) (xold yold xnew ynew : Int) :
    (get_bb_incrementally ctx net_id bb xold yold xnew ynew = none ↔
        ((clamp xnew ctx.grid_width < clamp xold ctx.grid_width
            ∧ clamp xold ctx.grid_width = (curr_bb_coord ctx net_id).xmax
            ∧ (curr_bb_edge ctx net_id).xmax = 1)
          ∨ (clamp xnew ctx.grid_width > clamp xold ctx.grid_width
            ∧ clamp xold ctx.grid_width = (curr_bb_coord ctx net_id).xmin
            ∧ (curr_bb_edge ctx net_id).xmin = 1)
          ∨ (clamp ynew ctx.grid_height < clamp yold ctx.grid_height
            ∧ clamp yold ctx.grid_height = (curr_bb_coord ctx net_id).ymax
            ∧ (curr_bb_edge ctx net_id).ymax = 1)
          ∨ (clamp ynew ctx.grid_height > clamp yold ctx.grid_height
            ∧ clamp yold ctx.grid_height = (curr_bb_coord ctx net_id).ymin
            ∧ (curr_bb_edge ctx net_id).ymin = 1)))
      ∧ (¬ recompute_required (curr_bb_edge ctx net_id) (curr_bb_coord ctx net_id)
            (clamp xold ctx.grid_width) (clamp yold ctx.grid_height)
            (clamp xnew ctx.grid_width) (clamp ynew ctx.grid_height) →
          ∃ r, get_bb_incrementally ctx net_id bb xold yold xnew ynew = some r) := by
  constructor
  · rw [get_bb_incrementally_eq]
    unfold recompute_required
    constructor
    · intro h
      split_ifs at h with hc
      exact hc
    · intro h
      rw [if_pos h]
  · intro h
    rw [get_bb_incrementally_eq, if_neg h]
    exact ⟨_, rfl⟩

/-- Witness for C15 on `two_pin_ctx`: the pin at (7,7) is alone on the cached
xmax edge; moving it left to (2,2) makes the call return false. -/
theorem recompute_exactly_on_sole_edge_pin_witness :
    get_bb_incrementally two_pin_ctx 0 zero_bb 7 7 2 2 = none
      ∧ ∃ r, get_bb_incrementally two_pin_ctx 0 zero_bb 6 6 9 1 = some r :=
  ⟨(recompute_exactly_on_sole_edge_pin two_pin_ctx 0 zero_bb 7 7 2 2).1.2
      (Or.inl (by decide)),
   (recompute_exactly_on_sole_edge_pin two_pin_ctx 0 zero_bb 6 6 9 1).2 (by decide)⟩

/-- C16: when `get_bb_incrementally` returns true and the clamped old
coordinate lies inside the cached box, the box written is the cached box
extended to the clamped new coordinate: `xmin = min(cached xmin, xnew)`,
`xmax = max(cached xmax, xnew)`, and the same for y; an axis on which the
clamped coordinate does not move keeps both cached edges. -/
theorem incremental_box_is_min_max (ctx : Context) (net_id : ClusterNetId) (bb r : t_bb)
    (xold yold xnew ynew : Int)
    (hr : get_bb_incrementally ctx net_id bb xold yold xnew ynew = some r)
    (hx : (curr_bb_coord ctx net_id).xmin ≤ clamp xold ctx.grid_width
          ∧ clamp xold ctx.grid_width ≤ (curr_bb_coord ctx net_id).xmax)
    (hy : (curr_bb_coord ctx net_id).ymin ≤ clamp yold ctx.grid_height
          ∧ clamp yold ctx.grid_height ≤ (curr_bb_coord ctx net_id).ymax) :
    (r.xmin = min (curr_bb_coord ctx net_id).xmin (clamp xnew ctx.grid_width)
        ∧ r.xmax = max (curr_bb_coord ctx net_id).xmax (clamp xnew ctx.grid_width)
        ∧ r.ymin = min (curr_bb_coord ctx net_id).ymin (clamp ynew ctx.grid_height)
        ∧ r.ymax = max (curr_bb_coord ctx net_id).ymax (clamp ynew ctx.grid_height))
      ∧ (clamp xnew ctx.grid_width = clamp xold ctx.grid_width →
          r.xmin = (curr_bb_coord ctx net_id).xmin ∧ r.xmax = (curr_bb_coord ctx net_id).xmax)
      ∧ (clamp ynew ctx.grid_height = clamp yold ctx.grid_height →
          r.ymin = (curr_bb_coord ctx net_id).ymin
            ∧ r.ymax = (curr_bb_coord ctx net_id).ymax) := by
  obtain ⟨_, hr⟩ := get_bb_incrementally_some ctx net_id bb r xold yold xnew ynew hr
  subst hr
  simp only [widened_box]
  refine ⟨⟨?_, ?_, ?_, ?_⟩, ?_, ?_⟩
  · split_ifs <;> omega
  · split_ifs <;> omega
  · split_ifs <;> omega
  · split_ifs <;> omega
  · intro h; constructor <;> split_ifs <;> omega
  · intro h; constructor <;> split_ifs <;> omega

/-- Witness for C16 on `two_pin_ctx`: the pin at (6,6), inside the cached box
(2,7,2,7), moves to (9,1); the box written is (2,8,1,7). -/
theorem incremental_box_is_min_max_witness :
    get_bb_incrementally two_pin_ctx 0 zero_bb 6 6 9 1
        = some { xmin := 2, xmax := 8, ymin := 1, ymax := 7, layer_min := 0, layer_max := 0 }
      ∧ (8 : Int) = max (curr_bb_coord two_pin_ctx 0).xmax (clamp 9 two_pin_ctx.grid_width)
      ∧ (1 : Int) = min (curr_bb_coord two_pin_ctx 0).ymin (clamp 1 two_pin_ctx.grid_height) :=
  ⟨by decide,
   (incremental_box_is_min_max two_pin_ctx 0 zero_bb
      { xmin := 2, xmax := 8, ymin := 1, ymax := 7, layer_min := 0, layer_max := 0 }
      6 6 9 1 (by decide) (by decide) (by decide)).1.2.1,
   (incremental_box_is_min_max two_pin_ctx 0 zero_bb
      { xmin := 2, xmax := 8, ymin := 1, ymax := 7, layer_min := 0, layer_max := 0 }
      6 6 9 1 (by decide) (by decide) (by decide)).1.2.2.1⟩

/-- C18: in the large-net branch, for a cached box in the grid interior
(`xmin ≤ xmax`, `ymin ≤ ymax`, all four bounds in `[1, W-2] × [1, H-2]`; the
box used to choose the new coordinate being that same cached box) and any old
pin coordinate, with the new coordinate chosen as `propose_move` chooses it: a
successful `get_bb_incrementally` writes exactly the cached box, and the
values pushed for a pin that reaches this branch are the cached `xmin`,
`xmax`, `ymin`, `ymax`. -/
theorem incremental_success_writes_cached_box (ctx : Context) (net_id : ClusterNetId)
    (hsame : same_cached_box ctx net_id)
    (hbox : box_in_grid ctx.grid_width ctx.grid_height (curr_bb_coord ctx net_id)) :
    (∀ (bb r : t_bb) (xold yold : Int),
        get_bb_incrementally ctx net_id bb
            (clamp xold ctx.grid_width) (clamp yold ctx.grid_height)
            (non_critical (net_bb_coords ctx net_id).xmin (net_bb_coords ctx net_id).xmax
              (clamp xold ctx.grid_width))
            (non_critical (net_bb_coords ctx net_id).ymin (net_bb_coords ctx net_id).ymax
              (clamp yold ctx.grid_height)) = some r →
        planar r = planar (curr_bb_coord ctx net_id))
      ∧ ∀ {F : Type} (placer_opts : t_placer_opts F) (b_from : ClusterBlockId)
          (s s1 : MoveVars) (pin_id : ClusterPinId) (r : t_bb),
          ctx.pin_net pin_id = net_id →
          ctx.net_is_ignored net_id = false →
          ¬ ((ctx.net_pins_size net_id : Int) > placer_opts.place_high_fanout_net) →
          ¬ ((ctx.net_sinks net_id).length < ctx.SMALL_NET) →
          get_bb_incrementally ctx net_id s.coords
            (clamp (pin_coord ctx pin_id).1 ctx.grid_width)
            (clamp (pin_coord ctx pin_id).2 ctx.grid_height)
            (non_critical (net_bb_coords ctx net_id).xmin (net_bb_coords ctx net_id).xmax
              (clamp (pin_coord ctx pin_id).1 ctx.grid_width))
            (non_critical (net_bb_coords ctx net_id).ymin (net_bb_coords ctx net_id).ymax
              (clamp (pin_coord ctx pin_id).2 ctx.grid_height)) = some r →
          pin_step ctx placer_opts b_from s pin_id = some s1 →
          s1.X_coord = (s.X_coord.concat (curr_bb_coord ctx net_id).xmin).concat
                          (curr_bb_coord ctx net_id).xmax
            ∧ s1.Y_coord = (s.Y_coord.concat (curr_bb_coord ctx net_id).ymin).concat
                          (curr_bb_coord ctx net_id).ymax := by
  have part1 : ∀ (bb r : t_bb) (xold yold : Int),
      get_bb_incrementally ctx net_id bb
          (clamp xold ctx.grid_width) (clamp yold ctx.grid_height)
          (non_critical (net_bb_coords ctx net_id).xmin (net_bb_coords ctx net_id).xmax
            (clamp xold ctx.grid_width))
          (non_critical (net_bb_coords ctx net_id).ymin (net_bb_coords ctx net_id).ymax
            (clamp yold ctx.grid_height)) = some r →
      planar r = planar (curr_bb_coord ctx net_id) := by
    intro bb r xold yold hr
    obtain ⟨_, hr⟩ := get_bb_incrementally_some _ _ _ _ _ _ _ _ hr
    unfold same_cached_box at hsame
    rw [hsame] at hr
    subst hr
    obtain ⟨h1, h2, h3, h4, h5, h6⟩ := hbox
    have ex : clamp (non_critical (curr_bb_coord ctx net_id).xmin
          (curr_bb_coord ctx net_id).xmax (clamp xold ctx.grid_width)) ctx.grid_width
        = non_critical (curr_bb_coord ctx net_id).xmin (curr_bb_coord ctx net_id).xmax
            (clamp xold ctx.grid_width) := by
      unfold non_critical clamp
      split_ifs <;> omega
    have ey : clamp (non_critical (curr_bb_coord ctx net_id).ymin
          (curr_bb_coord ctx net_id).ymax (clamp yold ctx.grid_height)) ctx.grid_height
        = non_critical (curr_bb_coord ctx net_id).ymin (curr_bb_coord ctx net_id).ymax
            (clamp yold ctx.grid_height) := by
      unfold non_critical clamp
      split_ifs <;> omega
    simp only [planar, widened_box, ex, ey, clamp_idem, Prod.mk.injEq]
    unfold non_critical
    refine ⟨?_, ?_, ?_, ?_⟩ <;> split_ifs <;> omega
  refine ⟨part1, ?_⟩
  intro F placer_opts b_from s s1 pin_id r hnet hign hhf hlarge hr hstep
  have hp := part1 s.coords r _ _ hr
  simp only [planar, Prod.mk.injEq] at hp
  obtain ⟨p1, p2, p3, p4⟩ := hp
  have hnb : net_box ctx b_from s.coords pin_id = NetOutcome.keep r
      ∨ net_box ctx b_from s.coords pin_id = NetOutcome.fault := by
    by_cases hpn : ctx.tile_pin_index pin_id ≥ 0
    · left
      simp only [net_box, hnet, hlarge, if_false, hpn, not_true_eq_false]
      simp only [pin_coord, clamp, non_critical] at hr
      simp only [hr]
    · right
      simp only [net_box, hnet, hlarge, if_false, hpn, not_false_eq_true, if_true]
  simp only [pin_step, hnet, hign, Bool.false_eq_true, if_false, hhf] at hstep
  rcases hnb with hk | hk
  · rw [hk] at hstep
    cases hstep
    simp only [p1, p2, p3, p4, and_self]
  · rw [hk] at hstep
    cases hstep

/-- Witness for C18 on `two_pin_ctx`: the cached box (2,7,2,7) lies in the
10 x 10 grid interior; for pin 0 at (2,2) the call succeeds and writes it. -/
theorem incremental_success_writes_cached_box_witness :
    get_bb_incrementally two_pin_ctx 0 zero_bb 2 2 7 7
        = some { xmin := 2, xmax := 7, ymin := 2, ymax := 7, layer_min := 0, layer_max := 0 }
      ∧ planar { xmin := 2, xmax := 7, ymin := 2, ymax := 7, layer_min := 0, layer_max := 0 }
          = planar (curr_bb_coord two_pin_ctx 0) :=
  ⟨by decide,
   (incremental_success_writes_cached_box two_pin_ctx 0 (by decide) (by decide)).1 zero_bb
      { xmin := 2, xmax := 7, ymin := 2, ymax := 7, layer_min := 0, layer_max := 0 }
      2 2 (by decide)⟩

/-! ## Shape of the scratch vectors and position of the target -/

/-- The loop result has vectors of one common even length. -/
theorem accumulate_lengths {F : Type} (ctx : Context) (placer_opts : t_placer_opts F)
    (b_from : ClusterBlockId) (X0 Y0 : List Int) (s : MoveVars)
    (h : accumulate ctx placer_opts b_from X0 Y0 = some s) :
    ∃ k, s.X_coord.length = 2 * k ∧ s.Y_coord.length = 2 * k := by
  obtain ⟨boxes, hX, hY⟩ := pin_loop_pushes ctx placer_opts b_from _ _ s h
  refine ⟨boxes.length, ?_, ?_⟩
  · rw [hX, fold_push_length]; simp
  · rw [hY, fold_push_length]; simp

/-- C19: at the end of the pin loop `X_coord` and `Y_coord` have the same
length and that length is even; so one is empty exactly when the other is,
and whenever the emptiness check does not abort, the two positions
`(n-1)/2` and `(n-1)/2 + 1` read on each axis are below `n` and both reads of
the median region succeed. -/
theorem scratch_vectors_even_and_equal {F : Type} (ctx : Context)
    (placer_opts : t_placer_opts F) (b_from : ClusterBlockId) (X0 Y0 : List Int)
    (s : MoveVars) (h : accumulate ctx placer_opts b_from X0 Y0 = some s) :
    s.X_coord.length = s.Y_coord.length
      ∧ Even s.X_coord.length
      ∧ (s.X_coord = [] ↔ s.Y_coord = [])
      ∧ (¬ (s.X_coord.isEmpty ∨ s.Y_coord.isEmpty) →
          ((s.X_coord.length - 1) / 2 < s.X_coord.length
            ∧ (s.X_coord.length - 1) / 2 + 1 < s.X_coord.length
            ∧ (s.Y_coord.length - 1) / 2 < s.Y_coord.length
            ∧ (s.Y_coord.length - 1) / 2 + 1 < s.Y_coord.length)
          ∧ (median_limits s.X_coord).isSome ∧ (median_limits s.Y_coord).isSome) := by
  obtain ⟨k, hX, hY⟩ := accumulate_lengths ctx placer_opts b_from X0 Y0 s h
  refine ⟨by omega, ⟨k, by omega⟩, ?_, ?_⟩
  · rw [← List.length_eq_zero, ← List.length_eq_zero]
    omega
  · intro hne
    have hk : 0 < k := by
      rcases Nat.eq_zero_or_pos k with h0 | h0
      · exfalso
        apply hne
        left
        have : s.X_coord.length = 0 := by omega
        rw [List.length_eq_zero.1 this]
        rfl
      · exact h0
    obtain ⟨_, _, _, _, hlx, _⟩ := median_limits_spec s.X_coord (by omega)
    obtain ⟨_, _, _, _, hly, _⟩ := median_limits_spec s.Y_coord (by omega)
    refine ⟨⟨by omega, by omega, by omega, by omega⟩, ?_, ?_⟩
    · rw [hlx]; rfl
    · rw [hly]; rfl

/-- Witness for C19 on `two_net_ctx`: the loop ends with `[2,2,6,6]` and
`[3,3,1,1]`. -/
theorem scratch_vectors_even_and_equal_witness :
    accumulate two_net_ctx sample_opts 0 [] []
        = some { coords := { xmin := 6, xmax := 6, ymin := 1, ymax := 1,
                             layer_min := -1, layer_max := -1 },
                 X_coord := [2, 2, 6, 6], Y_coord := [3, 3, 1, 1], layer_blk_cnt := [0] }
      ∧ ([2, 2, 6, 6] : List Int).length = ([3, 3, 1, 1] : List Int).length
      ∧ Even ([2, 2, 6, 6] : List Int).length :=
  ⟨by decide,
   (scratch_vectors_even_and_equal two_net_ctx sample_opts 0 [] []
      { coords := { xmin := 6, xmax := 6, ymin := 1, ymax := 1,
                    layer_min := -1, layer_max := -1 },
        X_coord := [2, 2, 6, 6], Y_coord := [3, 3, 1, 1], layer_blk_cnt := [0] }
      (by decide)).1,
   (scratch_vectors_even_and_equal two_net_ctx sample_opts 0 [] []
      { coords := { xmin := 6, xmax := 6, ymin := 1, ymax := 1,
                    layer_min := -1, layer_max := -1 },
        X_coord := [2, 2, 6, 6], Y_coord := [3, 3, 1, 1], layer_blk_cnt := [0] }
      (by decide)).2.1⟩

/-- What `median_target` hands over when it reaches the site search. -/
theorem median_target_some (ctx : Context) (from_loc : t_pl_loc) (s : MoveVars)
    (limits : t_bb) (point : t_pl_loc)
    (h : median_target ctx from_loc s = some (some (limits, point))) :
    ∃ lx ly, median_limits s.X_coord = some lx ∧ median_limits s.Y_coord = some ly
      ∧ limits.xmin = lx.1 ∧ limits.xmax = lx.2 ∧ limits.ymin = ly.1 ∧ limits.ymax = ly.2
      ∧ point.x = median_center lx ∧ point.y = median_center ly
      ∧ point.layer = (if ctx.num_layers > 1 then (max_element_index s.layer_blk_cnt : Int)
                        else from_loc.layer) := by
  simp only [median_target] at h
  by_cases he : s.X_coord.isEmpty = true ∨ s.Y_coord.isEmpty = true
  · rw [if_pos he] at h
    simp at h
  · rw [if_neg he] at h
    cases hx : median_limits s.X_coord with
    | none => simp [hx] at h
    | some lx =>
      cases hy : median_limits s.Y_coord with
      | none => simp [hx, hy] at h
      | some ly =>
        simp only [hx, hy, Option.some.injEq, Prod.mk.injEq] at h
        obtain ⟨h1, h2⟩ := h
        subst h1
        subst h2
        exact ⟨lx, ly, rfl, rfl, rfl, rfl, rfl, rfl, rfl, rfl, rfl⟩

/-- Scanning on from a running best position keeps the first largest entry:
`pre` is the part already scanned, `best` the position of its first maximum. -/
theorem max_element_from_spec (rest : List Int) :
    ∀ (pre : List Int) (best : Nat) (bestv : Int),
      pre[best]? = some bestv →
      (∀ (j : Nat) (v : Int), pre[j]? = some v → v ≤ bestv) →
      (∀ (j : Nat) (v : Int), j < best → pre[j]? = some v → v < bestv) →
      ∃ m, (pre ++ rest)[max_element_from rest pre.length best bestv]? = some m
        ∧ (∀ (j : Nat) (v : Int), (pre ++ rest)[j]? = some v → v ≤ m)
        ∧ (∀ (j : Nat) (v : Int), j < max_element_from rest pre.length best bestv →
            (pre ++ rest)[j]? = some v → v < m) := by
  induction rest with
  | nil =>
    intro pre best bestv hb hle hlt
    simp only [max_element_from, List.append_nil]
    exact ⟨bestv, hb, hle, hlt⟩
  | cons x rest ih =>
    intro pre best bestv hb hle hlt
    have hbl : best < pre.length := (List.getElem?_eq_some_iff.1 hb).1
    have hsplit : pre ++ x :: rest = (pre ++ [x]) ++ rest := by simp
    have hlen : (pre ++ [x]).length = pre.length + 1 := by simp
    have hget : ∀ (j : Nat) (v : Int), (pre ++ [x])[j]? = some v → pre[j]? = some v ∨ (j = pre.length ∧ v = x) := by
      intro j v hj
      rcases Nat.lt_or_ge j pre.length with h | h
      · rw [List.getElem?_append_left h] at hj
        exact Or.inl hj
      · rw [List.getElem?_append_right h] at hj
        have hj2 := (List.getElem?_eq_some_iff.1 hj).1
        simp only [List.length_singleton] at hj2
        have hj0 : j - pre.length = 0 := by omega
        rw [hj0] at hj
        simp only [List.getElem?_cons_zero, Option.some.injEq] at hj
        exact Or.inr ⟨by omega, hj.symm⟩
    simp only [max_element_from]
    rw [hsplit, ← hlen]
    by_cases hx : bestv < x
    · rw [if_pos hx]
      have hb2 : (pre ++ [x])[pre.length]? = some x := List.getElem?_concat_length pre x
      apply ih (pre ++ [x]) pre.length x hb2
      · intro j v hj
        rcases hget j v hj with h | ⟨_, h⟩
        · have := hle j v h; omega
        · omega
      · intro j v hjl hj
        rcases hget j v hj with h | ⟨h, _⟩
        · have := hle j v h; omega
        · omega
    · rw [if_neg hx]
      have hb2 : (pre ++ [x])[best]? = some bestv := by
        rw [List.getElem?_append_left hbl]; exact hb
      apply ih (pre ++ [x]) best bestv hb2
      · intro j v hj
        rcases hget j v hj with h | ⟨_, h⟩
        · exact hle j v h
        · omega
      · intro j v hjl hj
        rcases hget j v hj with h | ⟨h, _⟩
        · exact hlt j v hjl h
        · omega

/-- On a non-empty vector `max_element_index` is the position of the first
largest entry. -/
theorem max_element_index_spec (cnt : List Int) (hne : cnt ≠ []) :
    ∃ m, cnt[max_element_index cnt]? = some m
      ∧ (∀ (j : Nat) (v : Int), cnt[j]? = some v → v ≤ m)
      ∧ (∀ (j : Nat) (v : Int), j < max_element_index cnt → cnt[j]? = some v → v < m) := by
  cases cnt with
  | nil => exact absurd rfl hne
  | cons x rest =>
    have h := max_element_from_spec rest [x] 0 x (by simp)
      (by
        intro j v hj
        cases j with
        | zero => simp at hj; omega
        | succ n => simp at hj)
      (by intro j v hj; omega)
    simpa [max_element_index] using h

theorem tally_layers_length (ctx : Context) (from_layer : Int) (pin_id : ClusterPinId)
    (cnt : List Int) : (tally_layers ctx from_layer pin_id cnt).length = cnt.length := by
  unfold tally_layers
  split_ifs <;> simp [List.enum_length]

theorem pin_step_tally_length {F : Type} (ctx : Context) (placer_opts : t_placer_opts F)
    (b_from : ClusterBlockId) (s s1 : MoveVars) (pin_id : ClusterPinId)
    (h : pin_step ctx placer_opts b_from s pin_id = some s1) :
    s1.layer_blk_cnt.length = s.layer_blk_cnt.length := by
  simp only [pin_step] at h
  by_cases h1 : ctx.net_is_ignored (ctx.pin_net pin_id) = true
  · rw [if_pos h1] at h; cases h; rfl
  · rw [if_neg h1] at h
    by_cases h2 : (ctx.net_pins_size (ctx.pin_net pin_id) : Int) > placer_opts.place_high_fanout_net
    · rw [if_pos h2] at h; cases h; rfl
    · rw [if_neg h2] at h
      cases hb : net_box ctx b_from s.coords pin_id with
      | fault => rw [hb] at h; cases h
      | skip coords => rw [hb] at h; cases h; rfl
      | keep coords =>
        rw [hb] at h
        cases h
        simp only []
        split_ifs
        · exact tally_layers_length _ _ _ _
        · rfl

theorem pin_loop_tally_length {F : Type} (ctx : Context) (placer_opts : t_placer_opts F)
    (b_from : ClusterBlockId) (pins : List ClusterPinId) :
    ∀ s s1 : MoveVars, pin_loop ctx placer_opts b_from s pins = some s1 →
      s1.layer_blk_cnt.length = s.layer_blk_cnt.length := by
  induction pins with
  | nil =>
    intro s s1 h
    simp only [pin_loop, Option.some.injEq] at h
    rw [h]
  | cons pin rest ih =>
    intro s s1 h
    simp only [pin_loop] at h
    cases hstep : pin_step ctx placer_opts b_from s pin with
    | none => rw [hstep] at h; cases h
    | some s2 =>
      rw [hstep] at h
      rw [ih s2 s1 h, pin_step_tally_length ctx placer_opts b_from s s2 pin hstep]

/-- The tally has one entry per layer when the loop ends. -/
theorem accumulate_tally_length {F : Type} (ctx : Context) (placer_opts : t_placer_opts F)
    (b_from : ClusterBlockId) (X0 Y0 : List Int) (s : MoveVars)
    (h : accumulate ctx placer_opts b_from X0 Y0 = some s) :
    s.layer_blk_cnt.length = ctx.num_layers := by
  have := pin_loop_tally_length ctx placer_opts b_from _ _ s h
  simpa using this

/-- C12: on a device with more than one layer the layer handed to the site
search is the smallest index whose tally in `layer_blk_cnt` equals the largest
tally (every tally is at most it, every earlier tally is strictly below it,
so two equal tallies give the lower index); on a single-layer device it is the
layer of the block's origin location. -/
theorem target_layer_is_first_maximum {F : Type} (ctx : Context)
    (placer_opts : t_placer_opts F) (b_from : ClusterBlockId) (X0 Y0 : List Int)
    (s : MoveVars) (limits : t_bb) (point : t_pl_loc)
    (hacc : accumulate ctx placer_opts b_from X0 Y0 = some s)
    (ht : median_target ctx (ctx.block_locs b_from) s = some (some (limits, point))) :
    (ctx.num_layers > 1 →
        ∃ (i : Nat) (m : Int), point.layer = (i : Int) ∧ i < ctx.num_layers
          ∧ s.layer_blk_cnt[i]? = some m
          ∧ (∀ (j : Nat) (v : Int), s.layer_blk_cnt[j]? = some v → v ≤ m)
          ∧ (∀ (j : Nat) (v : Int), j < i → s.layer_blk_cnt[j]? = some v → v < m))
      ∧ (¬ ctx.num_layers > 1 → point.layer = (ctx.block_locs b_from).layer)
      ∧ max_element_index [3, 3] = 0 ∧ max_element_index [1, 3, 3] = 1 := by
  obtain ⟨_, _, _, _, _, _, _, _, _, _, hl⟩ :=
    median_target_some ctx (ctx.block_locs b_from) s limits point ht
  have hlen := accumulate_tally_length ctx placer_opts b_from X0 Y0 s hacc
  refine ⟨?_, ?_, by decide, by decide⟩
  · intro hm
    rw [if_pos hm] at hl
    have hne : s.layer_blk_cnt ≠ [] := by
      intro h0
      rw [h0] at hlen
      simp at hlen
      omega
    obtain ⟨m, h1, h2, h3⟩ := max_element_index_spec s.layer_blk_cnt hne
    have hi := (List.getElem?_eq_some_iff.1 h1).1
    exact ⟨max_element_index s.layer_blk_cnt, m, hl, by omega, h1, h2, h3⟩
  · intro hm
    rw [if_neg hm] at hl
    exact hl

/-- Witness for C12 on `two_layer_ctx`: both layers end with tally 2 and layer
0 is chosen. -/
theorem target_layer_is_first_maximum_witness :
    accumulate two_layer_ctx sample_opts 0 [] []
        = some { coords := { xmin := 6, xmax := 6, ymin := 1, ymax := 1,
                             layer_min := -1, layer_max := -1 },
                 X_coord := [2, 2, 6, 6], Y_coord := [3, 3, 1, 1], layer_blk_cnt := [2, 2] }
      ∧ (two_layer_ctx.num_layers > 1 →
          ∃ (i : Nat) (m : Int), (0 : Int) = (i : Int) ∧ i < two_layer_ctx.num_layers
            ∧ ([2, 2] : List Int)[i]? = some m
            ∧ (∀ (j : Nat) (v : Int), ([2, 2] : List Int)[j]? = some v → v ≤ m)
            ∧ (∀ (j : Nat) (v : Int), j < i → ([2, 2] : List Int)[j]? = some v → v < m)) :=
  ⟨by decide,
   (target_layer_is_first_maximum two_layer_ctx sample_opts 0 [] []
      { coords := { xmin := 6, xmax := 6, ymin := 1, ymax := 1,
                    layer_min := -1, layer_max := -1 },
        X_coord := [2, 2, 6, 6], Y_coord := [3, 3, 1, 1], layer_blk_cnt := [2, 2] }
      { xmin := 2, xmax := 6, ymin := 1, ymax := 3, layer_min := -1, layer_max := -1 }
      { x := 4, y := 2, sub_tile := -1, layer := 0 } (by decide) (by decide)).1⟩

/-! ## One visit per pin -/

/-- The value held by `coords` on entry changes neither how the box
computation of a pin ends nor the four planar values it produces. -/
theorem net_box_kind (ctx : Context) (b_from : ClusterBlockId) (c1 c2 : t_bb)
    (pin_id : ClusterPinId) :
    (net_box ctx b_from c1 pin_id = NetOutcome.fault →
        net_box ctx b_from c2 pin_id = NetOutcome.fault)
      ∧ (∀ r, net_box ctx b_from c1 pin_id = NetOutcome.skip r →
          ∃ r2, net_box ctx b_from c2 pin_id = NetOutcome.skip r2)
      ∧ (∀ r, net_box ctx b_from c1 pin_id = NetOutcome.keep r →
          ∃ r2, net_box ctx b_from c2 pin_id = NetOutcome.keep r2 ∧ planar r2 = planar r) := by
  have scratch : ∀ o1 o2 : NetOutcome,
      o1 = (if (get_bb_from_scratch_excluding_block ctx (ctx.pin_net pin_id) c1 b_from).2
            then NetOutcome.skip
              (get_bb_from_scratch_excluding_block ctx (ctx.pin_net pin_id) c1 b_from).1
            else NetOutcome.keep
              (get_bb_from_scratch_excluding_block ctx (ctx.pin_net pin_id) c1 b_from).1) →
      o2 = (if (get_bb_from_scratch_excluding_block ctx (ctx.pin_net pin_id) c2 b_from).2
            then NetOutcome.skip
              (get_bb_from_scratch_excluding_block ctx (ctx.pin_net pin_id) c2 b_from).1
            else NetOutcome.keep
              (get_bb_from_scratch_excluding_block ctx (ctx.pin_net pin_id) c2 b_from).1) →
      (o1 = NetOutcome.fault → o2 = NetOutcome.fault)
        ∧ (∀ r, o1 = NetOutcome.skip r → ∃ r2, o2 = NetOutcome.skip r2)
        ∧ (∀ r, o1 = NetOutcome.keep r → ∃ r2, o2 = NetOutcome.keep r2 ∧ planar r2 = planar r) := by
    intro o1 o2 h1 h2
    have e : (get_bb_from_scratch_excluding_block ctx (ctx.pin_net pin_id) c2 b_from).2
        = (get_bb_from_scratch_excluding_block ctx (ctx.pin_net pin_id) c1 b_from).2 := rfl
    have ep : planar (get_bb_from_scratch_excluding_block ctx (ctx.pin_net pin_id) c2 b_from).1
        = planar (get_bb_from_scratch_excluding_block ctx (ctx.pin_net pin_id) c1 b_from).1 := rfl
    rw [e] at h2
    cases hb : (get_bb_from_scratch_excluding_block ctx (ctx.pin_net pin_id) c1 b_from).2 with
    | true =>
      rw [hb] at h1 h2
      simp only [if_true] at h1 h2
      subst h1
      subst h2
      refine ⟨?_, ?_, ?_⟩
      · intro h; cases h
      · intro r _; exact ⟨_, rfl⟩
      · intro r h; cases h
    | false =>
      rw [hb] at h1 h2
      simp only [Bool.false_eq_true, if_false] at h1 h2
      subst h1
      subst h2
      refine ⟨?_, ?_, ?_⟩
      · intro h; cases h
      · intro r h; cases h
      · intro r h
        cases h
        exact ⟨_, rfl, ep⟩
  by_cases hsmall : (ctx.net_sinks (ctx.pin_net pin_id)).length < ctx.SMALL_NET
  · exact scratch _ _ (by simp only [net_box, hsmall, if_true])
      (by simp only [net_box, hsmall, if_true])
  · by_cases hp : ctx.tile_pin_index pin_id ≥ 0
    · have shape : ∀ c : t_bb, net_box ctx b_from c pin_id =
          match get_bb_incrementally ctx (ctx.pin_net pin_id) c
              (clamp (pin_coord ctx pin_id).1 ctx.grid_width)
              (clamp (pin_coord ctx pin_id).2 ctx.grid_height)
              (non_critical (net_bb_coords ctx (ctx.pin_net pin_id)).xmin
                (net_bb_coords ctx (ctx.pin_net pin_id)).xmax
                (clamp (pin_coord ctx pin_id).1 ctx.grid_width))
              (non_critical (net_bb_coords ctx (ctx.pin_net pin_id)).ymin
                (net_bb_coords ctx (ctx.pin_net pin_id)).ymax
                (clamp (pin_coord ctx pin_id).2 ctx.grid_height)) with
          | none =>
            if (get_bb_from_scratch_excluding_block ctx (ctx.pin_net pin_id) c b_from).2
            then NetOutcome.skip
              (get_bb_from_scratch_excluding_block ctx (ctx.pin_net pin_id) c b_from).1
            else NetOutcome.keep
              (get_bb_from_scratch_excluding_block ctx (ctx.pin_net pin_id) c b_from).1
          | some bb => NetOutcome.keep bb := by
        intro c
        simp only [net_box, hsmall, if_false, hp, not_true_eq_false, pin_coord, clamp,
          non_critical]
      rw [shape c1, shape c2]
      simp only [get_bb_incrementally_eq]
      by_cases hreq : recompute_required (curr_bb_edge ctx (ctx.pin_net pin_id))
          (curr_bb_coord ctx (ctx.pin_net pin_id))
          (clamp (clamp (pin_coord ctx pin_id).1 ctx.grid_width) ctx.grid_width)
          (clamp (clamp (pin_coord ctx pin_id).2 ctx.grid_height) ctx.grid_height)
          (clamp (non_critical (net_bb_coords ctx (ctx.pin_net pin_id)).xmin
            (net_bb_coords ctx (ctx.pin_net pin_id)).xmax
            (clamp (pin_coord ctx pin_id).1 ctx.grid_width)) ctx.grid_width)
          (clamp (non_critical (net_bb_coords ctx (ctx.pin_net pin_id)).ymin
            (net_bb_coords ctx (ctx.pin_net pin_id)).ymax
            (clamp (pin_coord ctx pin_id).2 ctx.grid_height)) ctx.grid_height)
      · simp only [if_pos hreq]
        exact scratch _ _ rfl rfl
      · simp only [if_neg hreq]
        refine ⟨?_, ?_, ?_⟩
        · intro h; cases h
        · intro r h; cases h
        · intro r h
          cases h
          exact ⟨_, rfl, rfl⟩
    · have shape : ∀ c : t_bb, net_box ctx b_from c pin_id = NetOutcome.fault := by
        intro c
        simp only [net_box, hsmall, if_false, hp, not_false_eq_true, if_true]
      rw [shape c1, shape c2]
      refine ⟨?_, ?_, ?_⟩
      · intro _; rfl
      · intro r h; cases h
      · intro r h; cases h

/-- One iteration of the pin loop, told apart by `pin_considered`: a considered
pin appends the extents of the box its net computation ends with, any other
pin leaves the scratch vectors and the tally as they are. -/
theorem pin_step_considered {F : Type} (ctx : Context) (placer_opts : t_placer_opts F)
    (b_from : ClusterBlockId) (s s1 : MoveVars) (pin_id : ClusterPinId)
    (h : pin_step ctx placer_opts b_from s pin_id = some s1) :
    (pin_considered ctx placer_opts b_from pin_id = true →
        ∃ box, net_box ctx b_from s.coords pin_id = NetOutcome.keep box
          ∧ s1.X_coord = (s.X_coord.concat box.xmin).concat box.xmax
          ∧ s1.Y_coord = (s.Y_coord.concat box.ymin).concat box.ymax)
      ∧ (pin_considered ctx placer_opts b_from pin_id = false →
          s1.X_coord = s.X_coord ∧ s1.Y_coord = s.Y_coord
            ∧ s1.layer_blk_cnt = s.layer_blk_cnt) := by
  simp only [pin_step] at h
  by_cases h1 : ctx.net_is_ignored (ctx.pin_net pin_id) = true
  · rw [if_pos h1] at h
    cases h
    have hc : pin_considered ctx placer_opts b_from pin_id = false := by
      simp [pin_considered, h1]
    exact ⟨fun ht => absurd ht (by rw [hc]; decide), fun _ => ⟨rfl, rfl, rfl⟩⟩
  · rw [if_neg h1] at h
    by_cases h2 : (ctx.net_pins_size (ctx.pin_net pin_id) : Int) > placer_opts.place_high_fanout_net
    · rw [if_pos h2] at h
      cases h
      have hc : pin_considered ctx placer_opts b_from pin_id = false := by
        simp [pin_considered, h2]
      exact ⟨fun ht => absurd ht (by rw [hc]; decide), fun _ => ⟨rfl, rfl, rfl⟩⟩
    · rw [if_neg h2] at h
      have hpre : pin_considered ctx placer_opts b_from pin_id
          = (match net_box ctx b_from zero_bb pin_id with
              | NetOutcome.keep _ => true
              | _ => false) := by
        simp [pin_considered, h1, h2]
      obtain ⟨_, kskip, kkeep⟩ := net_box_kind ctx b_from s.coords zero_bb pin_id
      cases hb : net_box ctx b_from s.coords pin_id with
      | fault => rw [hb] at h; cases h
      | skip coords =>
        rw [hb] at h
        cases h
        obtain ⟨r2, hr2⟩ := kskip coords hb
        have hc : pin_considered ctx placer_opts b_from pin_id = false := by
          rw [hpre, hr2]
        exact ⟨fun ht => absurd ht (by rw [hc]; decide), fun _ => ⟨rfl, rfl, rfl⟩⟩
      | keep coords =>
        rw [hb] at h
        cases h
        obtain ⟨r2, hr2, _⟩ := kkeep coords hb
        have hc : pin_considered ctx placer_opts b_from pin_id = true := by
          rw [hpre, hr2]
        exact ⟨fun _ => ⟨coords, rfl, rfl, rfl⟩, fun hf => absurd hf (by rw [hc]; decide)⟩

/-- The scratch vectors grow by two entries per considered pin. -/
theorem pin_loop_lengths {F : Type} (ctx : Context) (placer_opts : t_placer_opts F)
    (b_from : ClusterBlockId) (pins : List ClusterPinId) :
    ∀ s s1 : MoveVars, pin_loop ctx placer_opts b_from s pins = some s1 →
      s1.X_coord.length
          = s.X_coord.length + 2 * (pins.filter (pin_considered ctx placer_opts b_from)).length
        ∧ s1.Y_coord.length
          = s.Y_coord.length + 2 * (pins.filter (pin_considered ctx placer_opts b_from)).length := by
  induction pins with
  | nil =>
    intro s s1 h
    simp only [pin_loop, Option.some.injEq] at h
    subst h
    simp
  | cons pin rest ih =>
    intro s s1 h
    simp only [pin_loop] at h
    cases hstep : pin_step ctx placer_opts b_from s pin with
    | none => rw [hstep] at h; cases h
    | some s2 =>
      rw [hstep] at h
      obtain ⟨iX, iY⟩ := ih s2 s1 h
      obtain ⟨hyes, hno⟩ := pin_step_considered ctx placer_opts b_from s s2 pin hstep
      cases hc : pin_considered ctx placer_opts b_from pin with
      | true =>
        obtain ⟨box, _, eX, eY⟩ := hyes hc
        have lX : s2.X_coord.length = s.X_coord.length + 2 := by rw [eX]; simp
        have lY : s2.Y_coord.length = s.Y_coord.length + 2 := by rw [eY]; simp
        simp only [List.filter_cons, hc, if_true, List.length_cons]
        omega
      | false =>
        obtain ⟨eX, eY, _⟩ := hno hc
        have lX : s2.X_coord.length = s.X_coord.length := by rw [eX]
        have lY : s2.Y_coord.length = s.Y_coord.length := by rw [eY]
        simp only [List.filter_cons, hc, Bool.false_eq_true, if_false]
        omega

/-- C17, as stated, fails: in `wide_block_ctx` the moving block 1 has two pins
(0 and 1) on net 0, both considered, so there is one distinct considered net;
the loop visits the net once per pin and `X_coord` ends with four entries,
not two. -/
theorem one_net_pushed_once_per_pin :
    (wide_block_ctx.block_pins 1).map wide_block_ctx.pin_net = [0, 0]
      ∧ (wide_block_ctx.block_pins 1).filter (pin_considered wide_block_ctx sample_opts 1)
          = [0, 1]
      ∧ ((((wide_block_ctx.block_pins 1).filter
            (pin_considered wide_block_ctx sample_opts 1)).map
              wide_block_ctx.pin_net).dedup).length = 1
      ∧ (accumulate wide_block_ctx sample_opts 1 [] []).map (fun s => (s.X_coord, s.Y_coord))
          = some ([1, 1, 1, 1], [1, 1, 1, 1])
      ∧ ¬ (([1, 1, 1, 1] : List Int).length = 2 * 1) := by
  decide

/-- A considered pin leaves in `coords` the box its net computation ends with. -/
theorem pin_step_considered_coords {F : Type} (ctx : Context) (placer_opts : t_placer_opts F)
    (b_from : ClusterBlockId) (s s1 : MoveVars) (pin_id : ClusterPinId)
    (h : pin_step ctx placer_opts b_from s pin_id = some s1)
    (hc : pin_considered ctx placer_opts b_from pin_id = true) :
    net_box ctx b_from s.coords pin_id = NetOutcome.keep s1.coords := by
  obtain ⟨hyes, _⟩ := pin_step_considered ctx placer_opts b_from s s1 pin_id h
  obtain ⟨box, hb, _, _⟩ := hyes hc
  have h1 : ¬ ctx.net_is_ignored (ctx.pin_net pin_id) = true := by
    intro h1
    have : pin_considered ctx placer_opts b_from pin_id = false := by
      simp [pin_considered, h1]
    rw [this] at hc
    cases hc
  have h2 : ¬ (ctx.net_pins_size (ctx.pin_net pin_id) : Int) > placer_opts.place_high_fanout_net := by
    intro h2
    have : pin_considered ctx placer_opts b_from pin_id = false := by
      simp [pin_considered, h2]
    rw [this] at hc
    cases hc
  simp only [pin_step, if_neg h1, if_neg h2, hb] at h
  cases h
  exact hb

/-- Where the box kept by the net computation of a pin comes from: the
exclusion scan for a net below `SMALL_NET` sinks and after a failed
incremental update, the incremental update itself when that succeeds. -/
theorem net_box_keep_source (ctx : Context) (b_from : ClusterBlockId) (c box : t_bb)
    (pin_id : ClusterPinId) (h : net_box ctx b_from c pin_id = NetOutcome.keep box) :
    ((ctx.net_sinks (ctx.pin_net pin_id)).length < ctx.SMALL_NET →
        box = (get_bb_from_scratch_excluding_block ctx (ctx.pin_net pin_id) c b_from).1)
      ∧ (¬ (ctx.net_sinks (ctx.pin_net pin_id)).length < ctx.SMALL_NET →
          get_bb_incrementally ctx (ctx.pin_net pin_id) c
            (clamp (pin_coord ctx pin_id).1 ctx.grid_width)
            (clamp (pin_coord ctx pin_id).2 ctx.grid_height)
            (non_critical (net_bb_coords ctx (ctx.pin_net pin_id)).xmin
              (net_bb_coords ctx (ctx.pin_net pin_id)).xmax
              (clamp (pin_coord ctx pin_id).1 ctx.grid_width))
            (non_critical (net_bb_coords ctx (ctx.pin_net pin_id)).ymin
              (net_bb_coords ctx (ctx.pin_net pin_id)).ymax
              (clamp (pin_coord ctx pin_id).2 ctx.grid_height)) = none →
          box = (get_bb_from_scratch_excluding_block ctx (ctx.pin_net pin_id) c b_from).1)
      ∧ (¬ (ctx.net_sinks (ctx.pin_net pin_id)).length < ctx.SMALL_NET →
          ∀ r, get_bb_incrementally ctx (ctx.pin_net pin_id) c
            (clamp (pin_coord ctx pin_id).1 ctx.grid_width)
            (clamp (pin_coord ctx pin_id).2 ctx.grid_height)
            (non_critical (net_bb_coords ctx (ctx.pin_net pin_id)).xmin
              (net_bb_coords ctx (ctx.pin_net pin_id)).xmax
              (clamp (pin_coord ctx pin_id).1 ctx.grid_width))
            (non_critical (net_bb_coords ctx (ctx.pin_net pin_id)).ymin
              (net_bb_coords ctx (ctx.pin_net pin_id)).ymax
              (clamp (pin_coord ctx pin_id).2 ctx.grid_height)) = some r →
          box = r) := by
  have scratch_case :
      (if (get_bb_from_scratch_excluding_block ctx (ctx.pin_net pin_id) c b_from).2
        then NetOutcome.skip
          (get_bb_from_scratch_excluding_block ctx (ctx.pin_net pin_id) c b_from).1
        else NetOutcome.keep
          (get_bb_from_scratch_excluding_block ctx (ctx.pin_net pin_id) c b_from).1)
        = NetOutcome.keep box →
      box = (get_bb_from_scratch_excluding_block ctx (ctx.pin_net pin_id) c b_from).1 := by
    intro hk
    cases hb : (get_bb_from_scratch_excluding_block ctx (ctx.pin_net pin_id) c b_from).2 with
    | true => rw [hb] at hk; simp at hk
    | false =>
      rw [hb] at hk
      simp only [Bool.false_eq_true, if_false, NetOutcome.keep.injEq] at hk
      exact hk.symm
  by_cases hsmall : (ctx.net_sinks (ctx.pin_net pin_id)).length < ctx.SMALL_NET
  · refine ⟨?_, ?_, ?_⟩
    · intro _
      apply scratch_case
      simpa only [net_box, hsmall, if_true] using h
    · intro hn; exact absurd hsmall hn
    · intro hn; exact absurd hsmall hn
  · by_cases hp : ctx.tile_pin_index pin_id ≥ 0
    · have shape : net_box ctx b_from c pin_id =
          match get_bb_incrementally ctx (ctx.pin_net pin_id) c
              (clamp (pin_coord ctx pin_id).1 ctx.grid_width)
              (clamp (pin_coord ctx pin_id).2 ctx.grid_height)
              (non_critical (net_bb_coords ctx (ctx.pin_net pin_id)).xmin
                (net_bb_coords ctx (ctx.pin_net pin_id)).xmax
                (clamp (pin_coord ctx pin_id).1 ctx.grid_width))
              (non_critical (net_bb_coords ctx (ctx.pin_net pin_id)).ymin
                (net_bb_coords ctx (ctx.pin_net pin_id)).ymax
                (clamp (pin_coord ctx pin_id).2 ctx.grid_height)) with
          | none =>
            if (get_bb_from_scratch_excluding_block ctx (ctx.pin_net pin_id) c b_from).2
            then NetOutcome.skip
              (get_bb_from_scratch_excluding_block ctx (ctx.pin_net pin_id) c b_from).1
            else NetOutcome.keep
              (get_bb_from_scratch_excluding_block ctx (ctx.pin_net pin_id) c b_from).1
          | some bb => NetOutcome.keep bb := by
        simp only [net_box, hsmall, if_false, hp, not_true_eq_false, pin_coord, clamp,
          non_critical]
      rw [shape] at h
      refine ⟨?_, ?_, ?_⟩
      · intro hs; exact absurd hs hsmall
      · intro _ hnone
        rw [hnone] at h
        exact scratch_case h
      · intro _ r hsome
        rw [hsome] at h
        simp only [NetOutcome.keep.injEq] at h
        exact h.symm
    · exfalso
      simp only [net_box, hsmall, if_false, hp, not_false_eq_true, if_true] at h
      cases h

/-- C17, amended: every visit of a pin of the selected block whose net is
considered appends exactly one `xmin`, `xmax` pair to `X_coord` and one `ymin`,
`ymax` pair to `Y_coord`, those of the box left in `coords`; that box is the
net's box with the selected block's pins excluded for a net with fewer than
`SMALL_NET` sinks, for a larger net whose incremental update asks for a
recompute, and for a larger net with a valid cache on which the visited pin
is the block's only pin when the incremental update succeeds; a pin whose net
is not considered appends nothing; so the final `X_coord` and `Y_coord` have
length 2 times the number of pins of the selected block whose net is
considered. -/
theorem one_pair_per_considered_pin {F : Type} (ctx : Context)
    (placer_opts : t_placer_opts F) (b_from : ClusterBlockId) (X0 Y0 : List Int)
    (s : MoveVars) (h : accumulate ctx placer_opts b_from X0 Y0 = some s) :
    (s.X_coord.length
        = 2 * ((ctx.block_pins b_from).filter (pin_considered ctx placer_opts b_from)).length
      ∧ s.Y_coord.length
        = 2 * ((ctx.block_pins b_from).filter (pin_considered ctx placer_opts b_from)).length)
      ∧ ∀ (s0 s1 : MoveVars) (pin_id : ClusterPinId),
          pin_step ctx placer_opts b_from s0 pin_id = some s1 →
          (pin_considered ctx placer_opts b_from pin_id = true →
              (s1.X_coord = (s0.X_coord.concat s1.coords.xmin).concat s1.coords.xmax
                ∧ s1.Y_coord = (s0.Y_coord.concat s1.coords.ymin).concat s1.coords.ymax)
              ∧ ((ctx.net_sinks (ctx.pin_net pin_id)).length < ctx.SMALL_NET →
                  s1.coords = (get_bb_from_scratch_excluding_block ctx (ctx.pin_net pin_id)
                                s0.coords b_from).1)
              ∧ (¬ (ctx.net_sinks (ctx.pin_net pin_id)).length < ctx.SMALL_NET →
                  get_bb_incrementally ctx (ctx.pin_net pin_id) s0.coords
                    (clamp (pin_coord ctx pin_id).1 ctx.grid_width)
                    (clamp (pin_coord ctx pin_id).2 ctx.grid_height)
                    (non_critical (net_bb_coords ctx (ctx.pin_net pin_id)).xmin
                      (net_bb_coords ctx (ctx.pin_net pin_id)).xmax
                      (clamp (pin_coord ctx pin_id).1 ctx.grid_width))
                    (non_critical (net_bb_coords ctx (ctx.pin_net pin_id)).ymin
                      (net_bb_coords ctx (ctx.pin_net pin_id)).ymax
                      (clamp (pin_coord ctx pin_id).2 ctx.grid_height)) = none →
                  s1.coords = (get_bb_from_scratch_excluding_block ctx (ctx.pin_net pin_id)
                                s0.coords b_from).1)
              ∧ (¬ (ctx.net_sinks (ctx.pin_net pin_id)).length < ctx.SMALL_NET →
                  get_bb_incrementally ctx (ctx.pin_net pin_id) s0.coords
                    (clamp (pin_coord ctx pin_id).1 ctx.grid_width)
                    (clamp (pin_coord ctx pin_id).2 ctx.grid_height)
                    (non_critical (net_bb_coords ctx (ctx.pin_net pin_id)).xmin
                      (net_bb_coords ctx (ctx.pin_net pin_id)).xmax
                      (clamp (pin_coord ctx pin_id).1 ctx.grid_width))
                    (non_critical (net_bb_coords ctx (ctx.pin_net pin_id)).ymin
                      (net_bb_coords ctx (ctx.pin_net pin_id)).ymax
                      (clamp (pin_coord ctx pin_id).2 ctx.grid_height)) ≠ none →
                  valid_cache ctx (ctx.pin_net pin_id) →
                  same_cached_box ctx (ctx.pin_net pin_id) →
                  ∀ i : Nat,
                    (net_coords ctx (ctx.pin_net pin_id))[i]? = some (pin_coord ctx pin_id) →
                    remaining_coords ctx (ctx.pin_net pin_id) b_from
                      = (net_coords ctx (ctx.pin_net pin_id)).eraseIdx i →
                    remaining_coords ctx (ctx.pin_net pin_id) b_from ≠ [] →
                    planar s1.coords
                      = planar (get_bb_from_scratch_excluding_block ctx (ctx.pin_net pin_id)
                                  s0.coords b_from).1))
            ∧ (pin_considered ctx placer_opts b_from pin_id = false →
                s1.X_coord = s0.X_coord ∧ s1.Y_coord = s0.Y_coord) := by
  constructor
  · have := pin_loop_lengths ctx placer_opts b_from _ _ s h
    simpa using this
  · intro s0 s1 pin_id hstep
    obtain ⟨hyes, hno⟩ := pin_step_considered ctx placer_opts b_from s0 s1 pin_id hstep
    constructor
    · intro hc
      have hk := pin_step_considered_coords ctx placer_opts b_from s0 s1 pin_id hstep hc
      obtain ⟨box, hb, eX, eY⟩ := hyes hc
      have hbox : box = s1.coords := by
        rw [hb] at hk
        exact NetOutcome.keep.inj hk
      subst hbox
      obtain ⟨src1, src2, src3⟩ := net_box_keep_source ctx b_from s0.coords s1.coords pin_id hk
      refine ⟨⟨eX, eY⟩, src1, src2, ?_⟩
      intro hlarge hsome hvalid hsame i hp hrem hne
      cases hr : get_bb_incrementally ctx (ctx.pin_net pin_id) s0.coords
          (clamp (pin_coord ctx pin_id).1 ctx.grid_width)
          (clamp (pin_coord ctx pin_id).2 ctx.grid_height)
          (non_critical (net_bb_coords ctx (ctx.pin_net pin_id)).xmin
            (net_bb_coords ctx (ctx.pin_net pin_id)).xmax
            (clamp (pin_coord ctx pin_id).1 ctx.grid_width))
          (non_critical (net_bb_coords ctx (ctx.pin_net pin_id)).ymin
            (net_bb_coords ctx (ctx.pin_net pin_id)).ymax
            (clamp (pin_coord ctx pin_id).2 ctx.grid_height)) with
      | none => exact absurd hr hsome
      | some r =>
        rw [src3 hlarge r hr]
        exact incremental_matches_exclusion_single_pin ctx (ctx.pin_net pin_id) s0.coords
          s0.coords r b_from i (pin_coord ctx pin_id) hvalid hsame hp hrem hne hr
    · intro hc
      exact ⟨(hno hc).1, (hno hc).2.1⟩

/-- Witness for the amended C17 on `two_pin_ctx`, block 3: its only pin, pin 4
at (7,7), is alone on the cached xmax and ymax edges, the incremental update
asks for a recompute, and the pair pushed is that of the exclusion box
(2,6,2,6). -/
theorem one_pair_per_considered_pin_witness :
    accumulate two_pin_ctx sample_opts 3 [] []
        = some { coords := { xmin := 2, xmax := 6, ymin := 2, ymax := 6,
                             layer_min := -1, layer_max := -1 },
                 X_coord := [2, 6], Y_coord := [2, 6], layer_blk_cnt := [0] }
      ∧ ([2, 6] : List Int).length
          = 2 * ((two_pin_ctx.block_pins 3).filter
                  (pin_considered two_pin_ctx sample_opts 3)).length
      ∧ ¬ ((two_pin_ctx.net_sinks (two_pin_ctx.pin_net 4)).length < two_pin_ctx.SMALL_NET)
      ∧ ({ xmin := 2, xmax := 6, ymin := 2, ymax := 6, layer_min := -1, layer_max := -1 } : t_bb)
          = (get_bb_from_scratch_excluding_block two_pin_ctx (two_pin_ctx.pin_net 4)
              { xmin := -1, xmax := -1, ymin := -1, ymax := -1,
                layer_min := -1, layer_max := -1 } 3).1 :=
  ⟨by decide,
   (one_pair_per_considered_pin two_pin_ctx sample_opts 3 [] []
      { coords := { xmin := 2, xmax := 6, ymin := 2, ymax := 6,
                    layer_min := -1, layer_max := -1 },
        X_coord := [2, 6], Y_coord := [2, 6], layer_blk_cnt := [0] }
      (by decide)).1.1,
   by decide,
   (((one_pair_per_considered_pin two_pin_ctx sample_opts 3 [] []
      { coords := { xmin := 2, xmax := 6, ymin := 2, ymax := 6,
                    layer_min := -1, layer_max := -1 },
        X_coord := [2, 6], Y_coord := [2, 6], layer_blk_cnt := [0] }
      (by decide)).2
      { coords := { xmin := -1, xmax := -1, ymin := -1, ymax := -1,
                    layer_min := -1, layer_max := -1 },
        X_coord := [], Y_coord := [], layer_blk_cnt := [0] }
      { coords := { xmin := 2, xmax := 6, ymin := 2, ymax := 6,
                    layer_min := -1, layer_max := -1 },
        X_coord := [2, 6], Y_coord := [2, 6], layer_blk_cnt := [0] }
      4 (by decide)).1 (by decide)).2.2.1 (by decide) (by decide)⟩

/-! ## The ways out of `propose_move` -/

/-- The result of `propose_move` once a block is selected, its tile is
compatible and the pin loop has ended with `s`. -/
theorem propose_move_after_loop {B F : Type} (ctx : Context) (ext : Collaborators B F)
    (blocks_affected : B) (idx : Int) (rlim : F) (placer_opts : t_placer_opts F)
    (X0 Y0 : List Int) (b_from : ClusterBlockId) (s : MoveVars)
    (hsel : ext.propose_block_to_move placer_opts idx = some b_from)
    (hcomp : ext.is_tile_compatible
      (ext.get_physical_type (ctx.block_locs b_from).x (ctx.block_locs b_from).y
        (ctx.block_locs b_from).layer) (ext.block_type b_from) = true)
    (hacc : accumulate ctx placer_opts b_from X0 Y0 = some s) :
    propose_move ctx ext blocks_affected idx rlim placer_opts X0 Y0 =
      match median_target ctx (ctx.block_locs b_from) s with
      | none => none
      | some none =>
        some { result := e_create_move.ABORT, blocks_affected := blocks_affected,
               X_coord := s.X_coord, Y_coord := s.Y_coord }
      | some (some (_, median_point)) =>
        if ¬ (site_search ctx ext rlim placer_opts b_from median_point).1 then
          some { result := e_create_move.ABORT, blocks_affected := blocks_affected,
                 X_coord := stable_sort s.X_coord, Y_coord := stable_sort s.Y_coord }
        else if ¬ ext.floorplan_legal
            (ext.create_move blocks_affected b_from
              (site_search ctx ext rlim placer_opts b_from median_point).2).2 then
          some { result := e_create_move.ABORT,
                 blocks_affected := (ext.create_move blocks_affected b_from
                    (site_search ctx ext rlim placer_opts b_from median_point).2).2,
                 X_coord := stable_sort s.X_coord, Y_coord := stable_sort s.Y_coord }
        else
          some { result := (ext.create_move blocks_affected b_from
                    (site_search ctx ext rlim placer_opts b_from median_point).2).1,
                 blocks_affected := (ext.create_move blocks_affected b_from
                    (site_search ctx ext rlim placer_opts b_from median_point).2).2,
                 X_coord := stable_sort s.X_coord, Y_coord := stable_sort s.Y_coord } := by
  simp only [propose_move, hsel, hcomp, hacc, not_true_eq_false, if_false, site_search]

/-- When the loop ends with an empty vector, `median_target` is the abort of
line 130. -/
theorem median_target_empty (ctx : Context) (from_loc : t_pl_loc) (s : MoveVars)
    (h : s.X_coord = [] ∨ s.Y_coord = []) : median_target ctx from_loc s = some none := by
  have he : s.X_coord.isEmpty = true ∨ s.Y_coord.isEmpty = true := by
    rcases h with h | h
    · left; rw [h]; rfl
    · right; rw [h]; rfl
  simp only [median_target, if_pos he]

/-- When the loop ends with non-empty vectors, the site search is reached. -/
theorem median_target_reached {F : Type} (ctx : Context) (placer_opts : t_placer_opts F)
    (b_from : ClusterBlockId) (X0 Y0 : List Int) (s : MoveVars)
    (hacc : accumulate ctx placer_opts b_from X0 Y0 = some s)
    (hne : ¬ (s.X_coord = [] ∨ s.Y_coord = [])) :
    ∃ limits point, median_target ctx (ctx.block_locs b_from) s
      = some (some (limits, point)) := by
  obtain ⟨k, hX, hY⟩ := accumulate_lengths ctx placer_opts b_from X0 Y0 s hacc
  have hk : 0 < k := by
    rcases Nat.eq_zero_or_pos k with h0 | h0
    · exfalso
      apply hne
      left
      apply List.length_eq_zero.1
      omega
    · exact h0
  obtain ⟨x0, x1, _, _, hlx, _⟩ := median_limits_spec s.X_coord (by omega)
  obtain ⟨y0, y1, _, _, hly, _⟩ := median_limits_spec s.Y_coord (by omega)
  exact ⟨_, _, median_target_spec ctx (ctx.block_locs b_from) s (x0, x1) (y0, y1)
    (by omega) (by omega) hlx hly⟩

/-- C13: `propose_move` returns `ABORT` when the block selector finds no block;
when the loop ends with empty coordinate vectors (in particular when no pin of
the selected block has a considered net); when the site search fails; and when
the floorplan check rejects the constructed move although a site was found.
It returns the result of `create_move` when a site is found and the check
passes, and a result other than `ABORT` can only come about with a block
selected, non-empty vectors, a site found and the check passed. -/
theorem propose_move_abort_cases {B F : Type} (ctx : Context) (ext : Collaborators B F)
    (blocks_affected : B) (idx : Int) (rlim : F) (placer_opts : t_placer_opts F)
    (X0 Y0 : List Int) :
    (ext.propose_block_to_move placer_opts idx = none →
        (propose_move ctx ext blocks_affected idx rlim placer_opts X0 Y0).map
          (fun r => r.result) = some e_create_move.ABORT)
      ∧ (∀ (b_from : ClusterBlockId) (s : MoveVars),
          ext.propose_block_to_move placer_opts idx = some b_from →
          ext.is_tile_compatible
            (ext.get_physical_type (ctx.block_locs b_from).x (ctx.block_locs b_from).y
              (ctx.block_locs b_from).layer) (ext.block_type b_from) = true →
          accumulate ctx placer_opts b_from X0 Y0 = some s →
          ((∀ pin ∈ ctx.block_pins b_from, pin_considered ctx placer_opts b_from pin = false) →
              s.X_coord = [] ∧ s.Y_coord = [])
            ∧ ((s.X_coord = [] ∨ s.Y_coord = []) →
                (propose_move ctx ext blocks_affected idx rlim placer_opts X0 Y0).map
                  (fun r => r.result) = some e_create_move.ABORT)
            ∧ (¬ (s.X_coord = [] ∨ s.Y_coord = []) →
                ∃ limits point,
                  median_target ctx (ctx.block_locs b_from) s = some (some (limits, point))
                  ∧ ((site_search ctx ext rlim placer_opts b_from point).1 = false →
                      (propose_move ctx ext blocks_affected idx rlim placer_opts X0 Y0).map
                        (fun r => r.result) = some e_create_move.ABORT)
                  ∧ ((site_search ctx ext rlim placer_opts b_from point).1 = true →
                      ext.floorplan_legal (ext.create_move blocks_affected b_from
                        (site_search ctx ext rlim placer_opts b_from point).2).2 = false →
                      (propose_move ctx ext blocks_affected idx rlim placer_opts X0 Y0).map
                        (fun r => r.result) = some e_create_move.ABORT)
                  ∧ ((site_search ctx ext rlim placer_opts b_from point).1 = true →
                      ext.floorplan_legal (ext.create_move blocks_affected b_from
                        (site_search ctx ext rlim placer_opts b_from point).2).2 = true →
                      (propose_move ctx ext blocks_affected idx rlim placer_opts X0 Y0).map
                        (fun r => r.result)
                        = some (ext.create_move blocks_affected b_from
                            (site_search ctx ext rlim placer_opts b_from point).2).1)))
      ∧ (∀ r : MoveResult B,
          propose_move ctx ext blocks_affected idx rlim placer_opts X0 Y0 = some r →
          r.result ≠ e_create_move.ABORT →
          ∃ (b_from : ClusterBlockId) (s : MoveVars) (limits : t_bb) (point : t_pl_loc),
            ext.propose_block_to_move placer_opts idx = some b_from
              ∧ accumulate ctx placer_opts b_from X0 Y0 = some s
              ∧ s.X_coord ≠ [] ∧ s.Y_coord ≠ []
              ∧ median_target ctx (ctx.block_locs b_from) s = some (some (limits, point))
              ∧ (site_search ctx ext rlim placer_opts b_from point).1 = true
              ∧ ext.floorplan_legal (ext.create_move blocks_affected b_from
                  (site_search ctx ext rlim placer_opts b_from point).2).2 = true
              ∧ r.result = (ext.create_move blocks_affected b_from
                  (site_search ctx ext rlim placer_opts b_from point).2).1) := by
  have after : ∀ (b_from : ClusterBlockId) (s : MoveVars),
      ext.propose_block_to_move placer_opts idx = some b_from →
      ext.is_tile_compatible
        (ext.get_physical_type (ctx.block_locs b_from).x (ctx.block_locs b_from).y
          (ctx.block_locs b_from).layer) (ext.block_type b_from) = true →
      accumulate ctx placer_opts b_from X0 Y0 = some s →
      ((s.X_coord = [] ∨ s.Y_coord = []) →
          (propose_move ctx ext blocks_affected idx rlim placer_opts X0 Y0).map
            (fun r => r.result) = some e_create_move.ABORT)
        ∧ (¬ (s.X_coord = [] ∨ s.Y_coord = []) →
            ∃ limits point,
              median_target ctx (ctx.block_locs b_from) s = some (some (limits, point))
              ∧ ((site_search ctx ext rlim placer_opts b_from point).1 = false →
                  (propose_move ctx ext blocks_affected idx rlim placer_opts X0 Y0).map
                    (fun r => r.result) = some e_create_move.ABORT)
              ∧ ((site_search ctx ext rlim placer_opts b_from point).1 = true →
                  ext.floorplan_legal (ext.create_move blocks_affected b_from
                    (site_search ctx ext rlim placer_opts b_from point).2).2 = false →
                  (propose_move ctx ext blocks_affected idx rlim placer_opts X0 Y0).map
                    (fun r => r.result) = some e_create_move.ABORT)
              ∧ ((site_search ctx ext rlim placer_opts b_from point).1 = true →
                  ext.floorplan_legal (ext.create_move blocks_affected b_from
                    (site_search ctx ext rlim placer_opts b_from point).2).2 = true →
                  (propose_move ctx ext blocks_affected idx rlim placer_opts X0 Y0).map
                    (fun r => r.result)
                    = some (ext.create_move blocks_affected b_from
                        (site_search ctx ext rlim placer_opts b_from point).2).1)) := by
    intro b_from s hsel hcomp hacc
    have hpm := propose_move_after_loop ctx ext blocks_affected idx rlim placer_opts X0 Y0
      b_from s hsel hcomp hacc
    constructor
    · intro hempty
      rw [hpm, median_target_empty ctx _ s hempty]
      rfl
    · intro hne
      obtain ⟨limits, point, ht⟩ := median_target_reached ctx placer_opts b_from X0 Y0 s hacc hne
      rw [ht] at hpm
      simp only at hpm
      refine ⟨limits, point, ht, ?_, ?_, ?_⟩
      · intro hf
        rw [hpm, hf]
        rfl
      · intro hf hl
        rw [hpm, hf, hl]
        rfl
      · intro hf hl
        rw [hpm, hf, hl]
        rfl
  refine ⟨?_, ?_, ?_⟩
  · intro hnone
    simp only [propose_move, hnone]
    rfl
  · intro b_from s hsel hcomp hacc
    refine ⟨?_, (after b_from s hsel hcomp hacc).1, (after b_from s hsel hcomp hacc).2⟩
    intro hall
    obtain ⟨lX, lY⟩ := pin_loop_lengths ctx placer_opts b_from _ _ s hacc
    have hf : (ctx.block_pins b_from).filter (pin_considered ctx placer_opts b_from) = [] := by
      rw [List.filter_eq_nil_iff]
      intro pin hp
      rw [hall pin hp]
      decide
    rw [hf] at lX lY
    simp only [List.length_nil, Nat.mul_zero, Nat.add_zero] at lX lY
    exact ⟨List.length_eq_zero.1 lX, List.length_eq_zero.1 lY⟩
  · intro r hr hres
    cases hsel : ext.propose_block_to_move placer_opts idx with
    | none =>
      exfalso
      simp only [propose_move, hsel, Option.some.injEq] at hr
      apply hres
      rw [← hr]
    | some b_from =>
      cases hcomp : ext.is_tile_compatible
          (ext.get_physical_type (ctx.block_locs b_from).x (ctx.block_locs b_from).y
            (ctx.block_locs b_from).layer) (ext.block_type b_from) with
      | false =>
        exfalso
        simp [propose_move, hsel, hcomp] at hr
      | true =>
        cases hacc : accumulate ctx placer_opts b_from X0 Y0 with
        | none =>
          exfalso
          simp [propose_move, hsel, hcomp, hacc] at hr
        | some s =>
          obtain ⟨hempty, hreach⟩ := after b_from s hsel hcomp hacc
          have hres2 : (propose_move ctx ext blocks_affected idx rlim placer_opts X0 Y0).map
              (fun r => r.result) = some r.result := by rw [hr]; rfl
          by_cases hne : s.X_coord = [] ∨ s.Y_coord = []
          · exfalso
            rw [hempty hne] at hres2
            exact hres (Option.some.inj hres2).symm
          · obtain ⟨limits, point, ht, c1, c2, c3⟩ := hreach hne
            cases hf : (site_search ctx ext rlim placer_opts b_from point).1 with
            | false =>
              exfalso
              rw [c1 hf] at hres2
              exact hres (Option.some.inj hres2).symm
            | true =>
              cases hl : ext.floorplan_legal (ext.create_move blocks_affected b_from
                  (site_search ctx ext rlim placer_opts b_from point).2).2 with
              | false =>
                exfalso
                rw [c2 hf hl] at hres2
                exact hres (Option.some.inj hres2).symm
              | true =>
                rw [c3 hf hl] at hres2
                refine ⟨b_from, s, limits, point, rfl, hacc, ?_, ?_, ht, hf, hl,
                  (Option.some.inj hres2).symm⟩
                · intro h0; exact hne (Or.inl h0)
                · intro h0; exact hne (Or.inr h0)

/-- Witness for C13: with no block found the result is `ABORT`; on
`two_net_ctx` with a site found and the floorplan check failing it is `ABORT`;
with the check passing it is the `VALID` of `create_move`. -/
theorem propose_move_abort_cases_witness :
    (propose_move two_net_ctx no_block_ext () 0 () sample_opts [] []).map
        (fun r => r.result) = some e_create_move.ABORT
      ∧ (propose_move two_net_ctx (sample_ext true false) () 0 () sample_opts [] []).map
        (fun r => r.result) = some e_create_move.ABORT
      ∧ (propose_move two_net_ctx (sample_ext true true) () 0 () sample_opts [] []).map
        (fun r => r.result) = some e_create_move.VALID :=
  ⟨(propose_move_abort_cases two_net_ctx no_block_ext () 0 () sample_opts [] []).1 rfl,
   by decide, by decide⟩

/-! ## Scratch contents left over from earlier calls -/

/-- C14: two runs of `propose_move` that differ only in what `X_coord` and
`Y_coord` hold on entry, with a block selected, accumulate the same
sequences, hand the same median region and target centre to the site search
and return the same result (result code, affected blocks and final scratch
vectors). -/
theorem entry_scratch_contents_irrelevant {B F : Type} (ctx : Context)
    (ext : Collaborators B F) (blocks_affected : B) (idx : Int) (rlim : F)
    (placer_opts : t_placer_opts F) (X1 Y1 X2 Y2 : List Int)
    (hsel : ∃ b_from, ext.propose_block_to_move placer_opts idx = some b_from) :
    propose_move ctx ext blocks_affected idx rlim placer_opts X1 Y1
        = propose_move ctx ext blocks_affected idx rlim placer_opts X2 Y2
      ∧ (∀ b_from, accumulate ctx placer_opts b_from X1 Y1
          = accumulate ctx placer_opts b_from X2 Y2)
      ∧ (∀ b_from, (accumulate ctx placer_opts b_from X1 Y1).bind
            (median_target ctx (ctx.block_locs b_from))
          = (accumulate ctx placer_opts b_from X2 Y2).bind
            (median_target ctx (ctx.block_locs b_from))) := by
  obtain ⟨b_from, hb⟩ := hsel
  have hacc : ∀ b, accumulate ctx placer_opts b X1 Y1 = accumulate ctx placer_opts b X2 Y2 :=
    fun _ => rfl
  refine ⟨?_, hacc, fun b => by rw [hacc b]⟩
  simp only [propose_move, hb, hacc b_from]

/-- Witness for C14 on `two_net_ctx`: stale contents `[9,9]`, `[8]` against
empty vectors. -/
theorem entry_scratch_contents_irrelevant_witness :
    propose_move two_net_ctx (sample_ext true true) () 0 () sample_opts [9, 9] [8]
      = propose_move two_net_ctx (sample_ext true true) () 0 () sample_opts [] [] :=
  (entry_scratch_contents_irrelevant two_net_ctx (sample_ext true true) () 0 () sample_opts
    [9, 9] [8] [] [] ⟨0, rfl⟩).1

end MedianMove
